import Mathlib

/-!
The k-means kernel `km.c`: shallow embedding and verification.

Two source files are embedded:

* `src/code_base/km/km.c`  (single-process form)  in namespace `KmBase`;
* `src/code_gpt/km/km.c`   (MPI form)             in namespace `KmGpt`.

Modelling conventions.

* `unsigned int` values are `Nat` with an explicit `% 4294967296` at every
  operation that can wrap; `int` values are `Int`.
* `float` arithmetic is kept abstract: every definition takes a record
  `FloatOps F` holding the operations the C code performs on floats.  The
  control-flow theorems hold for every such record; the theorems about nearest
  centroids assume that `<` is a strict weak order on the distances compared;
  the theorems that the specification states "in exact arithmetic" are proved
  for `exactOps`, the record built from a linearly ordered field and a
  square-root function.  Two further records show float behaviour that exact
  arithmetic does not have: `nanOps` (a NaN) and `withBinary32Add` (addition
  rounded to 24 significant bits).
* C arrays are lists; `a[i]` is `List.getD a i d` and `a[i] = v` is
  `List.set a i v`.  The process-wide variables of `km.c` are the fields of
  `Config` (written once by `main`) and `State` (written by the kernel).
* `npoints`, `dimension`, `ncentroids` are `int` in C; they are `Nat` here, so
  negative values (for which the allocation sizes are meaningless) are excluded.
* The `do ... while` loop of `kmeans` takes a fuel argument: the largest number
  of (populate, compute_centroids) steps it may run.  It returns `none` when the
  fuel is used up before the loop condition becomes false.
-/

/-- Operations on `float` values used by `km.c`. -/
structure FloatOps (F : Type) where
  /-- the constant `0` (also the value written by `memset`) -/
  zero : F
  /-- `x + y` as used in `distance += ...` and `centroids[i][k] += ...` -/
  add : F → F → F
  /-- `a[i] - b[i]` -/
  sub : F → F → F
  /-- `pow(x, 2)` -/
  pow2 : F → F
  /-- `sqrt(x)` -/
  sqrt : F → F
  /-- `x < y`; the test `x > y` is `lt y x` -/
  lt : F → F → Bool
  /-- `x *= 1.0/population` -/
  scale : F → Nat → F
  /-- conversion of an unsigned integer to `float` -/
  ofNat : Nat → F

/-- Exact arithmetic over a linearly ordered field, with a given square root. -/
def exactOps (F : Type) [LinearOrderedField F] (sqrt : F → F) : FloatOps F where
  zero := 0
  add := fun x y => x + y
  sub := fun x y => x - y
  pow2 := fun x => x ^ 2
  sqrt := sqrt
  lt := fun x y => decide (x < y)
  scale := fun x p => x * (1 / (p : F))
  ofNat := fun n => (n : F)

/-- The generator state: the globals `randum_w` and `randum_z`. -/
structure Rng where
  randum_w : Nat
  randum_z : Nat
deriving DecidableEq, Repr

/-- The globals written once by `main`: the four numeric arguments and `data`. -/
structure Config (F : Type) where
  npoints : Nat
  dimension : Nat
  ncentroids : Nat
  mindistance : F
  data : List (List F)

/-- The globals written by the kernel. -/
structure State (F : Type) where
  map : List Int
  centroids : List (List F)
  dirty : List Int
  too_far : Int
  has_changed : Int
  rng : Rng

/-- A state word that is a non-zero 32-bit value. -/
def WordOk (x : Nat) : Prop := x ≠ 0 ∧ x < 4294967296

/-- Floor of the square root of a non-negative rational, as a rational
(a computable, monotone square-root function used to instantiate theorems). -/
def floorSqrt (q : ℚ) : ℚ := ((Nat.sqrt (Int.toNat (Int.floor q)) : Nat) : ℚ)

/-- Three points of the plane, two clusters, threshold 0 (a sample input). -/
def sampleCfg : Config ℚ :=
  { npoints := 3, dimension := 2, ncentroids := 2, mindistance := 0,
    data := [[0, 0], [1, 1], [5, 5]] }

/-- Two points on a line, two clusters, threshold 10 (a sample input whose
threshold no distance exceeds). -/
def farCfg : Config ℚ :=
  { npoints := 2, dimension := 1, ncentroids := 2, mindistance := 10, data := [[0], [3]] }

/-! ## `src/code_base/km/km.c` -/

namespace KmBase

/-- `#define RANDNUM_W 521288629;` -/
def RANDNUM_W : Nat := 521288629

/-- `#define RANDNUM_Z 362436069;` -/
def RANDNUM_Z : Nat := 362436069

/-- `srandnum(seed)`, km.c lines 14-20.  The product is an `int` converted to
`unsigned int` by the `&` with `0xffffffff`, that is, taken modulo `2^32`. -/
def srandnum (seed : Int) : Rng :=
  let w := (Int.toNat ((seed * 104623) % 4294967296)) &&& 0xffffffff
  let z := (Int.toNat ((seed * 48947) % 4294967296)) &&& 0xffffffff
  { randum_w := if w ≠ 0 then w else RANDNUM_W
    randum_z := if z ≠ 0 then z else RANDNUM_Z }

/-- `randnum()`, km.c lines 22-28: returns `u` and the new generator state. -/
def randnum (s : Rng) : Nat × Rng :=
  let z := (36969 * (s.randum_z &&& 65535) + (s.randum_z >>> 16)) % 4294967296
  let w := (18000 * (s.randum_w &&& 65535) + (s.randum_w >>> 16)) % 4294967296
  let u := ((z <<< 16) % 4294967296 + w) % 4294967296
  (u, { randum_w := w, randum_z := z })

/-- `v_distance(a, b)`, km.c lines 44-50. -/
def v_distance {F : Type} (ops : FloatOps F) (dimension : Nat) (a b : List F) : F :=
  ops.sqrt ((List.range dimension).foldl
    (fun distance i =>
      ops.add distance (ops.pow2 (ops.sub (a.getD i ops.zero) (b.getD i ops.zero))))
    ops.zero)

/-- One round of the `for (j ...)` loop of `populate` for point `i`
(km.c lines 60-69); the second component is the local `distance`. -/
def populate_scan {F : Type} (ops : FloatOps F) (cfg : Config F) (i : Nat)
    (p : State F × F) (j : Nat) : State F × F :=
  if (j : Int) = p.1.map.getD i 0 then p
  else
    let tmp := v_distance ops cfg.dimension (p.1.centroids.getD j []) (cfg.data.getD i [])
    if ops.lt tmp p.2 then
      ({ p.1 with map := p.1.map.set i (j : Int), dirty := p.1.dirty.set j 1 }, tmp)
    else p

/-- The local `distance` of `populate` for point `i` when the scan over all
clusters has finished (km.c lines 58-69). -/
def populate_best {F : Type} (ops : FloatOps F) (cfg : Config F) (s : State F) (i : Nat) :
    State F × F :=
  (List.range cfg.ncentroids).foldl (populate_scan ops cfg i)
    (s, v_distance ops cfg.dimension
          (s.centroids.getD (Int.toNat (s.map.getD i 0)) []) (cfg.data.getD i []))

/-- One round of the `for (i ...)` loop of `populate` (km.c lines 57-73). -/
def populate_point {F : Type} (ops : FloatOps F) (cfg : Config F) (s : State F) (i : Nat) :
    State F :=
  let p := populate_best ops cfg s i
  if ops.lt cfg.mindistance p.2 then { p.1 with too_far := 1 } else p.1

/-- `populate()`, km.c lines 52-74. -/
def populate {F : Type} (ops : FloatOps F) (cfg : Config F) (s : State F) : State F :=
  (List.range cfg.npoints).foldl (populate_point ops cfg) { s with too_far := 0 }

/-- One round of the `for (j ...)` loop of `compute_centroids` for cluster `i`
(km.c lines 86-92): the row `centroids[i]` and `population`. -/
def accumulate {F : Type} (ops : FloatOps F) (cfg : Config F) (map : List Int) (i : Nat)
    (p : List F × Nat) (j : Nat) : List F × Nat :=
  if map.getD j 0 ≠ (i : Int) then p
  else
    ((List.range cfg.dimension).foldl
        (fun row k => row.set k (ops.add (row.getD k ops.zero)
                                   ((cfg.data.getD j []).getD k ops.zero))) p.1,
      p.2 + 1)

/-- The row written to `centroids[i]` for a dirty cluster `i` (km.c lines 83-96):
`memset`, accumulation over the points, scaling when `population > 1`. -/
def recompute {F : Type} (ops : FloatOps F) (cfg : Config F) (map : List Int) (i : Nat) :
    List F :=
  let p := (List.range cfg.npoints).foldl (accumulate ops cfg map i)
    (List.replicate cfg.dimension ops.zero, 0)
  if p.2 > 1 then
    (List.range cfg.dimension).foldl
      (fun row k => row.set k (ops.scale (row.getD k ops.zero) p.2)) p.1
  else p.1

/-- One round of the `for (i ...)` loop of `compute_centroids` (km.c lines 81-98). -/
def compute_cluster {F : Type} (ops : FloatOps F) (cfg : Config F) (s : State F) (i : Nat) :
    State F :=
  if s.dirty.getD i 0 = 0 then s
  else { s with centroids := s.centroids.set i (recompute ops cfg s.map i), has_changed := 1 }

/-- `compute_centroids()`, km.c lines 76-100. -/
def compute_centroids {F : Type} (ops : FloatOps F) (cfg : Config F) (s : State F) : State F :=
  let s1 := (List.range cfg.ncentroids).foldl (compute_cluster ops cfg) { s with has_changed := 0 }
  { s1 with dirty := List.replicate cfg.ncentroids 0 }

/-- One round of the centroid-drawing loop of `kmeans` (km.c lines 112-118). -/
def init_centroid {F : Type} (ops : FloatOps F) (cfg : Config F) (s : State F) (i : Nat) :
    State F :=
  let r := randnum s.rng
  let j := r.1 % cfg.npoints
  { s with
    dirty := s.dirty.set i 1
    centroids := s.centroids.set i
      ((List.range cfg.dimension).foldl
        (fun row k => row.set k ((cfg.data.getD j []).getD k ops.zero))
        (s.centroids.getD i []))
    map := s.map.set j (i : Int)
    rng := r.2 }

/-- One round of the loop mapping the unmapped points (km.c lines 120-121). -/
def init_unmapped {F : Type} (cfg : Config F) (s : State F) (i : Nat) : State F :=
  if s.map.getD i 0 < 0 then
    let r := randnum s.rng
    { s with map := s.map.set i ((r.1 % cfg.ncentroids : Nat) : Int), rng := r.2 }
  else s

/-- The state of `kmeans` when the allocations and `map[i] = -1` are done
(km.c lines 104-111).  The rows of `centroids` and the entries of `dirty` are
uninitialised in C; every one of them is written before it is read. -/
def kmeans_alloc {F : Type} (ops : FloatOps F) (cfg : Config F) (rng : Rng) : State F :=
  { map := List.replicate cfg.npoints (-1)
    centroids := List.replicate cfg.ncentroids (List.replicate cfg.dimension ops.zero)
    dirty := List.replicate cfg.ncentroids 0
    too_far := 0
    has_changed := 0
    rng := rng }

/-- Initialisation part of `kmeans` (km.c lines 104-121). -/
def kmeans_init {F : Type} (ops : FloatOps F) (cfg : Config F) (rng : Rng) : State F :=
  (List.range cfg.npoints).foldl (init_unmapped cfg)
    ((List.range cfg.ncentroids).foldl (init_centroid ops cfg) (kmeans_alloc ops cfg rng))

/-- The body of the `do ... while` loop (km.c lines 124-125). -/
def kmeans_step {F : Type} (ops : FloatOps F) (cfg : Config F) (s : State F) : State F :=
  compute_centroids ops cfg (populate ops cfg s)

/-- The `do ... while (too_far && has_changed)` loop (km.c lines 123-126),
running at most `fuel` steps. -/
def kmeans_loop {F : Type} (ops : FloatOps F) (cfg : Config F) : Nat → State F → Option (State F)
  | 0, _ => none
  | fuel + 1, s =>
    let s1 := kmeans_step ops cfg s
    if s1.too_far ≠ 0 ∧ s1.has_changed ≠ 0 then kmeans_loop ops cfg fuel s1 else some s1

/-- `kmeans()`, km.c lines 102-133: the returned `map`. -/
def kmeans {F : Type} (ops : FloatOps F) (cfg : Config F) (fuel : Nat) (rng : Rng) :
    Option (List Int) :=
  (kmeans_loop ops cfg fuel (kmeans_init ops cfg rng)).map (fun s => s.map)

/-- The inner loop of the data generation in `main` (km.c lines 154-155). -/
def gen_row {F : Type} (ops : FloatOps F) (dimension : Nat) (rng : Rng) : List F × Rng :=
  (List.range dimension).foldl
    (fun p _ => let r := randnum p.2; (p.1 ++ [ops.ofNat (r.1 &&& 0xffff)], r.2))
    ([], rng)

/-- The data generation in `main` (km.c lines 151-156). -/
def gen_data {F : Type} (ops : FloatOps F) (npoints dimension : Nat) (rng : Rng) :
    List (List F) × Rng :=
  (List.range npoints).foldl
    (fun p _ => let r := gen_row ops dimension p.2; (p.1 ++ [r.1], r.2))
    ([], rng)

/-- The globals of `main` when `kmeans` is called (km.c lines 143-156). -/
def main_config {F : Type} (ops : FloatOps F) (npoints dimension ncentroids : Nat)
    (mindistance : F) (seed : Int) : Config F :=
  { npoints := npoints, dimension := dimension, ncentroids := ncentroids,
    mindistance := mindistance,
    data := (gen_data ops npoints dimension (srandnum seed)).1 }

/-- The generator state of `main` when `kmeans` is called (km.c lines 149-156). -/
def main_rng {F : Type} (ops : FloatOps F) (npoints dimension : Nat) (seed : Int) : Rng :=
  (gen_data ops npoints dimension (srandnum seed)).2

/-- `main`, km.c lines 135-174: the list of integers printed, one per line. -/
def main {F : Type} (ops : FloatOps F) (npoints dimension ncentroids : Nat) (mindistance : F)
    (seed : Int) (fuel : Nat) : Option (List Int) :=
  kmeans ops (main_config ops npoints dimension ncentroids mindistance seed) fuel
    (main_rng ops npoints dimension seed)

/-- State reached from `s` after `n` unconditional loop bodies. -/
def steps {F : Type} (ops : FloatOps F) (cfg : Config F) (n : Nat) (s : State F) : State F :=
  (kmeans_step ops cfg)^[n] s

/-- The generator state after `n` calls of `randnum`. -/
def randnum_iter (n : Nat) (s : Rng) : Rng := (fun t => (randnum t).2)^[n] s

/-- Squared distance between two vectors, in exact arithmetic. -/
def sqdist {F : Type} [LinearOrderedField F] (dimension : Nat) (a b : List F) : F :=
  ∑ k in Finset.range dimension, (a.getD k 0 - b.getD k 0) ^ 2

/-- Squared distance between `centroids[map[i]]` and `data[i]`, in exact arithmetic. -/
def pointCost {F : Type} [LinearOrderedField F] (cfg : Config F) (map : List Int)
    (centroids : List (List F)) (i : Nat) : F :=
  sqdist cfg.dimension (centroids.getD (Int.toNat (map.getD i 0)) []) (cfg.data.getD i [])

/-- Sum over all points of the squared distance to the assigned centroid,
in exact arithmetic. -/
def cost {F : Type} [LinearOrderedField F] (cfg : Config F) (s : State F) : F :=
  ∑ i in Finset.range cfg.npoints, pointCost cfg s.map s.centroids i

/-- Every centroid agrees, on the first `dimension` coordinates, with one of the
data points. -/
def CentroidsFromData {F : Type} (ops : FloatOps F) (cfg : Config F) (cs : List (List F)) :
    Prop :=
  ∀ c, c < cfg.ncentroids → ∃ j, j < cfg.npoints ∧ ∀ k, k < cfg.dimension →
    (cs.getD c []).getD k ops.zero = (cfg.data.getD j []).getD k ops.zero

/-- Every entry of the assignment map is a cluster index. -/
def ValidMap (npoints ncentroids : Nat) (map : List Int) : Prop :=
  map.length = npoints ∧ ∀ i, i < npoints → 0 ≤ map.getD i 0 ∧ map.getD i 0 < (ncentroids : Int)

end KmBase

/-! ## `src/code_gpt/km/km.c` -/

namespace KmGpt

/-- `#define RANDNUM_W 521288629` -/
def RANDNUM_W : Nat := 521288629

/-- `#define RANDNUM_Z 362436069` -/
def RANDNUM_Z : Nat := 362436069

/-- `srandnum(seed)`, km.c lines 15-21. -/
def srandnum (seed : Int) : Rng :=
  let w := (Int.toNat ((seed * 104623) % 4294967296)) &&& 0xffffffff
  let z := (Int.toNat ((seed * 48947) % 4294967296)) &&& 0xffffffff
  { randum_w := if w ≠ 0 then w else RANDNUM_W
    randum_z := if z ≠ 0 then z else RANDNUM_Z }

/-- `randnum()`, km.c lines 23-29: returns `u` and the new generator state. -/
def randnum (s : Rng) : Nat × Rng :=
  let z := (36969 * (s.randum_z &&& 65535) + (s.randum_z >>> 16)) % 4294967296
  let w := (18000 * (s.randum_w &&& 65535) + (s.randum_w >>> 16)) % 4294967296
  let u := ((z <<< 16) % 4294967296 + w) % 4294967296
  (u, { randum_w := w, randum_z := z })

/-- `v_distance(a, b)`, km.c lines 45-51. -/
def v_distance {F : Type} (ops : FloatOps F) (dimension : Nat) (a b : List F) : F :=
  ops.sqrt ((List.range dimension).foldl
    (fun distance i =>
      ops.add distance (ops.pow2 (ops.sub (a.getD i ops.zero) (b.getD i ops.zero))))
    ops.zero)

/-- One round of the `for (j ...)` loop of `populate` for point `i`
(km.c lines 61-70); the second component is the local `distance`. -/
def populate_scan {F : Type} (ops : FloatOps F) (cfg : Config F) (i : Nat)
    (p : State F × F) (j : Nat) : State F × F :=
  if (j : Int) = p.1.map.getD i 0 then p
  else
    let tmp := v_distance ops cfg.dimension (p.1.centroids.getD j []) (cfg.data.getD i [])
    if ops.lt tmp p.2 then
      ({ p.1 with map := p.1.map.set i (j : Int), dirty := p.1.dirty.set j 1 }, tmp)
    else p

/-- The local `distance` of `populate` for point `i` when the scan over all
clusters has finished (km.c lines 59-70). -/
def populate_best {F : Type} (ops : FloatOps F) (cfg : Config F) (s : State F) (i : Nat) :
    State F × F :=
  (List.range cfg.ncentroids).foldl (populate_scan ops cfg i)
    (s, v_distance ops cfg.dimension
          (s.centroids.getD (Int.toNat (s.map.getD i 0)) []) (cfg.data.getD i []))

/-- One round of the `for (i ...)` loop of `populate` (km.c lines 58-74). -/
def populate_point {F : Type} (ops : FloatOps F) (cfg : Config F) (s : State F) (i : Nat) :
    State F :=
  let p := populate_best ops cfg s i
  if ops.lt cfg.mindistance p.2 then { p.1 with too_far := 1 } else p.1

/-- `populate(start, end)`, km.c lines 53-75. -/
def populate {F : Type} (ops : FloatOps F) (cfg : Config F) (start stop : Nat) (s : State F) :
    State F :=
  (List.range' start (stop - start)).foldl (populate_point ops cfg) { s with too_far := 0 }

/-- One round of the `for (j ...)` loop of `compute_centroids` for cluster `i`
(km.c lines 87-93): the row `centroids[i]` and `population`. -/
def accumulate {F : Type} (ops : FloatOps F) (cfg : Config F) (map : List Int) (i : Nat)
    (p : List F × Nat) (j : Nat) : List F × Nat :=
  if map.getD j 0 ≠ (i : Int) then p
  else
    ((List.range cfg.dimension).foldl
        (fun row k => row.set k (ops.add (row.getD k ops.zero)
                                   ((cfg.data.getD j []).getD k ops.zero))) p.1,
      p.2 + 1)

/-- The row written to `centroids[i]` for a dirty cluster `i` (km.c lines 84-97). -/
def recompute {F : Type} (ops : FloatOps F) (cfg : Config F) (start stop : Nat)
    (map : List Int) (i : Nat) : List F :=
  let p := (List.range' start (stop - start)).foldl (accumulate ops cfg map i)
    (List.replicate cfg.dimension ops.zero, 0)
  if p.2 > 1 then
    (List.range cfg.dimension).foldl
      (fun row k => row.set k (ops.scale (row.getD k ops.zero) p.2)) p.1
  else p.1

/-- One round of the `for (i ...)` loop of `compute_centroids` (km.c lines 82-99). -/
def compute_cluster {F : Type} (ops : FloatOps F) (cfg : Config F) (start stop : Nat)
    (s : State F) (i : Nat) : State F :=
  if s.dirty.getD i 0 = 0 then s
  else
    { s with centroids := s.centroids.set i (recompute ops cfg start stop s.map i),
             has_changed := 1 }

/-- `compute_centroids(start, end)`, km.c lines 77-101. -/
def compute_centroids {F : Type} (ops : FloatOps F) (cfg : Config F) (start stop : Nat)
    (s : State F) : State F :=
  let s1 := (List.range cfg.ncentroids).foldl (compute_cluster ops cfg start stop)
    { s with has_changed := 0 }
  { s1 with dirty := List.replicate cfg.ncentroids 0 }

/-- The local `start` of `kmeans(rank, numprocs)` (km.c lines 105-106). -/
def range_start (npoints rank numprocs : Nat) : Nat := rank * (npoints / numprocs)

/-- The local `end` of `kmeans(rank, numprocs)` (km.c lines 107-110). -/
def range_stop (npoints rank numprocs : Nat) : Nat :=
  if (rank : Int) = (numprocs : Int) - 1 then npoints else (rank + 1) * (npoints / numprocs)

/-- One round of the centroid-drawing loop of `kmeans` (km.c lines 120-126). -/
def init_centroid {F : Type} (ops : FloatOps F) (cfg : Config F) (s : State F) (i : Nat) :
    State F :=
  let r := randnum s.rng
  let j := r.1 % cfg.npoints
  { s with
    dirty := s.dirty.set i 1
    centroids := s.centroids.set i
      ((List.range cfg.dimension).foldl
        (fun row k => row.set k ((cfg.data.getD j []).getD k ops.zero))
        (s.centroids.getD i []))
    map := s.map.set j (i : Int)
    rng := r.2 }

/-- One round of the loop mapping the unmapped points (km.c lines 128-129). -/
def init_unmapped {F : Type} (cfg : Config F) (s : State F) (i : Nat) : State F :=
  if s.map.getD i 0 < 0 then
    let r := randnum s.rng
    { s with map := s.map.set i ((r.1 % cfg.ncentroids : Nat) : Int), rng := r.2 }
  else s

/-- The state of `kmeans` when the allocations and `map[i] = -1` are done
(km.c lines 112-119). -/
def kmeans_alloc {F : Type} (ops : FloatOps F) (cfg : Config F) (rng : Rng) : State F :=
  { map := List.replicate cfg.npoints (-1)
    centroids := List.replicate cfg.ncentroids (List.replicate cfg.dimension ops.zero)
    dirty := List.replicate cfg.ncentroids 0
    too_far := 0
    has_changed := 0
    rng := rng }

/-- Initialisation part of `kmeans` (km.c lines 112-129); it does not depend on
the rank. -/
def kmeans_init {F : Type} (ops : FloatOps F) (cfg : Config F) (rng : Rng) : State F :=
  (List.range cfg.npoints).foldl (init_unmapped cfg)
    ((List.range cfg.ncentroids).foldl (init_centroid ops cfg) (kmeans_alloc ops cfg rng))

/-- The local part of the loop body on worker `rank` (km.c lines 132-133). -/
def local_step {F : Type} (ops : FloatOps F) (cfg : Config F) (numprocs rank : Nat)
    (s : State F) : State F :=
  compute_centroids ops cfg (range_start cfg.npoints rank numprocs)
    (range_stop cfg.npoints rank numprocs)
    (populate ops cfg (range_start cfg.npoints rank numprocs)
      (range_stop cfg.npoints rank numprocs) s)

/-- `MPI_Allreduce(MPI_IN_PLACE, ...)`: the contributions of the workers, in rank
order, combined with `op`; a single contribution is returned as it is. -/
def allreduce {α : Type} (op : α → α → α) (dflt : α) : List α → α
  | [] => dflt
  | x :: xs => xs.foldl op x

/-- The four collective reductions of the loop body (km.c lines 136-143); the
workers are listed in rank order and all receive the reduced values. -/
def reduce {F : Type} (ops : FloatOps F) (ws : List (State F)) : List (State F) :=
  let dirty := allreduce (List.zipWith max) [] (ws.map (fun s => s.dirty))
  let too_far := allreduce max 0 (ws.map (fun s => s.too_far))
  let has_changed := allreduce max 0 (ws.map (fun s => s.has_changed))
  let centroids := allreduce (List.zipWith (List.zipWith ops.add)) []
    (ws.map (fun s => s.centroids))
  ws.map (fun s =>
    { s with dirty := dirty, too_far := too_far, has_changed := has_changed,
             centroids := centroids })

/-- The body of the `do ... while` loop on all workers (km.c lines 132-143). -/
def kmeans_step {F : Type} (ops : FloatOps F) (cfg : Config F) (numprocs : Nat)
    (ws : List (State F)) : List (State F) :=
  reduce ops (List.zipWith (local_step ops cfg numprocs) (List.range numprocs) ws)

/-- The `do ... while (too_far && has_changed)` loop (km.c lines 131-145) run in
lockstep by all workers, at most `fuel` steps.  After the reductions the two
flags are the same on every worker; they are read on rank 0. -/
def kmeans_loop {F : Type} (ops : FloatOps F) (cfg : Config F) (numprocs : Nat) :
    Nat → List (State F) → Option (List (State F))
  | 0, _ => none
  | fuel + 1, ws =>
    let ws1 := kmeans_step ops cfg numprocs ws
    if (ws1.map (fun s => s.too_far)).headD 0 ≠ 0 ∧
        (ws1.map (fun s => s.has_changed)).headD 0 ≠ 0 then
      kmeans_loop ops cfg numprocs fuel ws1
    else some ws1

/-- `kmeans(rank, numprocs)` on every rank, km.c lines 103-152: the maps
returned, in rank order. -/
def kmeans {F : Type} (ops : FloatOps F) (cfg : Config F) (numprocs fuel : Nat) (rng : Rng) :
    Option (List (List Int)) :=
  (kmeans_loop ops cfg numprocs fuel (List.replicate numprocs (kmeans_init ops cfg rng))).map
    (fun ws => ws.map (fun s => s.map))

/-- The inner loop of the data generation in `main` (km.c lines 179-180, 197-198). -/
def gen_row {F : Type} (ops : FloatOps F) (dimension : Nat) (rng : Rng) : List F × Rng :=
  (List.range dimension).foldl
    (fun p _ => let r := randnum p.2; (p.1 ++ [ops.ofNat (r.1 &&& 0xffff)], r.2))
    ([], rng)

/-- The data generation in `main` (km.c lines 176-181, 194-199); every rank
computes the same array from the same seed. -/
def gen_data {F : Type} (ops : FloatOps F) (npoints dimension : Nat) (rng : Rng) :
    List (List F) × Rng :=
  (List.range npoints).foldl
    (fun p _ => let r := gen_row ops dimension p.2; (p.1 ++ [r.1], r.2))
    ([], rng)

/-- The globals of `main` when `kmeans` is called (km.c lines 167-200); they
are the same on every rank. -/
def main_config {F : Type} (ops : FloatOps F) (npoints dimension ncentroids : Nat)
    (mindistance : F) (seed : Int) : Config F :=
  { npoints := npoints, dimension := dimension, ncentroids := ncentroids,
    mindistance := mindistance,
    data := (gen_data ops npoints dimension (srandnum seed)).1 }

/-- The generator state of `main` when `kmeans` is called; the same on every rank. -/
def main_rng {F : Type} (ops : FloatOps F) (npoints dimension : Nat) (seed : Int) : Rng :=
  (gen_data ops npoints dimension (srandnum seed)).2

/-- `main`, km.c lines 154-222: the integers printed by rank 0, one per line. -/
def main {F : Type} (ops : FloatOps F) (numprocs npoints dimension ncentroids : Nat)
    (mindistance : F) (seed : Int) (fuel : Nat) : Option (List Int) :=
  (kmeans ops (main_config ops npoints dimension ncentroids mindistance seed) numprocs fuel
    (main_rng ops npoints dimension seed)).map (fun ms => ms.headD [])

/-- The workers after `n` unconditional loop bodies. -/
def steps {F : Type} (ops : FloatOps F) (cfg : Config F) (numprocs n : Nat)
    (ws : List (State F)) : List (State F) :=
  (kmeans_step ops cfg numprocs)^[n] ws

end KmGpt

/-! ## Specification vocabulary for the two passes -/

/-- The members of cluster `c` among the points `start .. stop-1`, in index order. -/
def members (map : List Int) (start stop c : Nat) : List Nat :=
  (List.range' start (stop - start)).filter (fun j => decide (map.getD j 0 = (c : Int)))

/-- The population of cluster `c` among the points `start .. stop-1`. -/
def population (map : List Int) (start stop c : Nat) : Nat :=
  (members map start stop c).length

/-- Outcome of the scan of `populate` for point `i`, in exact arithmetic:
the new cluster `b` is a cluster index, its centroid is at least as near as every
centroid, it is the previous cluster `a` when that one is as near, and otherwise
it is the lowest index among the nearest centroids. -/
def Nearest {F : Type} [LinearOrderedField F] (sqrt : F → F) (cfg : Config F)
    (cs : List (List F)) (i : Nat) (a b : Int) : Prop :=
  (0 ≤ b ∧ b < (cfg.ncentroids : Int)) ∧
  (∀ j, j < cfg.ncentroids →
    KmBase.v_distance (exactOps F sqrt) cfg.dimension (cs.getD (Int.toNat b) [])
        (cfg.data.getD i []) ≤
      KmBase.v_distance (exactOps F sqrt) cfg.dimension (cs.getD j []) (cfg.data.getD i [])) ∧
  (KmBase.v_distance (exactOps F sqrt) cfg.dimension (cs.getD (Int.toNat a) [])
        (cfg.data.getD i []) =
      KmBase.v_distance (exactOps F sqrt) cfg.dimension (cs.getD (Int.toNat b) [])
        (cfg.data.getD i []) → b = a) ∧
  (KmBase.v_distance (exactOps F sqrt) cfg.dimension (cs.getD (Int.toNat a) [])
        (cfg.data.getD i []) ≠
      KmBase.v_distance (exactOps F sqrt) cfg.dimension (cs.getD (Int.toNat b) [])
        (cfg.data.getD i []) →
    ∀ j, j < cfg.ncentroids →
      KmBase.v_distance (exactOps F sqrt) cfg.dimension (cs.getD j []) (cfg.data.getD i []) =
        KmBase.v_distance (exactOps F sqrt) cfg.dimension (cs.getD (Int.toNat b) [])
          (cfg.data.getD i []) →
      Int.toNat b ≤ j)

/-- Four points on a line and two clusters. -/
def movedCfg : Config ℚ :=
  { npoints := 4, dimension := 1, ncentroids := 2, mindistance := 0,
    data := [[0], [2], [3], [10]] }

/-- The state of `movedCfg` after one loop body started from the centroids
`[0]` and `[2]`: points 1, 2, 3 form cluster 1, whose mean is `[5]`; no cluster
is dirty. -/
def movedState : State ℚ :=
  { map := [0, 1, 1, 1], centroids := [[0], [5]], dirty := [0, 0], too_far := 1,
    has_changed := 1, rng := { randum_w := 1, randum_z := 1 } }

/-- A state of `movedCfg` before that loop body: the centroids are the points 0
and 1, both clusters are dirty, points 2 and 3 are still in cluster 0. -/
def movedInit : State ℚ :=
  { map := [0, 1, 0, 0], centroids := [[0], [2]], dirty := [1, 1], too_far := 0,
    has_changed := 0, rng := { randum_w := 1, randum_z := 1 } }

/-- What an assignment pass over the points `start .. start+m-1` has done to the
state `s`, giving `t`, for every interpretation of the float operations:
the centroids, `has_changed` and the generator are untouched; the map keeps its
length and is unchanged outside the range; the dirty set keeps its length and
each entry is as before or 1; a point whose cluster changed is in a cluster
`j < ncentroids` with `dirty[j] = 1`; `too_far` is 0 or 1, and it is 0 exactly when
the test `distance > mindistance` failed for every point of the range. -/
def PassInv {F : Type} (ops : FloatOps F) (cfg : Config F) (start m : Nat)
    (s t : State F) : Prop :=
  (t.centroids = s.centroids ∧ t.has_changed = s.has_changed ∧ t.rng = s.rng) ∧
  t.map.length = s.map.length ∧
  (∀ k, ¬ (start ≤ k ∧ k < start + m) → t.map.getD k 0 = s.map.getD k 0) ∧
  (t.dirty.length = s.dirty.length ∧
    ∀ c, t.dirty.getD c 0 = s.dirty.getD c 0 ∨ t.dirty.getD c 0 = 1) ∧
  (∀ k, start ≤ k → k < start + m → t.map.getD k 0 ≠ s.map.getD k 0 →
    ∃ j, j < cfg.ncentroids ∧ t.map.getD k 0 = (j : Int) ∧
      (j < s.dirty.length → t.dirty.getD j 0 = 1)) ∧
  ((t.too_far = 0 ∨ t.too_far = 1) ∧
    (t.too_far = 0 ↔ ∀ k, start ≤ k → k < start + m →
      ops.lt cfg.mindistance
        (KmBase.v_distance ops cfg.dimension
          (s.centroids.getD (Int.toNat (t.map.getD k 0)) []) (cfg.data.getD k [])) = false))

namespace KmBase

/-- The value returned by the call number `n` (counted from 0) of `randnum()`
made from the generator state `rng`. -/
def output (rng : Rng) (n : Nat) : Nat := (randnum (randnum_iter n rng)).1

/-- The point index drawn for cluster `i` by the initialisation of `kmeans`
started from the generator state `rng`: `j_i = r_i mod npoints`. -/
def draw (npoints : Nat) (rng : Rng) (i : Nat) : Nat := output rng i % npoints

/-- Whether some cluster `i < ncentroids` drew the point `p`. -/
def drawn (npoints ncentroids : Nat) (rng : Rng) (p : Nat) : Bool :=
  (List.range ncentroids).any (fun i => decide (draw npoints rng i = p))

/-- The number of points below `p` that no cluster drew. -/
def undrawnBefore (npoints ncentroids : Nat) (rng : Rng) (p : Nat) : Nat :=
  ((List.range p).filter (fun q => !drawn npoints ncentroids rng q)).length

end KmBase

/-- The configuration that `main` builds from the arguments `3 1 2 0 0`
(`npoints = 3`, `dimension = 1`, `ncentroids = 2`, `mindistance = 0`, `seed = 0`). -/
def seedZeroCfg : Config ℚ :=
  { npoints := 3, dimension := 1, ncentroids := 2, mindistance := 0,
    data := [[17826], [7942], [26880]] }

/-- The state after the initialisation of `kmeans` for the arguments `3 1 2 0 0`:
cluster 0 drew point 1, cluster 1 drew point 0, and point 2 was given cluster 0. -/
def seedZeroInit : State ℚ :=
  { map := [1, 0, 0], centroids := [[7942], [17826]], dirty := [1, 1], too_far := 0,
    has_changed := 0, rng := { randum_w := 167739224, randum_z := 888536067 } }

/-! ## Specification vocabulary for the comparison of distances -/

/-- The distance that `populate` computes between the centroid `cs[c]` and the
point `i`: `v_distance(centroids[c], data[i])`. -/
def centroidDistance {F : Type} (ops : FloatOps F) (cfg : Config F) (cs : List (List F))
    (i c : Nat) : F :=
  KmBase.v_distance ops cfg.dimension (cs.getD c []) (cfg.data.getD i [])

/-- On the distances from the point `i` to the `ncentroids` centroids the
comparison `<` of the code is a strict weak order: it is asymmetric, and "not less
than" is transitive.  The comparison of IEEE floats has both properties on values
none of which is a NaN. -/
def DistOrdered {F : Type} (ops : FloatOps F) (cfg : Config F) (cs : List (List F))
    (i : Nat) : Prop :=
  (∀ j k, j < cfg.ncentroids → k < cfg.ncentroids →
    ops.lt (centroidDistance ops cfg cs i j) (centroidDistance ops cfg cs i k) = true →
    ops.lt (centroidDistance ops cfg cs i k) (centroidDistance ops cfg cs i j) = false) ∧
  (∀ j k l, j < cfg.ncentroids → k < cfg.ncentroids → l < cfg.ncentroids →
    ops.lt (centroidDistance ops cfg cs i j) (centroidDistance ops cfg cs i k) = false →
    ops.lt (centroidDistance ops cfg cs i k) (centroidDistance ops cfg cs i l) = false →
    ops.lt (centroidDistance ops cfg cs i j) (centroidDistance ops cfg cs i l) = false)

/-- Outcome of the scan of `populate` for point `i`, stated with the comparison
`<` of the code (`x <= y` is read as "not `y < x`", and two distances tie when
neither is less than the other): the new cluster `b` is a cluster index; no
centroid is nearer than the centroid of `b`; when the centroid of the previous
cluster `a` is as near as the centroid of `b`, `b = a`; otherwise `b` is the lowest
index among the centroids that are as near as the centroid of `b`. -/
def NearestBy {F : Type} (ops : FloatOps F) (cfg : Config F) (cs : List (List F))
    (i : Nat) (a b : Int) : Prop :=
  (0 ≤ b ∧ b < (cfg.ncentroids : Int)) ∧
  (∀ j, j < cfg.ncentroids →
    ops.lt (centroidDistance ops cfg cs i j)
      (centroidDistance ops cfg cs i (Int.toNat b)) = false) ∧
  (ops.lt (centroidDistance ops cfg cs i (Int.toNat b))
      (centroidDistance ops cfg cs i (Int.toNat a)) = false → b = a) ∧
  (ops.lt (centroidDistance ops cfg cs i (Int.toNat b))
      (centroidDistance ops cfg cs i (Int.toNat a)) = true →
    ∀ j, j < cfg.ncentroids →
      ops.lt (centroidDistance ops cfg cs i (Int.toNat b))
        (centroidDistance ops cfg cs i j) = false →
      Int.toNat b ≤ j)

/-- Floats as rationals together with a NaN (`none`): the arithmetic of finite
values is exact with the given square root (which `v_distance` applies to sums of
squares only), every operation on a NaN gives a NaN, and every comparison with a
NaN is false, as for IEEE floats. -/
def nanOps (sqrt : ℚ → ℚ) : FloatOps (Option ℚ) where
  zero := some 0
  add := fun x y => x.bind (fun a => y.map (fun b => a + b))
  sub := fun x y => x.bind (fun a => y.map (fun b => a - b))
  pow2 := fun x => x.map (fun a => a ^ 2)
  sqrt := fun x => x.map sqrt
  lt := fun x y =>
    match x with
    | none => false
    | some a =>
      match y with
      | none => false
      | some b => decide (a < b)
  scale := fun x p => x.map (fun a => a * (1 / (p : ℚ)))
  ofNat := fun n => some (n : ℚ)

/-- The comparison `x <= y` of floats with a NaN: false when either is a NaN. -/
def nanLe (x y : Option ℚ) : Bool :=
  match x with
  | none => false
  | some a =>
    match y with
    | none => false
    | some b => decide (a ≤ b)

/-- Four points on a line and four clusters. -/
def meanCfg : Config ℚ :=
  { npoints := 4, dimension := 1, ncentroids := 4, mindistance := 0,
    data := [[4], [2], [3], [10]] }

/-- A state of `meanCfg` on entry to a recomputation pass: cluster 0 holds point 0,
cluster 1 holds points 1, 2 and 3, clusters 2 and 3 are empty; clusters 0, 1 and 2
are dirty and cluster 3 is not; every centroid is `[7]`. -/
def meanState : State ℚ :=
  { map := [0, 1, 1, 1], centroids := [[7], [7], [7], [7]], dirty := [1, 1, 1, 0],
    too_far := 1, has_changed := 0, rng := { randum_w := 1, randum_z := 1 } }

/-! ## The generator -/

theorem land_65535 (z : Nat) : z &&& 65535 = z % 65536 := by
  have h := Nat.and_pow_two_sub_one_eq_mod z 16
  simpa using h

theorem land_32bit (z : Nat) : z &&& 4294967295 = z % 4294967296 := by
  have h := Nat.and_pow_two_sub_one_eq_mod z 32
  simpa using h

theorem shr_16 (z : Nat) : z >>> 16 = z / 65536 := by
  simp [Nat.shiftRight_eq_div_pow]

theorem mwc_wordOk (c x : Nat) (hc : 0 < c) (hc2 : c ≤ 36969) (hx : WordOk x) :
    WordOk ((c * (x &&& 65535) + (x >>> 16)) % 4294967296) := by
  obtain ⟨h0, h1⟩ := hx
  rw [land_65535, shr_16]
  have h2 : x % 65536 < 65536 := Nat.mod_lt _ (by norm_num)
  have h3 : x / 65536 < 65536 := by omega
  have h4 : c * (x % 65536) ≤ 36969 * 65535 := Nat.mul_le_mul hc2 (by omega)
  have h5 : c * (x % 65536) + x / 65536 < 4294967296 := by omega
  rw [Nat.mod_eq_of_lt h5]
  refine ⟨?_, h5⟩
  intro h
  have h6 : c * (x % 65536) = 0 := by omega
  have h7 : x % 65536 = 0 := by
    rcases Nat.mul_eq_zero.mp h6 with h8 | h8
    · omega
    · exact h8
  omega

theorem srandnum_wordOk (seed : Int) :
    WordOk (KmBase.srandnum seed).randum_w ∧ WordOk (KmBase.srandnum seed).randum_z := by
  have key : ∀ c : Int, ∀ d : Nat, WordOk d →
      WordOk (if (Int.toNat ((seed * c) % 4294967296)) &&& 0xffffffff ≠ 0
        then (Int.toNat ((seed * c) % 4294967296)) &&& 0xffffffff else d) := by
    intro c d hd
    split
    · rename_i h
      refine ⟨h, ?_⟩
      rw [land_32bit]
      exact Nat.mod_lt _ (by norm_num)
    · exact hd
  constructor
  · exact key 104623 KmBase.RANDNUM_W ⟨by decide, by decide⟩
  · exact key 48947 KmBase.RANDNUM_Z ⟨by decide, by decide⟩

theorem randnum_wordOk (s : Rng) (hw : WordOk s.randum_w) (hz : WordOk s.randum_z) :
    WordOk (KmBase.randnum s).2.randum_w ∧ WordOk (KmBase.randnum s).2.randum_z :=
  ⟨mwc_wordOk 18000 _ (by norm_num) (by norm_num) hw,
   mwc_wordOk 36969 _ (by norm_num) (by norm_num) hz⟩

theorem randnum_iter_wordOk (n : Nat) (s : Rng) (hw : WordOk s.randum_w)
    (hz : WordOk s.randum_z) :
    WordOk (KmBase.randnum_iter n s).randum_w ∧ WordOk (KmBase.randnum_iter n s).randum_z := by
  induction n with
  | zero => exact ⟨hw, hz⟩
  | succ n ih =>
    unfold KmBase.randnum_iter at ih ⊢
    rw [Function.iterate_succ_apply']
    exact randnum_wordOk _ ih.1 ih.2

/-- C1: for every generator state of two 32-bit words, `randnum()` replaces
`z` by `36969*(z & 0xFFFF) + (z >> 16)` and `w` by `18000*(w & 0xFFFF) + (w >> 16)`,
neither of which exceeds `2^32 - 1`, and returns `((z' << 16) + w') mod 2^32`;
the two source files define the same function. -/
theorem randnum_spec (w z : Nat) (hw : w < 4294967296) (hz : z < 4294967296) :
    36969 * (z &&& 0xFFFF) + (z >>> 16) ≤ 4294967295 ∧
    18000 * (w &&& 0xFFFF) + (w >>> 16) ≤ 4294967295 ∧
    KmBase.randnum { randum_w := w, randum_z := z } =
      ((((36969 * (z &&& 0xFFFF) + (z >>> 16)) <<< 16) +
          (18000 * (w &&& 0xFFFF) + (w >>> 16))) % 4294967296,
        { randum_w := 18000 * (w &&& 0xFFFF) + (w >>> 16),
          randum_z := 36969 * (z &&& 0xFFFF) + (z >>> 16) }) ∧
    KmGpt.randnum = KmBase.randnum := by
  have hz1 : 36969 * (z &&& 0xFFFF) + (z >>> 16) ≤ 4294967295 := by
    rw [land_65535, shr_16]
    have h2 : z % 65536 < 65536 := Nat.mod_lt _ (by norm_num)
    omega
  have hw1 : 18000 * (w &&& 0xFFFF) + (w >>> 16) ≤ 4294967295 := by
    rw [land_65535, shr_16]
    have h2 : w % 65536 < 65536 := Nat.mod_lt _ (by norm_num)
    omega
  refine ⟨hz1, hw1, ?_, rfl⟩
  unfold KmBase.randnum
  simp only
  rw [Nat.mod_eq_of_lt (show 36969 * (z &&& 65535) + (z >>> 16) < 4294967296 by omega),
    Nat.mod_eq_of_lt (show 18000 * (w &&& 65535) + (w >>> 16) < 4294967296 by omega)]
  simp only [Nat.mod_add_mod]

theorem randnum_spec_witness :
    (104623 < 4294967296 ∧ 48947 < 4294967296) ∧
    KmBase.randnum { randum_w := 104623, randum_z := 48947 } =
      ((((36969 * (48947 &&& 0xFFFF) + (48947 >>> 16)) <<< 16) +
          (18000 * (104623 &&& 0xFFFF) + (104623 >>> 16))) % 4294967296,
        { randum_w := 18000 * (104623 &&& 0xFFFF) + (104623 >>> 16),
          randum_z := 36969 * (48947 &&& 0xFFFF) + (48947 >>> 16) }) :=
  ⟨⟨by decide, by decide⟩, (randnum_spec 104623 48947 (by decide) (by decide)).2.2.1⟩

/-- C2: for every seed, both state words are non-zero after `srandnum(seed)`
and after any number `n` of subsequent `randnum()` calls. -/
theorem srandnum_never_zero (seed : Int) (n : Nat) :
    ((KmBase.srandnum seed).randum_w ≠ 0 ∧ (KmBase.srandnum seed).randum_z ≠ 0) ∧
    ((KmBase.randnum_iter n (KmBase.srandnum seed)).randum_w ≠ 0 ∧
      (KmBase.randnum_iter n (KmBase.srandnum seed)).randum_z ≠ 0) := by
  have h0 := srandnum_wordOk seed
  have h1 := randnum_iter_wordOk n _ h0.1 h0.2
  exact ⟨⟨h0.1.1, h0.2.1⟩, ⟨h1.1.1, h1.2.1⟩⟩

/-! ## Lists as arrays -/

theorem getD_set {α : Type} (l : List α) (i j : Nat) (a d : α) :
    (l.set i a).getD j d = if i = j ∧ i < l.length then a else l.getD j d := by
  simp only [List.getD_eq_getElem?_getD, List.getElem?_set]
  by_cases h1 : i = j
  · subst h1
    by_cases h2 : i < l.length
    · simp [h2]
    · have h3 : l[i]? = none := List.getElem?_eq_none (by omega)
      simp [h2, h3]
  · simp [h1]

theorem getD_set_ne {α : Type} (l : List α) (i j : Nat) (a d : α) (h : i ≠ j) :
    (l.set i a).getD j d = l.getD j d := by
  rw [getD_set]; simp [h]

theorem getD_set_eq {α : Type} (l : List α) (i : Nat) (a d : α) (h : i < l.length) :
    (l.set i a).getD i d = a := by
  rw [getD_set]; simp [h]

theorem getD_replicate {α : Type} (n i : Nat) (a d : α) (h : i < n) :
    (List.replicate n a).getD i d = a := by
  simp [List.getD_eq_getElem?_getD, List.getElem?_replicate, h]

theorem range_one : List.range 1 = [0] := rfl

/-- A loop invariant `P` is preserved by a fold whose rounds all preserve it. -/
theorem foldl_inv {α β : Type} (P : β → Prop) (Q : α → Prop) (f : β → α → β)
    (h : ∀ b a, P b → Q a → P (f b a)) :
    ∀ (l : List α) (b : β), P b → (∀ a ∈ l, Q a) → P (l.foldl f b) := by
  intro l
  induction l with
  | nil => intro b hb _; exact hb
  | cons x xs ih =>
    intro b hb hq
    simp only [List.foldl_cons]
    exact ih _ (h b x hb (hq x (List.mem_cons_self _ _)))
      (fun a ha => hq a (List.mem_cons_of_mem _ ha))

/-- A loop over `0 .. n-1` with an invariant that depends on the round counter. -/
theorem foldl_range_inv {β : Type} (P : Nat → β → Prop) (f : β → Nat → β) (n : Nat)
    (h : ∀ k b, k < n → P k b → P (k + 1) (f b k)) (b : β) (h0 : P 0 b) :
    P n ((List.range n).foldl f b) := by
  induction n with
  | zero => simpa using h0
  | succ n ih =>
    rw [List.range_succ, List.foldl_append]
    simp only [List.foldl_cons, List.foldl_nil]
    exact h n _ (Nat.lt_succ_self n)
      (ih (fun k b hk hp => h k b (Nat.lt_succ_of_lt hk) hp))

/-! ## The assignment map holds cluster indices -/

namespace KmBase

theorem validMap_set {n c : Nat} {m : List Int} (h : ValidMap n c m) (i j : Nat)
    (hj : j < c) : ValidMap n c (m.set i (j : Int)) := by
  refine ⟨by rw [List.length_set]; exact h.1, ?_⟩
  intro k hk
  rw [getD_set]
  split
  · exact ⟨Int.natCast_nonneg j, by exact_mod_cast hj⟩
  · exact h.2 k hk

theorem populate_scan_validMap {F : Type} (ops : FloatOps F) (cfg : Config F) (i : Nat)
    (p : State F × F) (j : Nat) (hj : j < cfg.ncentroids)
    (h : ValidMap cfg.npoints cfg.ncentroids p.1.map) :
    ValidMap cfg.npoints cfg.ncentroids (populate_scan ops cfg i p j).1.map := by
  unfold populate_scan
  split
  · exact h
  · simp only
    split
    · exact validMap_set h i j hj
    · exact h

theorem populate_best_validMap {F : Type} (ops : FloatOps F) (cfg : Config F) (s : State F)
    (i : Nat) (h : ValidMap cfg.npoints cfg.ncentroids s.map) :
    ValidMap cfg.npoints cfg.ncentroids (populate_best ops cfg s i).1.map := by
  unfold populate_best
  exact foldl_inv (fun p : State F × F => ValidMap cfg.npoints cfg.ncentroids p.1.map)
    (fun j => j < cfg.ncentroids) _
    (fun p j hp hj => populate_scan_validMap ops cfg i p j hj hp) _ _ h
    (fun j hj => List.mem_range.mp hj)

theorem populate_point_validMap {F : Type} (ops : FloatOps F) (cfg : Config F) (s : State F)
    (i : Nat) (h : ValidMap cfg.npoints cfg.ncentroids s.map) :
    ValidMap cfg.npoints cfg.ncentroids (populate_point ops cfg s i).map := by
  unfold populate_point
  simp only
  split
  · exact populate_best_validMap ops cfg s i h
  · exact populate_best_validMap ops cfg s i h

theorem populate_validMap {F : Type} (ops : FloatOps F) (cfg : Config F) (s : State F)
    (h : ValidMap cfg.npoints cfg.ncentroids s.map) :
    ValidMap cfg.npoints cfg.ncentroids (populate ops cfg s).map := by
  unfold populate
  exact foldl_inv (fun t : State F => ValidMap cfg.npoints cfg.ncentroids t.map)
    (fun _ => True) _
    (fun t i ht _ => populate_point_validMap ops cfg t i ht) _ _ h (fun _ _ => trivial)

theorem compute_cluster_map {F : Type} (ops : FloatOps F) (cfg : Config F) (s : State F)
    (i : Nat) : (compute_cluster ops cfg s i).map = s.map := by
  unfold compute_cluster
  split <;> rfl

theorem compute_centroids_map {F : Type} (ops : FloatOps F) (cfg : Config F) (s : State F) :
    (compute_centroids ops cfg s).map = s.map := by
  unfold compute_centroids
  simp only
  exact foldl_inv (fun t : State F => t.map = s.map) (fun _ => True) _
    (fun t i ht _ => (compute_cluster_map ops cfg t i).trans ht) _ _ rfl (fun _ _ => trivial)

theorem kmeans_step_validMap {F : Type} (ops : FloatOps F) (cfg : Config F) (s : State F)
    (h : ValidMap cfg.npoints cfg.ncentroids s.map) :
    ValidMap cfg.npoints cfg.ncentroids (kmeans_step ops cfg s).map := by
  unfold kmeans_step
  rw [compute_centroids_map]
  exact populate_validMap ops cfg s h

theorem steps_succ {F : Type} (ops : FloatOps F) (cfg : Config F) (n : Nat) (s : State F) :
    steps ops cfg (n + 1) s = kmeans_step ops cfg (steps ops cfg n s) := by
  unfold steps
  rw [Function.iterate_succ_apply']

theorem steps_validMap {F : Type} (ops : FloatOps F) (cfg : Config F) (n : Nat) (s : State F)
    (h : ValidMap cfg.npoints cfg.ncentroids s.map) :
    ValidMap cfg.npoints cfg.ncentroids (steps ops cfg n s).map := by
  induction n with
  | zero => exact h
  | succ n ih => rw [steps_succ]; exact kmeans_step_validMap ops cfg _ ih

/-- The loop returns the state reached after some number of loop bodies,
between one and the fuel. -/
theorem kmeans_loop_steps {F : Type} (ops : FloatOps F) (cfg : Config F) :
    ∀ (fuel : Nat) (s t : State F), kmeans_loop ops cfg fuel s = some t →
      ∃ n, 1 ≤ n ∧ n ≤ fuel ∧ t = steps ops cfg n s := by
  intro fuel
  induction fuel with
  | zero => intro s t h; simp [kmeans_loop] at h
  | succ fuel ih =>
    intro s t h
    simp only [kmeans_loop] at h
    split at h
    · obtain ⟨n, h1, h2, h3⟩ := ih _ _ h
      refine ⟨n + 1, by omega, by omega, ?_⟩
      rw [h3]
      unfold steps
      rw [Function.iterate_succ_apply]
    · refine ⟨1, le_refl 1, by omega, ?_⟩
      simp only [Option.some.injEq] at h
      rw [← h]
      rfl

theorem init_centroid_map {F : Type} (ops : FloatOps F) (cfg : Config F) (s : State F)
    (i : Nat) (hi : i < cfg.ncentroids)
    (h : s.map.length = cfg.npoints ∧
      ∀ k, k < cfg.npoints → -1 ≤ s.map.getD k 0 ∧ s.map.getD k 0 < (cfg.ncentroids : Int)) :
    (init_centroid ops cfg s i).map.length = cfg.npoints ∧
      ∀ k, k < cfg.npoints → -1 ≤ (init_centroid ops cfg s i).map.getD k 0 ∧
        (init_centroid ops cfg s i).map.getD k 0 < (cfg.ncentroids : Int) := by
  unfold init_centroid
  simp only
  refine ⟨by rw [List.length_set]; exact h.1, ?_⟩
  intro k hk
  rw [getD_set]
  split
  · exact ⟨by omega, by exact_mod_cast hi⟩
  · exact h.2 k hk

theorem init_unmapped_map {F : Type} (cfg : Config F) (hc : 1 ≤ cfg.ncentroids) (k : Nat)
    (s : State F)
    (h : (s.map.length = cfg.npoints ∧
      ∀ i, i < cfg.npoints → -1 ≤ s.map.getD i 0 ∧ s.map.getD i 0 < (cfg.ncentroids : Int)) ∧
      ∀ i, i < k → 0 ≤ s.map.getD i 0) :
    ((init_unmapped cfg s k).map.length = cfg.npoints ∧
      ∀ i, i < cfg.npoints → -1 ≤ (init_unmapped cfg s k).map.getD i 0 ∧
        (init_unmapped cfg s k).map.getD i 0 < (cfg.ncentroids : Int)) ∧
      ∀ i, i < k + 1 → 0 ≤ (init_unmapped cfg s k).map.getD i 0 := by
  obtain ⟨⟨h1, h2⟩, h3⟩ := h
  unfold init_unmapped
  split
  · simp only
    have hr : (randnum s.rng).1 % cfg.ncentroids < cfg.ncentroids := Nat.mod_lt _ hc
    refine ⟨⟨by rw [List.length_set]; exact h1, ?_⟩, ?_⟩
    · intro i hi
      rw [getD_set]
      split
      · exact ⟨by omega, by exact_mod_cast hr⟩
      · exact h2 i hi
    · intro i hi
      rw [getD_set]
      split
      · exact Int.natCast_nonneg _
      · rename_i hne
        by_cases hik : i = k
        · subst hik
          have hlen : ¬ (i < s.map.length) := fun hl => hne ⟨rfl, hl⟩
          have : s.map.getD i 0 = 0 := by
            rw [List.getD_eq_getElem?_getD, List.getElem?_eq_none (by omega)]
            rfl
          omega
        · exact h3 i (by omega)
  · rename_i hnn
    refine ⟨⟨h1, h2⟩, ?_⟩
    intro i hi
    by_cases hik : i = k
    · subst hik; omega
    · exact h3 i (by omega)

theorem kmeans_init_validMap {F : Type} (ops : FloatOps F) (cfg : Config F) (rng : Rng)
    (hc : 1 ≤ cfg.ncentroids) :
    ValidMap cfg.npoints cfg.ncentroids (kmeans_init ops cfg rng).map := by
  have h1 : (kmeans_alloc ops cfg rng).map.length = cfg.npoints ∧
      ∀ k, k < cfg.npoints → -1 ≤ (kmeans_alloc ops cfg rng).map.getD k 0 ∧
        (kmeans_alloc ops cfg rng).map.getD k 0 < (cfg.ncentroids : Int) := by
    unfold kmeans_alloc
    simp only [List.length_replicate, true_and]
    intro k hk
    rw [getD_replicate _ _ _ _ hk]
    omega
  have h2 := foldl_inv (fun t : State F => t.map.length = cfg.npoints ∧
      ∀ k, k < cfg.npoints → -1 ≤ t.map.getD k 0 ∧ t.map.getD k 0 < (cfg.ncentroids : Int))
    (fun i => i < cfg.ncentroids) (init_centroid ops cfg)
    (fun t i ht hi => init_centroid_map ops cfg t i hi ht)
    (List.range cfg.ncentroids) _ h1 (fun i hi => List.mem_range.mp hi)
  have h3 := foldl_range_inv (fun k (t : State F) => (t.map.length = cfg.npoints ∧
      ∀ i, i < cfg.npoints → -1 ≤ t.map.getD i 0 ∧ t.map.getD i 0 < (cfg.ncentroids : Int)) ∧
      ∀ i, i < k → 0 ≤ t.map.getD i 0) (init_unmapped cfg) cfg.npoints
    (fun k t _ ht => init_unmapped_map cfg hc k t ht) _ ⟨h2, fun i hi => by omega⟩
  unfold kmeans_init
  exact ⟨h3.1.1, fun i hi => ⟨h3.2 i hi, (h3.1.2 i hi).2⟩⟩

end KmBase

/-- C3: for `npoints >= 1` and `ncentroids >= 1` the assignment map has `npoints`
entries, all in `[0, ncentroids)`, when initialisation has finished, after every
`populate` pass and after every `compute_centroids` pass (`n` counts the loop
bodies already run); so has every map returned by `kmeans` and printed by `main`. -/
theorem map_entries_in_range {F : Type} (ops : FloatOps F) (cfg : Config F) (rng : Rng)
    (_hn : 1 ≤ cfg.npoints) (hc : 1 ≤ cfg.ncentroids) :
    KmBase.ValidMap cfg.npoints cfg.ncentroids (KmBase.kmeans_init ops cfg rng).map ∧
    (∀ n, KmBase.ValidMap cfg.npoints cfg.ncentroids
            (KmBase.populate ops cfg
              (KmBase.steps ops cfg n (KmBase.kmeans_init ops cfg rng))).map ∧
          KmBase.ValidMap cfg.npoints cfg.ncentroids
            (KmBase.compute_centroids ops cfg (KmBase.populate ops cfg
              (KmBase.steps ops cfg n (KmBase.kmeans_init ops cfg rng)))).map) ∧
    (∀ fuel m, KmBase.kmeans ops cfg fuel rng = some m →
        KmBase.ValidMap cfg.npoints cfg.ncentroids m) ∧
    (∀ seed fuel out,
        KmBase.main ops cfg.npoints cfg.dimension cfg.ncentroids cfg.mindistance seed fuel
          = some out →
        out.length = cfg.npoints ∧ ∀ x ∈ out, 0 ≤ x ∧ x < (cfg.ncentroids : Int)) := by
  have key : ∀ (c : Config F) (r : Rng), 1 ≤ c.ncentroids → ∀ fuel m,
      KmBase.kmeans ops c fuel r = some m → KmBase.ValidMap c.npoints c.ncentroids m := by
    intro c r hc1 fuel m h
    unfold KmBase.kmeans at h
    rcases hl : KmBase.kmeans_loop ops c fuel (KmBase.kmeans_init ops c r) with _ | t
    · rw [hl] at h; simp at h
    · rw [hl] at h
      simp only [Option.map_some', Option.some.injEq] at h
      obtain ⟨n, _, _, h3⟩ := KmBase.kmeans_loop_steps ops c fuel _ _ hl
      rw [← h, h3]
      exact KmBase.steps_validMap ops c n _ (KmBase.kmeans_init_validMap ops c r hc1)
  have h0 := KmBase.kmeans_init_validMap ops cfg rng hc
  refine ⟨h0, ?_, key cfg rng hc, ?_⟩
  · intro n
    have h1 := KmBase.populate_validMap ops cfg _ (KmBase.steps_validMap ops cfg n _ h0)
    refine ⟨h1, ?_⟩
    rw [KmBase.compute_centroids_map]
    exact h1
  · intro seed fuel out h
    unfold KmBase.main at h
    have h1 := (fun hc1 => key _ _ hc1 fuel out h) hc
    simp only at h1
    refine ⟨h1.1, ?_⟩
    intro x hx
    obtain ⟨i, hi, hxi⟩ := List.getElem_of_mem hx
    have h2 := h1.2 i (by rw [← h1.1]; exact hi)
    rw [List.getD_eq_getElem?_getD, List.getElem?_eq_getElem hi] at h2
    simp only [Option.getD_some] at h2
    rw [hxi] at h2
    exact h2

theorem map_entries_in_range_witness :
    (1 ≤ sampleCfg.npoints ∧ 1 ≤ sampleCfg.ncentroids) ∧
    KmBase.ValidMap sampleCfg.npoints sampleCfg.ncentroids
      (KmBase.kmeans_init (exactOps ℚ floorSqrt) sampleCfg (KmBase.srandnum 1)).map :=
  ⟨⟨by decide, by decide⟩,
    (map_entries_in_range (exactOps ℚ floorSqrt) sampleCfg (KmBase.srandnum 1)
      (by decide) (by decide)).1⟩

/-! ## A single cluster -/

namespace KmBase

theorem validMap_one {n : Nat} {m : List Int} (h : ValidMap n 1 m) :
    m = List.replicate n 0 := by
  apply List.ext_getElem
  · rw [List.length_replicate]; exact h.1
  · intro i h1 h2
    have h3 := h.2 i (by rw [← h.1]; exact h1)
    rw [List.getD_eq_getElem?_getD, List.getElem?_eq_getElem h1] at h3
    simp only [Option.getD_some] at h3
    rw [List.getElem_replicate]
    omega

theorem populate_scan_same {F : Type} (ops : FloatOps F) (cfg : Config F) (i : Nat)
    (p : State F × F) (j : Nat) (h : (j : Int) = p.1.map.getD i 0) :
    populate_scan ops cfg i p j = p := by
  unfold populate_scan
  rw [if_pos h]

theorem populate_point_one {F : Type} (ops : FloatOps F) (cfg : Config F)
    (hc : cfg.ncentroids = 1) (t : State F) (i : Nat) (hi : i < cfg.npoints)
    (h : ValidMap cfg.npoints 1 t.map) :
    (populate_point ops cfg t i).map = t.map ∧ (populate_point ops cfg t i).dirty = t.dirty := by
  have h0 : ((0 : Nat) : Int) = t.map.getD i 0 := by
    have := h.2 i hi
    omega
  have h1 : populate_best ops cfg t i =
      (t, v_distance ops cfg.dimension
            (t.centroids.getD (Int.toNat (t.map.getD i 0)) []) (cfg.data.getD i [])) := by
    unfold populate_best
    rw [hc, range_one]
    simp only [List.foldl_cons, List.foldl_nil]
    exact populate_scan_same ops cfg i _ 0 h0
  unfold populate_point
  simp only [h1]
  split <;> exact ⟨rfl, rfl⟩

theorem populate_one {F : Type} (ops : FloatOps F) (cfg : Config F)
    (hc : cfg.ncentroids = 1) (s : State F) (h : ValidMap cfg.npoints 1 s.map) :
    (populate ops cfg s).map = s.map ∧ (populate ops cfg s).dirty = s.dirty := by
  unfold populate
  refine foldl_inv (fun t : State F => t.map = s.map ∧ t.dirty = s.dirty)
    (fun i => i < cfg.npoints) _ ?_ _ _ ⟨rfl, rfl⟩ (fun i hi => List.mem_range.mp hi)
  intro t i ht hi
  have h1 := populate_point_one ops cfg hc t i hi (by rw [ht.1]; exact h)
  exact ⟨h1.1.trans ht.1, h1.2.trans ht.2⟩

theorem compute_centroids_one_clean {F : Type} (ops : FloatOps F) (cfg : Config F)
    (hc : cfg.ncentroids = 1) (s : State F) (hd : s.dirty.getD 0 0 = 0) :
    (compute_centroids ops cfg s).has_changed = 0 := by
  unfold compute_centroids
  rw [hc, range_one]
  simp only [List.foldl_cons, List.foldl_nil]
  unfold compute_cluster
  rw [if_pos hd]

theorem compute_centroids_dirty {F : Type} (ops : FloatOps F) (cfg : Config F) (s : State F) :
    (compute_centroids ops cfg s).dirty = List.replicate cfg.ncentroids 0 := rfl

/-- With one cluster and a valid map the loop stops within two steps and
leaves the map as it is. -/
theorem kmeans_loop_one {F : Type} (ops : FloatOps F) (cfg : Config F)
    (hc : cfg.ncentroids = 1) (s : State F) (h : ValidMap cfg.npoints 1 s.map)
    (fuel : Nat) (hf : 2 ≤ fuel) :
    ∃ t, kmeans_loop ops cfg fuel s = some t ∧ t.map = s.map ∧
      (t = steps ops cfg 1 s ∨ t = steps ops cfg 2 s) := by
  obtain ⟨f, rfl⟩ : ∃ f, fuel = f + 2 := ⟨fuel - 2, by omega⟩
  have hs1 : (kmeans_step ops cfg s).map = s.map := by
    unfold kmeans_step
    rw [compute_centroids_map]
    exact (populate_one ops cfg hc s h).1
  have hd1 : (kmeans_step ops cfg s).dirty = List.replicate 1 0 := by
    unfold kmeans_step
    rw [compute_centroids_dirty, hc]
  have hv1 : ValidMap cfg.npoints 1 (kmeans_step ops cfg s).map := by rw [hs1]; exact h
  have hs2 : (kmeans_step ops cfg (kmeans_step ops cfg s)).map = s.map := by
    unfold kmeans_step at hv1 ⊢
    rw [compute_centroids_map]
    exact ((populate_one ops cfg hc _ hv1).1).trans hs1
  have hc2 : (kmeans_step ops cfg (kmeans_step ops cfg s)).has_changed = 0 := by
    have hp := (populate_one ops cfg hc _ hv1).2
    unfold kmeans_step at hd1 hp ⊢
    apply compute_centroids_one_clean ops cfg hc
    rw [hp, hd1]
    rfl
  by_cases hcond : (kmeans_step ops cfg s).too_far ≠ 0 ∧ (kmeans_step ops cfg s).has_changed ≠ 0
  · refine ⟨kmeans_step ops cfg (kmeans_step ops cfg s), ?_, hs2, Or.inr rfl⟩
    rw [kmeans_loop, if_pos hcond, kmeans_loop, if_neg (by rw [hc2]; simp)]
  · refine ⟨kmeans_step ops cfg s, ?_, hs1, Or.inl rfl⟩
    rw [kmeans_loop, if_neg hcond]

end KmBase

/-- C4: in the single-process form, for `npoints >= 1`, every dimension, every
`mindistance` and every seed, if `ncentroids == 1` then `kmeans` returns within
two (populate, compute_centroids) steps and the returned map is `0` at every point. -/
theorem single_cluster_all_zero {F : Type} (ops : FloatOps F) (cfg : Config F) (rng : Rng)
    (_hn : 1 ≤ cfg.npoints) (hc : cfg.ncentroids = 1) :
    KmBase.kmeans ops cfg 2 rng = some (List.replicate cfg.npoints 0) ∧
    (∀ fuel, 2 ≤ fuel → KmBase.kmeans ops cfg fuel rng = some (List.replicate cfg.npoints 0)) ∧
    (∀ seed fuel, 2 ≤ fuel →
      KmBase.main ops cfg.npoints cfg.dimension 1 cfg.mindistance seed fuel =
        some (List.replicate cfg.npoints 0)) := by
  have key : ∀ (c : Config F) (r : Rng), c.ncentroids = 1 → ∀ fuel, 2 ≤ fuel →
      KmBase.kmeans ops c fuel r = some (List.replicate c.npoints 0) := by
    intro c r hc1 fuel hf
    have hv : KmBase.ValidMap c.npoints 1 (KmBase.kmeans_init ops c r).map := by
      have := KmBase.kmeans_init_validMap ops c r (by omega)
      rw [hc1] at this
      exact this
    obtain ⟨t, h1, h2, _⟩ := KmBase.kmeans_loop_one ops c hc1 _ hv fuel hf
    unfold KmBase.kmeans
    rw [h1]
    simp only [Option.map_some', Option.some.injEq]
    rw [h2]
    exact KmBase.validMap_one hv
  refine ⟨key cfg rng hc 2 (le_refl 2), key cfg rng hc, ?_⟩
  intro seed fuel hf
  unfold KmBase.main
  exact (fun h1 => key _ _ h1 fuel hf) rfl

theorem single_cluster_all_zero_witness :
    (1 ≤ 3 ∧ (1 : Nat) = 1) ∧
    KmBase.kmeans (exactOps ℚ floorSqrt)
      { npoints := 3, dimension := 2, ncentroids := 1, mindistance := 0,
        data := [[0, 0], [1, 1], [5, 5]] } 2 (KmBase.srandnum 1) = some [0, 0, 0] :=
  ⟨⟨by decide, rfl⟩,
    (single_cluster_all_zero (exactOps ℚ floorSqrt)
      { npoints := 3, dimension := 2, ncentroids := 1, mindistance := 0,
        data := [[0, 0], [1, 1], [5, 5]] } (KmBase.srandnum 1) (by decide) rfl).1⟩

/-! ## An unreachable threshold -/

namespace KmBase

theorem v_distance_congr {F : Type} (ops : FloatOps F) (dimension : Nat) (a a1 b : List F)
    (h : ∀ k, k < dimension → a.getD k ops.zero = a1.getD k ops.zero) :
    v_distance ops dimension a b = v_distance ops dimension a1 b := by
  unfold v_distance
  congr 1
  apply List.foldl_ext
  intro d k hk
  rw [h k (List.mem_range.mp hk)]

/-- Writing `g k` to `row[k]` for every `k < n` in a row of `n` entries. -/
theorem row_fill {F : Type} (g : Nat → F) (d : F) (n : Nat) (row : List F)
    (hr : row.length = n) :
    ((List.range n).foldl (fun r k => r.set k (g k)) row).length = n ∧
    ∀ k, k < n → ((List.range n).foldl (fun r k => r.set k (g k)) row).getD k d = g k := by
  have h := foldl_range_inv
    (fun m (r : List F) => r.length = n ∧ ∀ k, k < m → r.getD k d = g k)
    (fun r k => r.set k (g k)) n
    (fun m r hm hP => by
      refine ⟨by rw [List.length_set]; exact hP.1, ?_⟩
      intro k hk
      rw [getD_set]
      split
      · rename_i hmk; rw [hmk.1]
      · rename_i hmk
        have hne : k ≠ m := fun e => hmk ⟨e.symm, by rw [hP.1]; exact hm⟩
        exact hP.2 k (by omega))
    row ⟨hr, fun k hk => by omega⟩
  exact h

theorem populate_scan_frame {F : Type} (ops : FloatOps F) (cfg : Config F) (i : Nat)
    (p : State F × F) (j : Nat) :
    (populate_scan ops cfg i p j).1.centroids = p.1.centroids ∧
    (populate_scan ops cfg i p j).1.too_far = p.1.too_far ∧
    (populate_scan ops cfg i p j).1.has_changed = p.1.has_changed ∧
    (populate_scan ops cfg i p j).1.rng = p.1.rng := by
  unfold populate_scan
  split
  · exact ⟨rfl, rfl, rfl, rfl⟩
  · simp only
    split <;> exact ⟨rfl, rfl, rfl, rfl⟩

theorem populate_best_frame {F : Type} (ops : FloatOps F) (cfg : Config F) (s : State F)
    (i : Nat) :
    (populate_best ops cfg s i).1.centroids = s.centroids ∧
    (populate_best ops cfg s i).1.too_far = s.too_far ∧
    (populate_best ops cfg s i).1.has_changed = s.has_changed ∧
    (populate_best ops cfg s i).1.rng = s.rng := by
  unfold populate_best
  refine foldl_inv (fun p : State F × F => p.1.centroids = s.centroids ∧
      p.1.too_far = s.too_far ∧ p.1.has_changed = s.has_changed ∧ p.1.rng = s.rng)
    (fun _ => True) _ ?_ _ _ ⟨rfl, rfl, rfl, rfl⟩ (fun _ _ => trivial)
  intro p j hp _
  have h := populate_scan_frame ops cfg i p j
  exact ⟨h.1.trans hp.1, h.2.1.trans hp.2.1, h.2.2.1.trans hp.2.2.1, h.2.2.2.trans hp.2.2.2⟩

theorem populate_point_centroids {F : Type} (ops : FloatOps F) (cfg : Config F) (s : State F)
    (i : Nat) : (populate_point ops cfg s i).centroids = s.centroids := by
  unfold populate_point
  simp only
  split <;> exact (populate_best_frame ops cfg s i).1

theorem populate_centroids {F : Type} (ops : FloatOps F) (cfg : Config F) (s : State F) :
    (populate ops cfg s).centroids = s.centroids := by
  unfold populate
  exact foldl_inv (fun t : State F => t.centroids = s.centroids) (fun _ => True) _
    (fun t i ht _ => (populate_point_centroids ops cfg t i).trans ht) _ _ rfl
    (fun _ _ => trivial)

/-- The local `distance` at the end of the scan is the distance from the point
to one of the centroids. -/
theorem populate_best_is_distance {F : Type} (ops : FloatOps F) (cfg : Config F) (s : State F)
    (i : Nat) (hi : i < cfg.npoints) (hv : ValidMap cfg.npoints cfg.ncentroids s.map) :
    ∃ c, c < cfg.ncentroids ∧ (populate_best ops cfg s i).2 =
      v_distance ops cfg.dimension (s.centroids.getD c []) (cfg.data.getD i []) := by
  unfold populate_best
  refine foldl_inv (fun p : State F × F => p.1.centroids = s.centroids ∧
      ∃ c, c < cfg.ncentroids ∧
        p.2 = v_distance ops cfg.dimension (s.centroids.getD c []) (cfg.data.getD i []))
    (fun j => j < cfg.ncentroids) _ ?_ _ _ ⟨rfl, ?_⟩ (fun j hj => List.mem_range.mp hj) |>.2
  · intro p j hp hj
    refine ⟨(populate_scan_frame ops cfg i p j).1.trans hp.1, ?_⟩
    unfold populate_scan
    split
    · exact hp.2
    · simp only
      split
      · exact ⟨j, hj, by rw [hp.1]⟩
      · exact hp.2
  · have h := hv.2 i hi
    exact ⟨Int.toNat (s.map.getD i 0), by omega, rfl⟩

theorem populate_not_too_far {F : Type} (ops : FloatOps F) (cfg : Config F) (s : State F)
    (hv : ValidMap cfg.npoints cfg.ncentroids s.map)
    (hd : ∀ i c, i < cfg.npoints → c < cfg.ncentroids →
      ops.lt cfg.mindistance
        (v_distance ops cfg.dimension (s.centroids.getD c []) (cfg.data.getD i [])) = false) :
    (populate ops cfg s).too_far = 0 := by
  unfold populate
  refine foldl_inv (fun t : State F => t.centroids = s.centroids ∧
      ValidMap cfg.npoints cfg.ncentroids t.map ∧ t.too_far = 0)
    (fun i => i < cfg.npoints) _ ?_ (List.range cfg.npoints) { s with too_far := 0 }
    ⟨rfl, hv, rfl⟩ (fun i hi => List.mem_range.mp hi) |>.2.2
  intro t i ht hi
  refine ⟨(populate_point_centroids ops cfg t i).trans ht.1,
    populate_point_validMap ops cfg t i ht.2.1, ?_⟩
  obtain ⟨c, hc, hbest⟩ := populate_best_is_distance ops cfg t i hi ht.2.1
  unfold populate_point
  simp only
  rw [hbest, ht.1, hd i c hi hc]
  simp only [Bool.false_eq_true, if_false]
  exact (populate_best_frame ops cfg t i).2.1.trans ht.2.2

theorem compute_cluster_too_far {F : Type} (ops : FloatOps F) (cfg : Config F) (s : State F)
    (i : Nat) : (compute_cluster ops cfg s i).too_far = s.too_far := by
  unfold compute_cluster
  split <;> rfl

theorem compute_centroids_too_far {F : Type} (ops : FloatOps F) (cfg : Config F)
    (s : State F) : (compute_centroids ops cfg s).too_far = s.too_far := by
  unfold compute_centroids
  simp only
  exact foldl_inv (fun t : State F => t.too_far = s.too_far) (fun _ => True) _
    (fun t i ht _ => (compute_cluster_too_far ops cfg t i).trans ht) _ _ rfl
    (fun _ _ => trivial)

theorem kmeans_loop_one_step {F : Type} (ops : FloatOps F) (cfg : Config F) (s : State F)
    (h : (populate ops cfg s).too_far = 0) (fuel : Nat) (hf : 1 ≤ fuel) :
    kmeans_loop ops cfg fuel s = some (kmeans_step ops cfg s) := by
  obtain ⟨f, rfl⟩ : ∃ f, fuel = f + 1 := ⟨fuel - 1, by omega⟩
  have h1 : (kmeans_step ops cfg s).too_far = 0 := by
    unfold kmeans_step
    rw [compute_centroids_too_far]
    exact h
  rw [kmeans_loop, if_neg (by rw [h1]; simp)]

theorem init_unmapped_centroids {F : Type} (cfg : Config F) (s : State F) (i : Nat) :
    (init_unmapped cfg s i).centroids = s.centroids := by
  unfold init_unmapped
  split <;> rfl

theorem kmeans_init_centroids {F : Type} (ops : FloatOps F) (cfg : Config F) (rng : Rng)
    (hn : 1 ≤ cfg.npoints) :
    (kmeans_init ops cfg rng).centroids.length = cfg.ncentroids ∧
    CentroidsFromData ops cfg (kmeans_init ops cfg rng).centroids := by
  have h1 := foldl_range_inv
    (fun m (t : State F) => t.centroids.length = cfg.ncentroids ∧
      (∀ c, c < cfg.ncentroids → (t.centroids.getD c []).length = cfg.dimension) ∧
      ∀ c, c < m → ∃ j, j < cfg.npoints ∧ ∀ k, k < cfg.dimension →
        (t.centroids.getD c []).getD k ops.zero = (cfg.data.getD j []).getD k ops.zero)
    (init_centroid ops cfg) cfg.ncentroids
    (fun m t hm hP => by
      obtain ⟨hl, hrow, hdata⟩ := hP
      have hfill := row_fill
        (fun k => (cfg.data.getD ((randnum t.rng).1 % cfg.npoints) []).getD k ops.zero)
        ops.zero cfg.dimension (t.centroids.getD m []) (hrow m hm)
      unfold init_centroid
      simp only
      refine ⟨by rw [List.length_set]; exact hl, ?_, ?_⟩
      · intro c hc
        rw [getD_set]
        split
        · exact hfill.1
        · exact hrow c hc
      · intro c hc
        rw [getD_set]
        split
        · exact ⟨_, Nat.mod_lt _ hn, hfill.2⟩
        · rename_i hne
          have hcm : c ≠ m := fun e => hne ⟨e.symm, by rw [hl]; exact hm⟩
          exact hdata c (by omega))
    (kmeans_alloc ops cfg rng)
    ⟨by unfold kmeans_alloc; simp,
     fun c hc => by
      unfold kmeans_alloc
      simp only
      rw [getD_replicate _ _ _ _ hc, List.length_replicate],
     fun c hc => by omega⟩
  have h2 : (kmeans_init ops cfg rng).centroids =
      ((List.range cfg.ncentroids).foldl (init_centroid ops cfg)
        (kmeans_alloc ops cfg rng)).centroids := by
    unfold kmeans_init
    exact foldl_inv (fun t : State F => t.centroids =
        ((List.range cfg.ncentroids).foldl (init_centroid ops cfg)
          (kmeans_alloc ops cfg rng)).centroids) (fun _ => True) _
      (fun t i ht _ => (init_unmapped_centroids cfg t i).trans ht) _ _ rfl
      (fun _ _ => trivial)
  rw [h2]
  exact ⟨h1.1, h1.2.2⟩

end KmBase

/-- When no distance between two data points exceeds the threshold, the first
`populate` pass leaves `too_far` at 0 and the loop runs one step. -/
theorem one_step_of_far {F : Type} (ops : FloatOps F) (cfg : Config F)
    (rng : Rng) (hn : 1 ≤ cfg.npoints) (hc : 1 ≤ cfg.ncentroids)
    (hfar : ∀ p q, p < cfg.npoints → q < cfg.npoints →
      ops.lt cfg.mindistance
        (KmBase.v_distance ops cfg.dimension (cfg.data.getD p []) (cfg.data.getD q [])) = false) :
    (KmBase.populate ops cfg (KmBase.kmeans_init ops cfg rng)).too_far = 0 ∧
    (∀ fuel, 1 ≤ fuel →
      KmBase.kmeans_loop ops cfg fuel (KmBase.kmeans_init ops cfg rng) =
        some (KmBase.kmeans_step ops cfg (KmBase.kmeans_init ops cfg rng))) ∧
    (∀ fuel, 1 ≤ fuel →
      KmBase.kmeans ops cfg fuel rng =
        some (KmBase.kmeans_step ops cfg (KmBase.kmeans_init ops cfg rng)).map) := by
  have hcent := (KmBase.kmeans_init_centroids ops cfg rng hn).2
  have hv := KmBase.kmeans_init_validMap ops cfg rng hc
  have h1 : (KmBase.populate ops cfg (KmBase.kmeans_init ops cfg rng)).too_far = 0 := by
    apply KmBase.populate_not_too_far ops cfg _ hv
    intro i c hi hcc
    obtain ⟨j, hj, hjk⟩ := hcent c hcc
    rw [KmBase.v_distance_congr ops cfg.dimension _ (cfg.data.getD j []) _ hjk]
    exact hfar j i hj hi
  refine ⟨h1, fun fuel hf => KmBase.kmeans_loop_one_step ops cfg _ h1 fuel hf, ?_⟩
  intro fuel hf
  unfold KmBase.kmeans
  rw [KmBase.kmeans_loop_one_step ops cfg _ h1 fuel hf]
  rfl

/-- C5: in the single-process form, for `npoints >= 1` and `ncentroids >= 1`, if
`mindistance` is at least the distance between every two generated points (the
test `distance > mindistance` of the code fails for every pair), then `too_far`
is false after the first `populate` pass and the loop of `kmeans` runs exactly one
(populate, compute_centroids) step, whatever `has_changed` is. -/
theorem unreachable_threshold_one_step {F : Type} (ops : FloatOps F) (cfg : Config F)
    (rng : Rng) (hn : 1 ≤ cfg.npoints) (hc : 1 ≤ cfg.ncentroids)
    (hfar : ∀ p q, p < cfg.npoints → q < cfg.npoints →
      ops.lt cfg.mindistance
        (KmBase.v_distance ops cfg.dimension (cfg.data.getD p []) (cfg.data.getD q [])) = false) :
    (KmBase.populate ops cfg (KmBase.kmeans_init ops cfg rng)).too_far = 0 ∧
    (∀ fuel, 1 ≤ fuel →
      KmBase.kmeans_loop ops cfg fuel (KmBase.kmeans_init ops cfg rng) =
        some (KmBase.kmeans_step ops cfg (KmBase.kmeans_init ops cfg rng))) ∧
    (∀ fuel, 1 ≤ fuel →
      KmBase.kmeans ops cfg fuel rng =
        some (KmBase.kmeans_step ops cfg (KmBase.kmeans_init ops cfg rng)).map) :=
  one_step_of_far ops cfg rng hn hc hfar

theorem floorSqrt_zero : floorSqrt 0 = 0 := by
  simp [floorSqrt]

theorem farCfg_far (p q : Nat) (hp : p < farCfg.npoints) (hq : q < farCfg.npoints) :
    (exactOps ℚ floorSqrt).lt farCfg.mindistance
      (KmBase.v_distance (exactOps ℚ floorSqrt) farCfg.dimension
        (farCfg.data.getD p []) (farCfg.data.getD q [])) = false := by
  have h9 : floorSqrt 9 ≤ 10 := by
    have h : Nat.sqrt (Int.toNat 9) ≤ Int.toNat 9 := Nat.sqrt_le_self _
    have h2 : Nat.sqrt (Int.toNat 9) ≤ 10 := le_trans h (by decide)
    simp only [floorSqrt]
    have h3 : Int.floor (9 : ℚ) = 9 := by simp
    rw [h3]
    exact_mod_cast h2
  have hp2 : p < 2 := hp
  have hq2 : q < 2 := hq
  interval_cases p <;> interval_cases q <;>
    simp [exactOps, KmBase.v_distance, farCfg, List.range_succ, floorSqrt_zero] <;>
    norm_num <;> exact h9

theorem unreachable_threshold_one_step_witness :
    (1 ≤ farCfg.npoints ∧ 1 ≤ farCfg.ncentroids) ∧
    (KmBase.populate (exactOps ℚ floorSqrt) farCfg
      (KmBase.kmeans_init (exactOps ℚ floorSqrt) farCfg (KmBase.srandnum 1))).too_far = 0 :=
  ⟨⟨by decide, by decide⟩,
    (unreachable_threshold_one_step (exactOps ℚ floorSqrt) farCfg (KmBase.srandnum 1)
      (by decide) (by decide) farCfg_far).1⟩

/-! ## One point, one coordinate, one cluster -/

namespace KmBase

theorem gen_data_one_one {F : Type} (ops : FloatOps F) (rng : Rng) :
    (gen_data ops 1 1 rng).1 = [[ops.ofNat ((randnum rng).1 &&& 0xffff)]] := by
  unfold gen_data gen_row
  rw [range_one]
  rfl

theorem v_distance_self_one {F : Type} (ops : FloatOps F) (x : F)
    (hsub : ops.sub x x = ops.zero) (hpow : ops.pow2 ops.zero = ops.zero)
    (hadd : ops.add ops.zero ops.zero = ops.zero) (hsqrt : ops.sqrt ops.zero = ops.zero) :
    v_distance ops 1 [x] [x] = ops.zero := by
  unfold v_distance
  rw [range_one]
  simp only [List.foldl_cons, List.foldl_nil, List.getD_cons_zero]
  rw [hsub, hpow, hadd, hsqrt]

end KmBase

/-- C9: for `npoints = 1`, `dimension = 1`, `ncentroids = 1`, `mindistance = 0`
and every seed, `too_far` is false after the first `populate` pass, the loop of the
single-process `kmeans` runs exactly one (populate, compute_centroids) step, and
the map returned and printed is `[0]`.  The arithmetic facts used are
`x - x = 0` for a converted integer `x`, `pow(0, 2) = 0`, `0 + 0 = 0`,
`sqrt(0) = 0` and that `0 > 0` is false. -/
theorem single_point_scenario {F : Type} (ops : FloatOps F) (seed : Int)
    (hsub : ∀ n, ops.sub (ops.ofNat n) (ops.ofNat n) = ops.zero)
    (hpow : ops.pow2 ops.zero = ops.zero)
    (hadd : ops.add ops.zero ops.zero = ops.zero)
    (hsqrt : ops.sqrt ops.zero = ops.zero)
    (hlt : ops.lt ops.zero ops.zero = false) :
    (KmBase.populate ops (KmBase.main_config ops 1 1 1 ops.zero seed)
      (KmBase.kmeans_init ops (KmBase.main_config ops 1 1 1 ops.zero seed)
        (KmBase.main_rng ops 1 1 seed))).too_far = 0 ∧
    (∀ fuel, 1 ≤ fuel →
      KmBase.kmeans_loop ops (KmBase.main_config ops 1 1 1 ops.zero seed) fuel
        (KmBase.kmeans_init ops (KmBase.main_config ops 1 1 1 ops.zero seed)
          (KmBase.main_rng ops 1 1 seed)) =
      some (KmBase.kmeans_step ops (KmBase.main_config ops 1 1 1 ops.zero seed)
        (KmBase.kmeans_init ops (KmBase.main_config ops 1 1 1 ops.zero seed)
          (KmBase.main_rng ops 1 1 seed)))) ∧
    (∀ fuel, 1 ≤ fuel → KmBase.main ops 1 1 1 ops.zero seed fuel = some [0]) := by
  have hfar : ∀ p q, p < (KmBase.main_config ops 1 1 1 ops.zero seed).npoints →
      q < (KmBase.main_config ops 1 1 1 ops.zero seed).npoints →
      ops.lt (KmBase.main_config ops 1 1 1 ops.zero seed).mindistance
        (KmBase.v_distance ops (KmBase.main_config ops 1 1 1 ops.zero seed).dimension
          ((KmBase.main_config ops 1 1 1 ops.zero seed).data.getD p [])
          ((KmBase.main_config ops 1 1 1 ops.zero seed).data.getD q [])) = false := by
    intro p q hp hq
    have hp0 : p = 0 := Nat.lt_one_iff.mp hp
    have hq0 : q = 0 := Nat.lt_one_iff.mp hq
    subst hp0 hq0
    have hdata : (KmBase.main_config ops 1 1 1 ops.zero seed).data =
        [[ops.ofNat ((KmBase.randnum (KmBase.srandnum seed)).1 &&& 0xffff)]] :=
      KmBase.gen_data_one_one ops _
    rw [hdata]
    show ops.lt ops.zero (KmBase.v_distance ops 1 [_] [_]) = false
    rw [KmBase.v_distance_self_one ops _ (hsub _) hpow hadd hsqrt]
    exact hlt
  have h5 := one_step_of_far ops (KmBase.main_config ops 1 1 1 ops.zero seed)
    (KmBase.main_rng ops 1 1 seed) (le_refl 1) (le_refl 1) hfar
  refine ⟨h5.1, h5.2.1, ?_⟩
  intro fuel hf
  have hv := KmBase.kmeans_step_validMap ops (KmBase.main_config ops 1 1 1 ops.zero seed) _
    (KmBase.kmeans_init_validMap ops (KmBase.main_config ops 1 1 1 ops.zero seed)
      (KmBase.main_rng ops 1 1 seed) (le_refl 1))
  unfold KmBase.main
  rw [h5.2.2 fuel hf, KmBase.validMap_one hv]
  rfl

theorem single_point_scenario_witness :
    KmBase.main (exactOps ℚ floorSqrt) 1 1 1 0 42 1 = some [0] :=
  (single_point_scenario (exactOps ℚ floorSqrt) 42
    (fun n => sub_self (n : ℚ)) (by simp [exactOps]) (by simp [exactOps]) floorSqrt_zero
    (by simp [exactOps])).2.2 1 (le_refl 1)

/-! ## Distance in dimension one -/

/-- C10: when `dimension = 1`, in exact arithmetic (a square root that returns `x`
on the square of a non-negative `x`), `v_distance(a, b)` is `|a[0] - b[0]|` for all
one-coordinate vectors `a` and `b`. -/
theorem v_distance_dim_one_abs {F : Type} [LinearOrderedField F] (sqrt : F → F)
    (hsqrt : ∀ x : F, 0 ≤ x → sqrt (x ^ 2) = x) (x y : F) :
    KmBase.v_distance (exactOps F sqrt) 1 [x] [y] = |x - y| := by
  unfold KmBase.v_distance
  rw [range_one]
  simp only [List.foldl_cons, List.foldl_nil, List.getD_cons_zero, exactOps, zero_add]
  rw [← sq_abs (x - y)]
  exact hsqrt _ (abs_nonneg _)

theorem v_distance_dim_one_abs_witness :
    KmBase.v_distance (exactOps ℚ Rat.sqrt) 1 [3] [7] = |(3 : ℚ) - 7| :=
  v_distance_dim_one_abs Rat.sqrt
    (fun x hx => by rw [pow_two, Rat.sqrt_eq, abs_of_nonneg hx]) 3 7

/-! ## The partition of the points among the workers -/

namespace KmGpt

theorem range_stop_last (npoints N : Nat) (hN : 1 ≤ N) :
    range_stop npoints (N - 1) N = npoints := by
  unfold range_stop
  rw [if_pos (by omega)]

theorem range_stop_inner (npoints r N : Nat) (hr : r + 1 < N) :
    range_stop npoints r N = (r + 1) * (npoints / N) := by
  unfold range_stop
  rw [if_neg (by omega)]

/-- The boundary `r * (npoints / N)` is at most `npoints` for `r <= N`. -/
theorem boundary_le (npoints r N : Nat) (hr : r ≤ N) : r * (npoints / N) ≤ npoints :=
  le_trans (Nat.mul_le_mul_right _ hr) (Nat.mul_div_le npoints N)

theorem range_start_le_stop (npoints r N : Nat) (hr : r < N) :
    range_start npoints r N ≤ range_stop npoints r N := by
  by_cases h : r + 1 < N
  · rw [range_stop_inner npoints r N h]
    unfold range_start
    exact Nat.mul_le_mul_right _ (by omega)
  · have hrN : r = N - 1 := by omega
    rw [hrN, range_stop_last npoints N (by omega)]
    exact boundary_le npoints (N - 1) N (by omega)

theorem range_stop_le_start (npoints r1 r2 N : Nat) (h12 : r1 < r2) (h2 : r2 < N) :
    range_stop npoints r1 N ≤ range_start npoints r2 N := by
  rw [range_stop_inner npoints r1 N (by omega)]
  unfold range_start
  exact Nat.mul_le_mul_right _ (by omega)

theorem range_stop_le_npoints (npoints r N : Nat) (hr : r < N) :
    range_stop npoints r N ≤ npoints := by
  by_cases h : r + 1 < N
  · rw [range_stop_inner npoints r N h]
    exact boundary_le npoints (r + 1) N (by omega)
  · have hrN : r = N - 1 := by omega
    rw [hrN, range_stop_last npoints N (by omega)]

theorem range_cover (npoints N i : Nat) (hN : 1 ≤ N) (hi : i < npoints) :
    ∃ r, r < N ∧ range_start npoints r N ≤ i ∧ i < range_stop npoints r N := by
  by_cases h : i < (N - 1) * (npoints / N)
  · have hq : 0 < npoints / N := by
      rcases Nat.eq_zero_or_pos (npoints / N) with h0 | h0
      · rw [h0] at h; simp at h
      · exact h0
    have hr : i / (npoints / N) < N - 1 := (Nat.div_lt_iff_lt_mul hq).mpr h
    refine ⟨i / (npoints / N), by omega, ?_, ?_⟩
    · unfold range_start
      exact Nat.div_mul_le_self i _
    · rw [range_stop_inner npoints _ N (by omega)]
      have h1 := Nat.div_add_mod i (npoints / N)
      have h2 := Nat.mod_lt i hq
      rw [Nat.add_mul, Nat.one_mul, Nat.mul_comm]
      generalize npoints / N * (i / (npoints / N)) = A at h1 ⊢
      generalize i % (npoints / N) = B at h1 h2
      omega
  · refine ⟨N - 1, by omega, ?_, ?_⟩
    · unfold range_start
      omega
    · rw [range_stop_last npoints N hN]
      exact hi

end KmGpt

/-- C8: for `N >= 1` workers and every `npoints`, the ranges `[start, end)` computed
by `kmeans(rank, N)` for `rank = 0 .. N-1` start at 0, are contiguous (each begins
where the previous one ends), end at `npoints`, are pairwise disjoint and cover
exactly `[0, npoints)`; ranks below `N-1` own `npoints / N` points and rank `N-1`
owns `npoints / N + npoints mod N` points. -/
theorem partition_ranges (N npoints : Nat) (hN : 1 ≤ N) :
    KmGpt.range_start npoints 0 N = 0 ∧
    (∀ r, r + 1 < N → KmGpt.range_stop npoints r N = KmGpt.range_start npoints (r + 1) N) ∧
    KmGpt.range_stop npoints (N - 1) N = npoints ∧
    (∀ r, r < N → KmGpt.range_start npoints r N ≤ KmGpt.range_stop npoints r N) ∧
    (∀ r1 r2 i, r1 < N → r2 < N → r1 ≠ r2 →
      ¬ ((KmGpt.range_start npoints r1 N ≤ i ∧ i < KmGpt.range_stop npoints r1 N) ∧
         (KmGpt.range_start npoints r2 N ≤ i ∧ i < KmGpt.range_stop npoints r2 N))) ∧
    (∀ i, (∃ r, r < N ∧ KmGpt.range_start npoints r N ≤ i ∧ i < KmGpt.range_stop npoints r N)
      ↔ i < npoints) ∧
    (∀ r, r + 1 < N →
      KmGpt.range_stop npoints r N - KmGpt.range_start npoints r N = npoints / N) ∧
    KmGpt.range_stop npoints (N - 1) N - KmGpt.range_start npoints (N - 1) N
      = npoints / N + npoints % N := by
  refine ⟨?_, ?_, KmGpt.range_stop_last npoints N hN,
    fun r hr => KmGpt.range_start_le_stop npoints r N hr, ?_, ?_, ?_, ?_⟩
  · unfold KmGpt.range_start
    exact Nat.zero_mul _
  · intro r hr
    rw [KmGpt.range_stop_inner npoints r N hr]
    rfl
  · intro r1 r2 i h1 h2 hne ⟨⟨ha, hb⟩, ⟨hc, hd⟩⟩
    rcases Nat.lt_or_gt_of_ne hne with h | h
    · have := KmGpt.range_stop_le_start npoints r1 r2 N h h2
      omega
    · have := KmGpt.range_stop_le_start npoints r2 r1 N h h1
      omega
  · intro i
    constructor
    · rintro ⟨r, hr, _, h2⟩
      exact lt_of_lt_of_le h2 (KmGpt.range_stop_le_npoints npoints r N hr)
    · exact KmGpt.range_cover npoints N i hN
  · intro r hr
    rw [KmGpt.range_stop_inner npoints r N hr]
    unfold KmGpt.range_start
    rw [Nat.add_mul, Nat.one_mul, Nat.add_sub_cancel_left]
  · rw [KmGpt.range_stop_last npoints N hN]
    unfold KmGpt.range_start
    have h1 : N * (npoints / N) + npoints % N = npoints := Nat.div_add_mod npoints N
    have h2 : N * (npoints / N) = (N - 1) * (npoints / N) + npoints / N := by
      have h3 : N = (N - 1) + 1 := by omega
      nth_rewrite 1 [h3]
      rw [Nat.add_mul, Nat.one_mul]
    generalize N * (npoints / N) = A at h1 h2
    generalize (N - 1) * (npoints / N) = B at h2 ⊢
    generalize npoints % N = C at h1 ⊢
    generalize npoints / N = D at h2 ⊢
    omega

theorem partition_ranges_witness :
    1 ≤ 4 ∧
    KmGpt.range_stop 10 (4 - 1) 4 - KmGpt.range_start 10 (4 - 1) 4 = 10 / 4 + 10 % 4 :=
  ⟨by decide, (partition_ranges 4 10 (by decide)).2.2.2.2.2.2.2⟩

/-! ## The parallel form with a single worker -/

namespace KmGpt

theorem populate_single {F : Type} (ops : FloatOps F) (cfg : Config F) (s : State F) :
    populate ops cfg (range_start cfg.npoints 0 1) (range_stop cfg.npoints 0 1) s =
      KmBase.populate ops cfg s := by
  have h1 : range_start cfg.npoints 0 1 = 0 := by unfold range_start; simp
  have h2 : range_stop cfg.npoints 0 1 = cfg.npoints := range_stop_last cfg.npoints 1 (le_refl 1)
  rw [h1, h2]
  unfold populate KmBase.populate
  rw [Nat.sub_zero, ← List.range_eq_range']
  rfl

theorem compute_centroids_single {F : Type} (ops : FloatOps F) (cfg : Config F)
    (s : State F) :
    compute_centroids ops cfg (range_start cfg.npoints 0 1) (range_stop cfg.npoints 0 1) s =
      KmBase.compute_centroids ops cfg s := by
  have h1 : range_start cfg.npoints 0 1 = 0 := by unfold range_start; simp
  have h2 : range_stop cfg.npoints 0 1 = cfg.npoints := range_stop_last cfg.npoints 1 (le_refl 1)
  rw [h1, h2]
  have h3 : ∀ (t : State F) (i : Nat),
      compute_cluster ops cfg 0 cfg.npoints t i = KmBase.compute_cluster ops cfg t i := by
    intro t i
    unfold compute_cluster KmBase.compute_cluster recompute KmBase.recompute
    rw [Nat.sub_zero, ← List.range_eq_range']
    rfl
  unfold compute_centroids KmBase.compute_centroids
  simp only
  rw [List.foldl_ext _ _ _ (fun t i _ => h3 t i)]

theorem kmeans_init_eq {F : Type} (ops : FloatOps F) (cfg : Config F) (rng : Rng) :
    kmeans_init ops cfg rng = KmBase.kmeans_init ops cfg rng := rfl

/-- With one worker every reduction returns the worker's own values. -/
theorem reduce_single {F : Type} (ops : FloatOps F) (s : State F) : reduce ops [s] = [s] := rfl

theorem kmeans_step_single {F : Type} (ops : FloatOps F) (cfg : Config F) (s : State F) :
    kmeans_step ops cfg 1 [s] = [KmBase.kmeans_step ops cfg s] := by
  unfold kmeans_step
  rw [range_one]
  simp only [List.zipWith_cons_cons, List.zipWith_nil_right]
  rw [reduce_single]
  unfold local_step KmBase.kmeans_step
  rw [populate_single, compute_centroids_single]

theorem steps_single {F : Type} (ops : FloatOps F) (cfg : Config F) (n : Nat) (s : State F) :
    steps ops cfg 1 n [s] = [KmBase.steps ops cfg n s] := by
  induction n with
  | zero => rfl
  | succ n ih =>
    unfold steps KmBase.steps at ih ⊢
    rw [Function.iterate_succ_apply', Function.iterate_succ_apply', ih, kmeans_step_single]

theorem kmeans_loop_single {F : Type} (ops : FloatOps F) (cfg : Config F) :
    ∀ (fuel : Nat) (s : State F),
      kmeans_loop ops cfg 1 fuel [s] = (KmBase.kmeans_loop ops cfg fuel s).map (fun t => [t]) := by
  intro fuel
  induction fuel with
  | zero => intro s; rfl
  | succ fuel ih =>
    intro s
    rw [kmeans_loop, KmBase.kmeans_loop, kmeans_step_single]
    simp only [List.map_cons, List.map_nil, List.headD_cons]
    split
    · exact ih _
    · rfl

theorem kmeans_single {F : Type} (ops : FloatOps F) (cfg : Config F) (fuel : Nat) (rng : Rng) :
    kmeans ops cfg 1 fuel rng = (KmBase.kmeans ops cfg fuel rng).map (fun m => [m]) := by
  unfold kmeans KmBase.kmeans
  rw [kmeans_init_eq]
  show Option.map _ (kmeans_loop ops cfg 1 fuel [KmBase.kmeans_init ops cfg rng]) = _
  rw [kmeans_loop_single]
  cases KmBase.kmeans_loop ops cfg fuel (KmBase.kmeans_init ops cfg rng) <;> rfl

end KmGpt

/-- C7: for every input, the parallel form run with a single worker (rank 0 of 1,
every reduction returning the worker's own value) starts from the same state as
the single-process `kmeans`, its `populate` and `compute_centroids` passes compute
the same states, so after every number `n` of loop bodies the two states (map,
centroids, dirty set, `too_far`, `has_changed`) are equal, and the two forms
return and print the same assignment map. -/
theorem single_worker_equals_sequential {F : Type} (ops : FloatOps F) (cfg : Config F)
    (rng : Rng) :
    KmGpt.kmeans_init ops cfg rng = KmBase.kmeans_init ops cfg rng ∧
    (∀ s, KmGpt.populate ops cfg (KmGpt.range_start cfg.npoints 0 1)
            (KmGpt.range_stop cfg.npoints 0 1) s = KmBase.populate ops cfg s) ∧
    (∀ s, KmGpt.compute_centroids ops cfg (KmGpt.range_start cfg.npoints 0 1)
            (KmGpt.range_stop cfg.npoints 0 1) s = KmBase.compute_centroids ops cfg s) ∧
    (∀ n, KmGpt.steps ops cfg 1 n (List.replicate 1 (KmGpt.kmeans_init ops cfg rng)) =
            [KmBase.steps ops cfg n (KmBase.kmeans_init ops cfg rng)]) ∧
    (∀ fuel, KmGpt.kmeans ops cfg 1 fuel rng =
            (KmBase.kmeans ops cfg fuel rng).map (fun m => [m])) ∧
    (∀ seed fuel,
        KmGpt.main ops 1 cfg.npoints cfg.dimension cfg.ncentroids cfg.mindistance seed fuel =
        KmBase.main ops cfg.npoints cfg.dimension cfg.ncentroids cfg.mindistance seed fuel) := by
  refine ⟨rfl, KmGpt.populate_single ops cfg, KmGpt.compute_centroids_single ops cfg,
    fun n => KmGpt.steps_single ops cfg n _, fun fuel => KmGpt.kmeans_single ops cfg fuel rng,
    ?_⟩
  intro seed fuel
  unfold KmGpt.main KmBase.main
  have h1 : KmGpt.main_config ops cfg.npoints cfg.dimension cfg.ncentroids cfg.mindistance seed
      = KmBase.main_config ops cfg.npoints cfg.dimension cfg.ncentroids cfg.mindistance seed :=
    rfl
  have h2 : KmGpt.main_rng ops cfg.npoints cfg.dimension seed =
      KmBase.main_rng ops cfg.npoints cfg.dimension seed := rfl
  rw [h1, h2, KmGpt.kmeans_single]
  cases KmBase.kmeans ops
    (KmBase.main_config ops cfg.npoints cfg.dimension cfg.ncentroids cfg.mindistance seed) fuel
    (KmBase.main_rng ops cfg.npoints cfg.dimension seed) <;> rfl

/-! ## The total squared distance does not increase -/

namespace KmBase

theorem foldl_add_eq_sum {F : Type} [LinearOrderedField F] (f : Nat → F) (n : Nat) :
    (List.range n).foldl (fun d i => d + f i) 0 = ∑ i in Finset.range n, f i := by
  induction n with
  | zero => rfl
  | succ n ih =>
    rw [List.range_succ, List.foldl_append, ih, Finset.sum_range_succ]
    rfl

theorem v_distance_exact {F : Type} [LinearOrderedField F] (sqrt : F → F) (dimension : Nat)
    (a b : List F) :
    v_distance (exactOps F sqrt) dimension a b = sqrt (sqdist dimension a b) := by
  unfold v_distance sqdist
  simp only [exactOps]
  rw [foldl_add_eq_sum (fun i => (a.getD i 0 - b.getD i 0) ^ 2) dimension]

/-- The scan of `populate` for point `i` never moves the point to a centroid
that is farther away, and touches no other entry of the map. -/
theorem populate_best_cost {F : Type} [LinearOrderedField F] (sqrt : F → F)
    (hmono : Monotone sqrt) (cfg : Config F) (s : State F) (i : Nat)
    (hi : i < cfg.npoints) (hlen : s.map.length = cfg.npoints) (k : Nat) :
    pointCost cfg (populate_best (exactOps F sqrt) cfg s i).1.map s.centroids k ≤
      pointCost cfg s.map s.centroids k := by
  have h0 : v_distance (exactOps F sqrt) cfg.dimension
      (s.centroids.getD (Int.toNat (s.map.getD i 0)) []) (cfg.data.getD i []) =
      sqrt (pointCost cfg s.map s.centroids i) := v_distance_exact sqrt _ _ _
  have hfold := foldl_inv (fun p : State F × F =>
      p.1.centroids = s.centroids ∧ p.1.map.length = cfg.npoints ∧
      p.2 = sqrt (pointCost cfg p.1.map s.centroids i) ∧
      ∀ k, pointCost cfg p.1.map s.centroids k ≤ pointCost cfg s.map s.centroids k)
    (fun _ => True) (populate_scan (exactOps F sqrt) cfg i) ?_ (List.range cfg.ncentroids)
    (s, v_distance (exactOps F sqrt) cfg.dimension
      (s.centroids.getD (Int.toNat (s.map.getD i 0)) []) (cfg.data.getD i []))
    ⟨rfl, hlen, h0, fun k => le_refl _⟩ (fun _ _ => trivial)
  · exact hfold.2.2.2 k
  intro p j hp _
  obtain ⟨hcen, hl, hdist, hle⟩ := hp
  unfold populate_scan
  split
  · exact ⟨hcen, hl, hdist, hle⟩
  · simp only
    split
    · rename_i hlt
      have hset : (p.1.map.set i (j : Int)).getD i 0 = (j : Int) :=
        getD_set_eq _ _ _ _ (by rw [hl]; exact hi)
      have hnew : pointCost cfg (p.1.map.set i (j : Int)) s.centroids i =
          sqdist cfg.dimension (s.centroids.getD j []) (cfg.data.getD i []) := by
        unfold pointCost
        rw [hset, Int.toNat_ofNat]
      refine ⟨hcen, by rw [List.length_set]; exact hl, ?_, ?_⟩
      · rw [hnew, hcen]
        exact v_distance_exact sqrt _ _ _
      · intro k
        by_cases hk : k = i
        · subst hk
          rw [hnew]
          refine le_trans (le_of_lt ?_) (hle k)
          by_contra hnot
          have h1 := hmono (not_lt.mp hnot)
          rw [v_distance_exact, hdist, hcen] at hlt
          simp only [exactOps, decide_eq_true_eq] at hlt
          exact absurd hlt (not_lt.mpr h1)
        · have : pointCost cfg (p.1.map.set i (j : Int)) s.centroids k =
              pointCost cfg p.1.map s.centroids k := by
            unfold pointCost
            rw [getD_set_ne _ _ _ _ _ (fun e => hk e.symm)]
          rw [this]
          exact hle k
    · exact ⟨hcen, hl, hdist, hle⟩

theorem populate_point_map {F : Type} (ops : FloatOps F) (cfg : Config F) (s : State F)
    (i : Nat) : (populate_point ops cfg s i).map = (populate_best ops cfg s i).1.map := by
  unfold populate_point
  simp only
  split <;> rfl

theorem populate_cost {F : Type} [LinearOrderedField F] (sqrt : F → F)
    (hmono : Monotone sqrt) (cfg : Config F) (s : State F)
    (hv : ValidMap cfg.npoints cfg.ncentroids s.map) :
    cost cfg (populate (exactOps F sqrt) cfg s) ≤ cost cfg s := by
  have h := foldl_inv (fun t : State F => t.centroids = s.centroids ∧
      ValidMap cfg.npoints cfg.ncentroids t.map ∧
      ∀ k, pointCost cfg t.map s.centroids k ≤ pointCost cfg s.map s.centroids k)
    (fun i => i < cfg.npoints) (populate_point (exactOps F sqrt) cfg)
    (fun t i ht hi => by
      refine ⟨(populate_point_centroids _ cfg t i).trans ht.1,
        populate_point_validMap _ cfg t i ht.2.1, ?_⟩
      intro k
      rw [populate_point_map]
      have h1 := populate_best_cost sqrt hmono cfg t i hi ht.2.1.1 k
      rw [ht.1] at h1
      exact le_trans h1 (ht.2.2 k))
    (List.range cfg.npoints) { s with too_far := 0 }
    ⟨rfl, hv, fun k => le_refl _⟩ (fun i hi => List.mem_range.mp hi)
  unfold cost
  apply Finset.sum_le_sum
  intro k _
  have h2 := h.2.2 k
  unfold populate
  rw [h.1]
  exact h2

end KmBase

namespace KmBase

/-- Updating `row[k]` from its old value for every `k < n`. -/
theorem row_update {F : Type} (h : Nat → F → F) (d : F) (n : Nat) (row : List F)
    (hr : row.length = n) :
    ((List.range n).foldl (fun r k => r.set k (h k (r.getD k d))) row).length = n ∧
    ∀ k, k < n →
      ((List.range n).foldl (fun r k => r.set k (h k (r.getD k d))) row).getD k d
        = h k (row.getD k d) := by
  have hfold := foldl_range_inv
    (fun m (r : List F) => r.length = n ∧ (∀ k, k < m → r.getD k d = h k (row.getD k d)) ∧
      ∀ k, m ≤ k → r.getD k d = row.getD k d)
    (fun r k => r.set k (h k (r.getD k d))) n
    (fun m r hm hP => by
      obtain ⟨hl, hlo, hhi⟩ := hP
      refine ⟨by rw [List.length_set]; exact hl, ?_, ?_⟩
      · intro k hk
        by_cases hkm : k = m
        · subst hkm
          rw [getD_set_eq _ _ _ _ (by rw [hl]; exact hm), hhi k (le_refl k)]
        · rw [getD_set_ne _ _ _ _ _ (fun e => hkm e.symm)]
          exact hlo k (by omega)
      · intro k hk
        rw [getD_set_ne _ _ _ _ _ (by omega)]
        exact hhi k (by omega))
    row ⟨hr, fun k hk => by omega, fun k _ => rfl⟩
  exact ⟨hfold.1, hfold.2.1⟩

/-- The accumulation loop of `compute_centroids` for cluster `c`, in exact
arithmetic: coordinate sums and population of the members among the first `n`
points. -/
theorem accumulate_fold {F : Type} [LinearOrderedField F] (sqrt : F → F) (cfg : Config F)
    (map : List Int) (c n : Nat) :
    ((List.range n).foldl (accumulate (exactOps F sqrt) cfg map c)
        (List.replicate cfg.dimension 0, 0)).1.length = cfg.dimension ∧
    (∀ k, k < cfg.dimension →
      ((List.range n).foldl (accumulate (exactOps F sqrt) cfg map c)
        (List.replicate cfg.dimension 0, 0)).1.getD k 0 =
      ∑ j in (Finset.range n).filter (fun j => map.getD j 0 = (c : Int)),
        (cfg.data.getD j []).getD k 0) ∧
    ((List.range n).foldl (accumulate (exactOps F sqrt) cfg map c)
        (List.replicate cfg.dimension 0, 0)).2 =
      ((Finset.range n).filter (fun j => map.getD j 0 = (c : Int))).card := by
  have hfold := foldl_range_inv
    (fun m (p : List F × Nat) => p.1.length = cfg.dimension ∧
      (∀ k, k < cfg.dimension → p.1.getD k 0 =
        ∑ j in (Finset.range m).filter (fun j => map.getD j 0 = (c : Int)),
          (cfg.data.getD j []).getD k 0) ∧
      p.2 = ((Finset.range m).filter (fun j => map.getD j 0 = (c : Int))).card)
    (accumulate (exactOps F sqrt) cfg map c) n
    (fun m p _ hP => by
      obtain ⟨hl, hsum, hpop⟩ := hP
      have hnot : m ∉ (Finset.range m).filter (fun j => map.getD j 0 = (c : Int)) := by
        simp
      unfold accumulate
      by_cases hm : map.getD m 0 = (c : Int)
      · rw [if_neg (not_not.mpr hm)]
        have hupd := row_update
          (fun k x => x + (cfg.data.getD m []).getD k (0 : F)) (0 : F) cfg.dimension p.1 hl
        have hfilter : (Finset.range (m + 1)).filter (fun j => map.getD j 0 = (c : Int)) =
            insert m ((Finset.range m).filter (fun j => map.getD j 0 = (c : Int))) := by
          rw [Finset.range_succ, Finset.filter_insert, if_pos hm]
        refine ⟨hupd.1, ?_, ?_⟩
        · intro k hk
          rw [hfilter, Finset.sum_insert hnot, ← hsum k hk]
          exact (hupd.2 k hk).trans (add_comm _ _)
        · rw [hfilter, Finset.card_insert_of_not_mem hnot, ← hpop]
      · rw [if_pos hm]
        have hfilter : (Finset.range (m + 1)).filter (fun j => map.getD j 0 = (c : Int)) =
            (Finset.range m).filter (fun j => map.getD j 0 = (c : Int)) := by
          rw [Finset.range_succ, Finset.filter_insert, if_neg hm]
        rw [hfilter]
        exact ⟨hl, hsum, hpop⟩)
    (List.replicate cfg.dimension (0 : F), 0)
    ⟨List.length_replicate _ _, fun k hk => by
      rw [getD_replicate _ _ _ _ hk]; simp, by simp⟩
  exact hfold

/-- The recomputed centroid of cluster `c`, in exact arithmetic: the population
times each coordinate is the sum of that coordinate over the members. -/
theorem recompute_mean {F : Type} [LinearOrderedField F] (sqrt : F → F) (cfg : Config F)
    (map : List Int) (c k : Nat) (hk : k < cfg.dimension) :
    ((((Finset.range cfg.npoints).filter (fun j => map.getD j 0 = (c : Int))).card : Nat) : F)
        * (recompute (exactOps F sqrt) cfg map c).getD k 0 =
      ∑ j in (Finset.range cfg.npoints).filter (fun j => map.getD j 0 = (c : Int)),
        (cfg.data.getD j []).getD k 0 := by
  obtain ⟨hl, hsum, hpop⟩ := accumulate_fold sqrt cfg map c cfg.npoints
  unfold recompute
  simp only
  have hz : (exactOps F sqrt).zero = (0 : F) := rfl
  rw [hz]
  split
  · rename_i hgt
    have hupd := row_update
      (fun _ x => x * (1 / ((((List.range cfg.npoints).foldl
        (accumulate (exactOps F sqrt) cfg map c)
        (List.replicate cfg.dimension 0, 0)).2 : Nat) : F))) (0 : F) cfg.dimension _ hl
    have hk2 := hupd.2 k hk
    have hscale : ∀ (r : List F) (i : Nat),
        (exactOps F sqrt).scale (r.getD i 0) ((List.range cfg.npoints).foldl
          (accumulate (exactOps F sqrt) cfg map c) (List.replicate cfg.dimension 0, 0)).2 =
        r.getD i 0 * (1 / ((((List.range cfg.npoints).foldl
          (accumulate (exactOps F sqrt) cfg map c)
          (List.replicate cfg.dimension 0, 0)).2 : Nat) : F)) := fun _ _ => rfl
    simp only [hscale]
    rw [hk2, hsum k hk, ← hpop]
    have hne : ((((List.range cfg.npoints).foldl (accumulate (exactOps F sqrt) cfg map c)
        (List.replicate cfg.dimension 0, 0)).2 : Nat) : F) ≠ 0 := by
      have : ((List.range cfg.npoints).foldl (accumulate (exactOps F sqrt) cfg map c)
        (List.replicate cfg.dimension 0, 0)).2 ≠ 0 := by omega
      exact_mod_cast this
    field_simp
  · rename_i hle
    rw [hsum k hk, ← hpop]
    have hcases : ((List.range cfg.npoints).foldl (accumulate (exactOps F sqrt) cfg map c)
        (List.replicate cfg.dimension 0, 0)).2 = 0 ∨
        ((List.range cfg.npoints).foldl (accumulate (exactOps F sqrt) cfg map c)
        (List.replicate cfg.dimension 0, 0)).2 = 1 := by omega
    rcases hcases with h0 | h1
    · rw [h0]
      have hempty : (Finset.range cfg.npoints).filter (fun j => map.getD j 0 = (c : Int)) = ∅ :=
        Finset.card_eq_zero.mp (hpop.symm.trans h0)
      rw [hempty]
      simp
    · rw [h1]
      simp

/-- The mean minimises the sum of squared differences. -/
theorem sum_sq_mean_le {F : Type} [LinearOrderedField F] (S : Finset Nat) (x : Nat → F)
    (μ y : F) (hμ : (S.card : F) * μ = ∑ j in S, x j) :
    ∑ j in S, (μ - x j) ^ 2 ≤ ∑ j in S, (y - x j) ^ 2 := by
  have h1 : ∑ j in S, (y - x j) ^ 2 =
      ∑ j in S, (μ - x j) ^ 2 + (S.card : F) * (y - μ) ^ 2 := by
    have h2 : ∀ j, (y - x j) ^ 2 = (μ - x j) ^ 2 + ((y - μ) ^ 2 + 2 * (y - μ) * (μ - x j)) := by
      intro j; ring
    have h3 : ∑ j in S, (μ - x j) = 0 := by
      rw [Finset.sum_sub_distrib, Finset.sum_const, nsmul_eq_mul, hμ, sub_self]
    simp only [h2]
    rw [Finset.sum_add_distrib, Finset.sum_add_distrib, Finset.sum_const, nsmul_eq_mul,
      ← Finset.mul_sum, h3, mul_zero, add_zero]
  rw [h1]
  have h4 : 0 ≤ (S.card : F) * (y - μ) ^ 2 := mul_nonneg (Nat.cast_nonneg _) (sq_nonneg _)
  linarith

end KmBase

namespace KmBase

/-- Replacing the centroid of cluster `c` by the mean of its members does not
increase the total squared distance. -/
theorem cost_set_le {F : Type} [LinearOrderedField F] (cfg : Config F) (map : List Int)
    (cs : List (List F)) (c : Nat) (μ : List F) (hc : c < cs.length)
    (hnn : ∀ i, i < cfg.npoints → 0 ≤ map.getD i 0)
    (hμ : ∀ k, k < cfg.dimension →
      ((((Finset.range cfg.npoints).filter (fun j => map.getD j 0 = (c : Int))).card : Nat) : F)
          * μ.getD k 0 =
        ∑ j in (Finset.range cfg.npoints).filter (fun j => map.getD j 0 = (c : Int)),
          (cfg.data.getD j []).getD k 0) :
    ∑ i in Finset.range cfg.npoints, pointCost cfg map (cs.set c μ) i ≤
      ∑ i in Finset.range cfg.npoints, pointCost cfg map cs i := by
  rw [← Finset.sum_filter_add_sum_filter_not (Finset.range cfg.npoints)
        (fun j => map.getD j 0 = (c : Int)) (fun i => pointCost cfg map (cs.set c μ) i),
    ← Finset.sum_filter_add_sum_filter_not (Finset.range cfg.npoints)
        (fun j => map.getD j 0 = (c : Int)) (fun i => pointCost cfg map cs i)]
  apply add_le_add
  · have hnew : ∀ i ∈ (Finset.range cfg.npoints).filter (fun j => map.getD j 0 = (c : Int)),
        pointCost cfg map (cs.set c μ) i = sqdist cfg.dimension μ (cfg.data.getD i []) := by
      intro i hi
      have hm := (Finset.mem_filter.mp hi).2
      unfold pointCost
      rw [hm, Int.toNat_ofNat, getD_set_eq _ _ _ _ hc]
    have hold : ∀ i ∈ (Finset.range cfg.npoints).filter (fun j => map.getD j 0 = (c : Int)),
        pointCost cfg map cs i = sqdist cfg.dimension (cs.getD c []) (cfg.data.getD i []) := by
      intro i hi
      have hm := (Finset.mem_filter.mp hi).2
      unfold pointCost
      rw [hm, Int.toNat_ofNat]
    rw [Finset.sum_congr rfl hnew, Finset.sum_congr rfl hold]
    unfold sqdist
    rw [Finset.sum_comm]
    nth_rewrite 2 [Finset.sum_comm]
    apply Finset.sum_le_sum
    intro k hk
    exact sum_sq_mean_le _ (fun j => (cfg.data.getD j []).getD k 0) _ _
      (hμ k (Finset.mem_range.mp hk))
  · apply le_of_eq
    apply Finset.sum_congr rfl
    intro i hi
    have hm := (Finset.mem_filter.mp hi).2
    have hin := Finset.mem_range.mp (Finset.mem_filter.mp hi).1
    have hne : c ≠ Int.toNat (map.getD i 0) := by
      intro e
      apply hm
      have h0 := hnn i hin
      omega
    unfold pointCost
    rw [getD_set_ne _ _ _ _ _ hne]

theorem compute_cluster_centroids_length {F : Type} (ops : FloatOps F) (cfg : Config F)
    (s : State F) (i : Nat) :
    (compute_cluster ops cfg s i).centroids.length = s.centroids.length := by
  unfold compute_cluster
  split
  · rfl
  · simp only [List.length_set]

theorem compute_cluster_cost {F : Type} [LinearOrderedField F] (sqrt : F → F) (cfg : Config F)
    (s : State F) (c : Nat) (hc : c < cfg.ncentroids)
    (hv : ValidMap cfg.npoints cfg.ncentroids s.map)
    (hl : s.centroids.length = cfg.ncentroids) :
    cost cfg (compute_cluster (exactOps F sqrt) cfg s c) ≤ cost cfg s := by
  unfold compute_cluster
  split
  · exact le_refl _
  · unfold cost
    simp only
    exact cost_set_le cfg s.map s.centroids c _ (by rw [hl]; exact hc)
      (fun i hi => (hv.2 i hi).1) (fun k hk => recompute_mean sqrt cfg s.map c k hk)

theorem compute_centroids_cost {F : Type} [LinearOrderedField F] (sqrt : F → F)
    (cfg : Config F) (s : State F) (hv : ValidMap cfg.npoints cfg.ncentroids s.map)
    (hl : s.centroids.length = cfg.ncentroids) :
    cost cfg (compute_centroids (exactOps F sqrt) cfg s) ≤ cost cfg s ∧
    (compute_centroids (exactOps F sqrt) cfg s).centroids.length = cfg.ncentroids := by
  have hfold := foldl_inv (fun t : State F => t.map = s.map ∧
      t.centroids.length = cfg.ncentroids ∧ cost cfg t ≤ cost cfg s)
    (fun c => c < cfg.ncentroids) (compute_cluster (exactOps F sqrt) cfg)
    (fun t c ht hc => by
      refine ⟨(compute_cluster_map _ cfg t c).trans ht.1,
        (compute_cluster_centroids_length _ cfg t c).trans ht.2.1, ?_⟩
      exact le_trans (compute_cluster_cost sqrt cfg t c hc (by rw [ht.1]; exact hv) ht.2.1)
        ht.2.2)
    (List.range cfg.ncentroids) { s with has_changed := 0 }
    ⟨rfl, hl, le_refl _⟩ (fun c hc => List.mem_range.mp hc)
  exact ⟨hfold.2.2, hfold.2.1⟩

/-- One loop body does not increase the total squared distance. -/
theorem kmeans_step_cost {F : Type} [LinearOrderedField F] (sqrt : F → F)
    (hmono : Monotone sqrt) (cfg : Config F) (s : State F)
    (hv : ValidMap cfg.npoints cfg.ncentroids s.map)
    (hl : s.centroids.length = cfg.ncentroids) :
    cost cfg (compute_centroids (exactOps F sqrt) cfg (populate (exactOps F sqrt) cfg s)) ≤
      cost cfg (populate (exactOps F sqrt) cfg s) ∧
    cost cfg (populate (exactOps F sqrt) cfg s) ≤ cost cfg s ∧
    (kmeans_step (exactOps F sqrt) cfg s).centroids.length = cfg.ncentroids := by
  have hv1 := populate_validMap (exactOps F sqrt) cfg s hv
  have hl1 : (populate (exactOps F sqrt) cfg s).centroids.length = cfg.ncentroids := by
    rw [populate_centroids]; exact hl
  have h2 := compute_centroids_cost sqrt cfg _ hv1 hl1
  exact ⟨h2.1, populate_cost sqrt hmono cfg s hv, h2.2⟩

theorem steps_wf {F : Type} [LinearOrderedField F] (sqrt : F → F) (hmono : Monotone sqrt)
    (cfg : Config F) (s : State F) (hv : ValidMap cfg.npoints cfg.ncentroids s.map)
    (hl : s.centroids.length = cfg.ncentroids) (n : Nat) :
    ValidMap cfg.npoints cfg.ncentroids (steps (exactOps F sqrt) cfg n s).map ∧
    (steps (exactOps F sqrt) cfg n s).centroids.length = cfg.ncentroids := by
  induction n with
  | zero => exact ⟨hv, hl⟩
  | succ n ih =>
    rw [steps_succ]
    exact ⟨kmeans_step_validMap _ cfg _ ih.1, (kmeans_step_cost sqrt hmono cfg _ ih.1 ih.2).2.2⟩

theorem floorSqrt_monotone : Monotone floorSqrt := by
  intro a b hab
  unfold floorSqrt
  have h1 : Int.floor a ≤ Int.floor b := Int.floor_mono hab
  have h2 : Int.toNat (Int.floor a) ≤ Int.toNat (Int.floor b) := Int.toNat_le_toNat h1
  exact_mod_cast Nat.sqrt_le_sqrt h2

end KmBase

/-- C6: in the single-process form with exact arithmetic (a linearly ordered
field and a monotone square root), for `npoints >= 1` and `ncentroids >= 1`, the sum
over all points of the squared distance between `data[i]` and `centroids[map[i]]`
measured right after the `compute_centroids` pass of loop body `n + 2` is at most the
same sum measured right after the `compute_centroids` pass of loop body `n + 1`; the
`populate` pass in between does not increase it and neither does
`compute_centroids`. -/
theorem cost_non_increasing {F : Type} [LinearOrderedField F] (sqrt : F → F)
    (hmono : Monotone sqrt) (cfg : Config F) (rng : Rng)
    (hn : 1 ≤ cfg.npoints) (hc : 1 ≤ cfg.ncentroids) (n : Nat) :
    KmBase.cost cfg (KmBase.steps (exactOps F sqrt) cfg (n + 2)
        (KmBase.kmeans_init (exactOps F sqrt) cfg rng)) ≤
      KmBase.cost cfg (KmBase.steps (exactOps F sqrt) cfg (n + 1)
        (KmBase.kmeans_init (exactOps F sqrt) cfg rng)) ∧
    KmBase.cost cfg (KmBase.populate (exactOps F sqrt) cfg
        (KmBase.steps (exactOps F sqrt) cfg (n + 1)
          (KmBase.kmeans_init (exactOps F sqrt) cfg rng))) ≤
      KmBase.cost cfg (KmBase.steps (exactOps F sqrt) cfg (n + 1)
        (KmBase.kmeans_init (exactOps F sqrt) cfg rng)) ∧
    KmBase.cost cfg (KmBase.steps (exactOps F sqrt) cfg (n + 2)
        (KmBase.kmeans_init (exactOps F sqrt) cfg rng)) ≤
      KmBase.cost cfg (KmBase.populate (exactOps F sqrt) cfg
        (KmBase.steps (exactOps F sqrt) cfg (n + 1)
          (KmBase.kmeans_init (exactOps F sqrt) cfg rng))) := by
  have hwf := KmBase.steps_wf sqrt hmono cfg _
    (KmBase.kmeans_init_validMap (exactOps F sqrt) cfg rng hc)
    (KmBase.kmeans_init_centroids (exactOps F sqrt) cfg rng hn).1 (n + 1)
  have h := KmBase.kmeans_step_cost sqrt hmono cfg _ hwf.1 hwf.2
  have hs : KmBase.steps (exactOps F sqrt) cfg (n + 2)
      (KmBase.kmeans_init (exactOps F sqrt) cfg rng) =
      KmBase.compute_centroids (exactOps F sqrt) cfg (KmBase.populate (exactOps F sqrt) cfg
        (KmBase.steps (exactOps F sqrt) cfg (n + 1)
          (KmBase.kmeans_init (exactOps F sqrt) cfg rng))) :=
    KmBase.steps_succ (exactOps F sqrt) cfg (n + 1) _
  rw [hs]
  exact ⟨le_trans h.1 h.2.1, h.2.1, h.1⟩

theorem cost_non_increasing_witness :
    (1 ≤ sampleCfg.npoints ∧ 1 ≤ sampleCfg.ncentroids) ∧
    KmBase.cost sampleCfg (KmBase.steps (exactOps ℚ floorSqrt) sampleCfg (0 + 2)
        (KmBase.kmeans_init (exactOps ℚ floorSqrt) sampleCfg (KmBase.srandnum 1))) ≤
      KmBase.cost sampleCfg (KmBase.steps (exactOps ℚ floorSqrt) sampleCfg (0 + 1)
        (KmBase.kmeans_init (exactOps ℚ floorSqrt) sampleCfg (KmBase.srandnum 1))) :=
  ⟨⟨by decide, by decide⟩,
    (cost_non_increasing floorSqrt KmBase.floorSqrt_monotone sampleCfg (KmBase.srandnum 1)
      (by decide) (by decide) 0).1⟩

/-! ## The assignment pass, point by point -/

/-- A loop over `start .. start+len-1` with an invariant that depends on the
number of rounds done. -/
theorem foldl_range'_inv {β : Type} (P : Nat → β → Prop) (f : β → Nat → β) (start len : Nat)
    (h : ∀ k b, k < len → P k b → P (k + 1) (f b (start + k))) (b : β) (h0 : P 0 b) :
    P len ((List.range' start len).foldl f b) := by
  rw [List.range'_eq_map_range, List.foldl_map]
  exact foldl_range_inv P (fun x y => f x (start + y)) len h b h0

namespace KmBase

/-- Effect of the scan for point `i` on the map, the dirty set and the local
`distance`, for every interpretation of the float operations. -/
theorem populate_best_generic {F : Type} (ops : FloatOps F) (cfg : Config F) (s : State F)
    (i : Nat) (hi : i < s.map.length) :
    (populate_best ops cfg s i).1.map.length = s.map.length ∧
    (∀ k, k ≠ i → (populate_best ops cfg s i).1.map.getD k 0 = s.map.getD k 0) ∧
    (populate_best ops cfg s i).2 =
      v_distance ops cfg.dimension
        (s.centroids.getD (Int.toNat ((populate_best ops cfg s i).1.map.getD i 0)) [])
        (cfg.data.getD i []) ∧
    (populate_best ops cfg s i).1.dirty.length = s.dirty.length ∧
    (∀ c, (populate_best ops cfg s i).1.dirty.getD c 0 = s.dirty.getD c 0 ∨
          (populate_best ops cfg s i).1.dirty.getD c 0 = 1) ∧
    ((populate_best ops cfg s i).1.map.getD i 0 = s.map.getD i 0 ∨
      ∃ j, j < cfg.ncentroids ∧ (populate_best ops cfg s i).1.map.getD i 0 = (j : Int) ∧
        (j < s.dirty.length → (populate_best ops cfg s i).1.dirty.getD j 0 = 1)) := by
  have hfold := foldl_inv (fun p : State F × F =>
      p.1.centroids = s.centroids ∧
      p.1.map.length = s.map.length ∧
      (∀ k, k ≠ i → p.1.map.getD k 0 = s.map.getD k 0) ∧
      p.2 = v_distance ops cfg.dimension
        (s.centroids.getD (Int.toNat (p.1.map.getD i 0)) []) (cfg.data.getD i []) ∧
      p.1.dirty.length = s.dirty.length ∧
      (∀ c, p.1.dirty.getD c 0 = s.dirty.getD c 0 ∨ p.1.dirty.getD c 0 = 1) ∧
      (p.1.map.getD i 0 = s.map.getD i 0 ∨
        ∃ j, j < cfg.ncentroids ∧ p.1.map.getD i 0 = (j : Int) ∧
          (j < s.dirty.length → p.1.dirty.getD j 0 = 1)))
    (fun j => j < cfg.ncentroids) (populate_scan ops cfg i)
    (fun p j hp hj => by
      obtain ⟨hcen, hlen, hframe, hdist, hdl, hdm, hmark⟩ := hp
      unfold populate_scan
      split
      · exact ⟨hcen, hlen, hframe, hdist, hdl, hdm, hmark⟩
      · simp only
        split
        · have hset : (p.1.map.set i (j : Int)).getD i 0 = (j : Int) :=
            getD_set_eq _ _ _ _ (by rw [hlen]; exact hi)
          refine ⟨hcen, by rw [List.length_set]; exact hlen, ?_, ?_,
            by rw [List.length_set]; exact hdl, ?_, ?_⟩
          · intro k hk
            rw [getD_set_ne _ _ _ _ _ (fun e => hk e.symm)]
            exact hframe k hk
          · rw [hset, Int.toNat_ofNat, hcen]
          · intro c
            rw [getD_set]
            split
            · exact Or.inr rfl
            · exact hdm c
          · refine Or.inr ⟨j, hj, hset, fun hjl => ?_⟩
            exact getD_set_eq _ _ _ _ (by rw [hdl]; exact hjl)
        · exact ⟨hcen, hlen, hframe, hdist, hdl, hdm, hmark⟩)
    (List.range cfg.ncentroids)
    (s, v_distance ops cfg.dimension
      (s.centroids.getD (Int.toNat (s.map.getD i 0)) []) (cfg.data.getD i []))
    ⟨rfl, rfl, fun _ _ => rfl, rfl, rfl, fun _ => Or.inl rfl, Or.inl rfl⟩
    (fun j hj => List.mem_range.mp hj)
  exact hfold.2

end KmBase

namespace KmBase

theorem populate_point_dirty {F : Type} (ops : FloatOps F) (cfg : Config F) (s : State F)
    (i : Nat) : (populate_point ops cfg s i).dirty = (populate_best ops cfg s i).1.dirty := by
  unfold populate_point
  simp only
  split <;> rfl

theorem populate_point_frame {F : Type} (ops : FloatOps F) (cfg : Config F) (s : State F)
    (i : Nat) :
    (populate_point ops cfg s i).has_changed = s.has_changed ∧
    (populate_point ops cfg s i).rng = s.rng := by
  have h := populate_best_frame ops cfg s i
  unfold populate_point
  simp only
  split <;> exact ⟨h.2.2.1, h.2.2.2⟩

theorem populate_point_too_far {F : Type} (ops : FloatOps F) (cfg : Config F) (s : State F)
    (i : Nat) :
    (populate_point ops cfg s i).too_far =
      if ops.lt cfg.mindistance (populate_best ops cfg s i).2 then 1 else s.too_far := by
  have h := populate_best_frame ops cfg s i
  unfold populate_point
  simp only
  split
  · rfl
  · exact h.2.1

/-- One round of the assignment pass extends the invariant by one point. -/
theorem populate_point_passInv {F : Type} (ops : FloatOps F) (cfg : Config F)
    (start m : Nat) (s t : State F) (hi : start + m < s.map.length)
    (h : PassInv ops cfg start m s t) :
    PassInv ops cfg start (m + 1) s (populate_point ops cfg t (start + m)) := by
  obtain ⟨⟨hcen, hhc, hrng⟩, hlen, hout, ⟨hdl, hdm⟩, hmark, ⟨h01, htf⟩⟩ := h
  have hit : start + m < t.map.length := by rw [hlen]; exact hi
  obtain ⟨glen, gframe, gdist, gdl, gdm, gmark⟩ :=
    populate_best_generic ops cfg t (start + m) hit
  have hmap := populate_point_map ops cfg t (start + m)
  have hdirty := populate_point_dirty ops cfg t (start + m)
  have hfr := populate_point_frame ops cfg t (start + m)
  have htoo := populate_point_too_far ops cfg t (start + m)
  have hcur : t.map.getD (start + m) 0 = s.map.getD (start + m) 0 := hout _ (by omega)
  refine ⟨⟨(populate_point_centroids ops cfg t _).trans hcen, hfr.1.trans hhc,
    hfr.2.trans hrng⟩, by rw [hmap, glen]; exact hlen, ?_, ⟨by rw [hdirty, gdl]; exact hdl, ?_⟩,
    ?_, ?_, ?_⟩
  · intro k hk
    rw [hmap, gframe k (by omega)]
    exact hout k (by omega)
  · intro c
    rw [hdirty]
    rcases gdm c with h1 | h1
    · rw [h1]; exact hdm c
    · exact Or.inr h1
  · intro k hk1 hk2 hne
    rw [hmap] at hne ⊢
    rw [hdirty]
    by_cases hkm : k = start + m
    · subst hkm
      rcases gmark with h1 | ⟨j, hj, hj1, hj2⟩
      · exact absurd (h1.trans hcur) hne
      · exact ⟨j, hj, hj1, fun hjl => hj2 (by rw [hdl]; exact hjl)⟩
    · rw [gframe k hkm] at hne ⊢
      obtain ⟨j, hj, hj1, hj2⟩ := hmark k hk1 (by omega) hne
      refine ⟨j, hj, hj1, fun hjl => ?_⟩
      rcases gdm j with h1 | h1
      · rw [h1]; exact hj2 hjl
      · exact h1
  · rw [htoo]
    split
    · exact Or.inr rfl
    · exact h01
  · rw [htoo, hmap]
    constructor
    · intro h0 k hk1 hk2
      by_cases hkm : k = start + m
      · subst hkm
        rw [← hcen, ← gdist]
        by_contra hlt
        rw [if_pos (by simpa using hlt)] at h0
        exact absurd h0 (by decide)
      · rw [gframe k hkm]
        have ht0 : t.too_far = 0 := by
          split at h0
          · exact absurd h0 (by decide)
          · exact h0
        exact htf.mp ht0 k hk1 (by omega)
    · intro hall
      have hm := hall (start + m) (by omega) (by omega)
      rw [← hcen, ← gdist] at hm
      rw [if_neg (by rw [hm]; simp)]
      apply htf.mpr
      intro k hk1 hk2
      have := hall k hk1 (by omega)
      rw [gframe k (by omega)] at this
      exact this

/-- The assignment pass over `start .. start+len-1`. -/
theorem populate_pass {F : Type} (ops : FloatOps F) (cfg : Config F) (start len : Nat)
    (s : State F) (hlen : ∀ m, m < len → start + m < s.map.length) :
    PassInv ops cfg start len s
      ((List.range' start len).foldl (populate_point ops cfg) { s with too_far := 0 }) := by
  refine foldl_range'_inv (fun m t => PassInv ops cfg start m s t) (populate_point ops cfg)
    start len (fun m t hm hP => populate_point_passInv ops cfg start m s t (hlen m hm) hP)
    { s with too_far := 0 } ?_
  exact ⟨⟨rfl, rfl, rfl⟩, rfl, fun _ _ => rfl, ⟨rfl, fun _ => Or.inl rfl⟩,
    fun k hk1 hk2 => by omega, ⟨Or.inl rfl, ⟨fun _ k hk1 hk2 => by omega, fun _ => rfl⟩⟩⟩

theorem populate_eq_fold {F : Type} (ops : FloatOps F) (cfg : Config F) (s : State F) :
    populate ops cfg s =
      (List.range' 0 cfg.npoints).foldl (populate_point ops cfg) { s with too_far := 0 } := by
  unfold populate
  rw [List.range_eq_range']

theorem populate_passInv {F : Type} (ops : FloatOps F) (cfg : Config F) (s : State F)
    (hlen : cfg.npoints ≤ s.map.length) :
    PassInv ops cfg 0 cfg.npoints s (populate ops cfg s) := by
  rw [populate_eq_fold]
  exact populate_pass ops cfg 0 cfg.npoints s (fun m hm => by omega)

end KmBase

namespace KmGpt

theorem populate_range_eq_fold {F : Type} (ops : FloatOps F) (cfg : Config F) (start stop : Nat)
    (s : State F) :
    populate ops cfg start stop s =
      (List.range' start (stop - start)).foldl (KmBase.populate_point ops cfg)
        { s with too_far := 0 } := rfl

theorem populate_range_passInv {F : Type} (ops : FloatOps F) (cfg : Config F)
    (start stop : Nat) (s : State F) (hlen : stop ≤ s.map.length) :
    PassInv ops cfg start (stop - start) s (populate ops cfg start stop s) := by
  rw [populate_range_eq_fold]
  exact KmBase.populate_pass ops cfg start (stop - start) s (fun m hm => by omega)

end KmGpt

/-! ## The scan of the assignment pass and the order of the distances -/

namespace KmBase

/-- In exact arithmetic the comparison of the code is a strict weak order. -/
theorem distOrdered_exact {F : Type} [LinearOrderedField F] (sqrt : F → F) (cfg : Config F)
    (cs : List (List F)) (i : Nat) : DistOrdered (exactOps F sqrt) cfg cs i := by
  constructor
  · intro j k _ _ h
    have h1 : centroidDistance (exactOps F sqrt) cfg cs i j <
        centroidDistance (exactOps F sqrt) cfg cs i k := by simpa [exactOps] using h
    simpa [exactOps] using le_of_lt h1
  · intro j k l _ _ _ h1 h2
    have h3 : centroidDistance (exactOps F sqrt) cfg cs i k ≤
        centroidDistance (exactOps F sqrt) cfg cs i j := by simpa [exactOps] using h1
    have h4 : centroidDistance (exactOps F sqrt) cfg cs i l ≤
        centroidDistance (exactOps F sqrt) cfg cs i k := by simpa [exactOps] using h2
    simpa [exactOps] using le_trans h4 h3

/-- The scan for point `i` marks a cluster only if its centroid is strictly
nearer to the point than the centroid of the point's cluster on entry; this uses
that `<` is transitive. -/
theorem populate_best_marks {F : Type} (ops : FloatOps F) (cfg : Config F) (s : State F)
    (i : Nat)
    (htrans : ∀ x y z, ops.lt x y = true → ops.lt y z = true → ops.lt x z = true) :
    ∀ c, (populate_best ops cfg s i).1.dirty.getD c 0 ≠ s.dirty.getD c 0 →
      ops.lt (centroidDistance ops cfg s.centroids i c)
        (centroidDistance ops cfg s.centroids i (Int.toNat (s.map.getD i 0))) = true := by
  have hfold := foldl_inv (fun p : State F × F =>
      p.1.centroids = s.centroids ∧
      (p.2 = centroidDistance ops cfg s.centroids i (Int.toNat (s.map.getD i 0)) ∨
        ops.lt p.2 (centroidDistance ops cfg s.centroids i (Int.toNat (s.map.getD i 0)))
          = true) ∧
      ∀ c, p.1.dirty.getD c 0 ≠ s.dirty.getD c 0 →
        ops.lt (centroidDistance ops cfg s.centroids i c)
          (centroidDistance ops cfg s.centroids i (Int.toNat (s.map.getD i 0))) = true)
    (fun _ => True) (populate_scan ops cfg i)
    (fun p j hp _ => by
      obtain ⟨hcen, hbest, hmark⟩ := hp
      unfold populate_scan
      split
      · exact ⟨hcen, hbest, hmark⟩
      · simp only
        have htmp : v_distance ops cfg.dimension (p.1.centroids.getD j [])
            (cfg.data.getD i []) = centroidDistance ops cfg s.centroids i j := by
          rw [hcen]; rfl
        rw [htmp]
        split
        · rename_i hlt
          have hja : ops.lt (centroidDistance ops cfg s.centroids i j)
              (centroidDistance ops cfg s.centroids i (Int.toNat (s.map.getD i 0))) = true := by
            rcases hbest with h | h
            · rw [← h]; exact hlt
            · exact htrans _ _ _ hlt h
          refine ⟨hcen, Or.inr hja, ?_⟩
          intro c hc
          dsimp only at hc
          rw [getD_set] at hc
          split at hc
          · rename_i hjc
            rw [← hjc.1]
            exact hja
          · exact hmark c hc
        · exact ⟨hcen, hbest, hmark⟩)
    (List.range cfg.ncentroids)
    (s, v_distance ops cfg.dimension
      (s.centroids.getD (Int.toNat (s.map.getD i 0)) []) (cfg.data.getD i []))
    ⟨rfl, Or.inl rfl, fun c hc => absurd rfl hc⟩ (fun _ _ => trivial)
  exact hfold.2.2

/-- When the scan for point `i` leaves every cluster clean, it has moved
nothing: the test `tmp < distance` failed for every cluster other than the point's
own. -/
theorem populate_best_quiet {F : Type} (ops : FloatOps F) (cfg : Config F) (s : State F)
    (i : Nat) (hdl : cfg.ncentroids ≤ s.dirty.length)
    (hz : ∀ c, c < cfg.ncentroids → (populate_best ops cfg s i).1.dirty.getD c 0 = 0) :
    ∀ j, j < cfg.ncentroids → (j : Int) ≠ s.map.getD i 0 →
      ops.lt (centroidDistance ops cfg s.centroids i j)
        (centroidDistance ops cfg s.centroids i (Int.toNat (s.map.getD i 0))) = false := by
  have hfold := foldl_range_inv (fun m (p : State F × F) =>
      p.1.centroids = s.centroids ∧ p.1.dirty.length = s.dirty.length ∧
      ((∃ c, c < cfg.ncentroids ∧ p.1.dirty.getD c 0 = 1) ∨
        (p.1.map.getD i 0 = s.map.getD i 0 ∧
          p.2 = centroidDistance ops cfg s.centroids i (Int.toNat (s.map.getD i 0)) ∧
          ∀ j, j < m → (j : Int) ≠ s.map.getD i 0 →
            ops.lt (centroidDistance ops cfg s.centroids i j)
              (centroidDistance ops cfg s.centroids i (Int.toNat (s.map.getD i 0))) = false)))
    (populate_scan ops cfg i) cfg.ncentroids
    (fun m p hm hp => by
      obtain ⟨hcen, hlen, hcase⟩ := hp
      unfold populate_scan
      split
      · rename_i hskip
        refine ⟨hcen, hlen, ?_⟩
        rcases hcase with h | ⟨h1, h2, h3⟩
        · exact Or.inl h
        · refine Or.inr ⟨h1, h2, fun j hj hne => ?_⟩
          by_cases hjm : j = m
          · subst hjm
            exact absurd (hskip.trans h1) hne
          · exact h3 j (by omega) hne
      · simp only
        have htmp : v_distance ops cfg.dimension (p.1.centroids.getD m [])
            (cfg.data.getD i []) = centroidDistance ops cfg s.centroids i m := by
          rw [hcen]; rfl
        rw [htmp]
        split
        · refine ⟨hcen, by rw [List.length_set]; exact hlen, Or.inl ⟨m, hm, ?_⟩⟩
          exact getD_set_eq _ _ _ _ (by rw [hlen]; omega)
        · rename_i hnlt
          refine ⟨hcen, hlen, ?_⟩
          rcases hcase with h | ⟨h1, h2, h3⟩
          · exact Or.inl h
          · refine Or.inr ⟨h1, h2, fun j hj hne => ?_⟩
            by_cases hjm : j = m
            · subst hjm
              rw [← h2]
              simpa using hnlt
            · exact h3 j (by omega) hne)
    (s, v_distance ops cfg.dimension
      (s.centroids.getD (Int.toNat (s.map.getD i 0)) []) (cfg.data.getD i []))
    ⟨rfl, rfl, Or.inr ⟨rfl, rfl, fun j hj => by omega⟩⟩
  intro j hj hne
  rcases hfold.2.2 with ⟨c, hc, h1⟩ | ⟨_, _, h3⟩
  · have h0 := hz c hc
    unfold populate_best at h0
    rw [h0] at h1
    exact absurd h1 (by decide)
  · exact h3 j hj hne

/-- The scan for point `i` ends at a nearest centroid in the order of the code,
with ties resolved in favour of the previous cluster and then of the lowest
index, when `<` is a strict weak order on the distances from the point. -/
theorem populate_best_ordered {F : Type} (ops : FloatOps F) (cfg : Config F) (s : State F)
    (i : Nat) (hi : i < s.map.length)
    (ha : 0 ≤ s.map.getD i 0 ∧ s.map.getD i 0 < (cfg.ncentroids : Int))
    (hord : DistOrdered ops cfg s.centroids i) :
    NearestBy ops cfg s.centroids i (s.map.getD i 0)
      ((populate_best ops cfg s i).1.map.getD i 0) := by
  obtain ⟨hasym, hneg⟩ := hord
  have hirr : ∀ j, j < cfg.ncentroids →
      ops.lt (centroidDistance ops cfg s.centroids i j)
        (centroidDistance ops cfg s.centroids i j) = false := by
    intro j hj
    cases h : ops.lt (centroidDistance ops cfg s.centroids i j)
        (centroidDistance ops cfg s.centroids i j) with
    | false => rfl
    | true => exact (hasym j j hj hj h).symm.trans h |> fun e => absurd e (by decide)
  have htrans : ∀ j k l, j < cfg.ncentroids → k < cfg.ncentroids → l < cfg.ncentroids →
      ops.lt (centroidDistance ops cfg s.centroids i j)
        (centroidDistance ops cfg s.centroids i k) = true →
      ops.lt (centroidDistance ops cfg s.centroids i k)
        (centroidDistance ops cfg s.centroids i l) = true →
      ops.lt (centroidDistance ops cfg s.centroids i j)
        (centroidDistance ops cfg s.centroids i l) = true := by
    intro j k l hj hk hl h1 h2
    cases h : ops.lt (centroidDistance ops cfg s.centroids i j)
        (centroidDistance ops cfg s.centroids i l) with
    | true => rfl
    | false =>
      have h3 := hneg j l k hj hl hk h (hasym k l hk hl h2)
      rw [h1] at h3
      exact absurd h3 (by decide)
  have haN : Int.toNat (s.map.getD i 0) < cfg.ncentroids := by omega
  have hfold := foldl_range_inv (fun m (p : State F × F) =>
      p.1.centroids = s.centroids ∧ p.1.map.length = s.map.length ∧
      (0 ≤ p.1.map.getD i 0 ∧ p.1.map.getD i 0 < (cfg.ncentroids : Int)) ∧
      p.2 = centroidDistance ops cfg s.centroids i (Int.toNat (p.1.map.getD i 0)) ∧
      (∀ j, j < m → ops.lt (centroidDistance ops cfg s.centroids i j) p.2 = false) ∧
      (p.1.map.getD i 0 = s.map.getD i 0 ∨
        (Int.toNat (p.1.map.getD i 0) < m ∧
          ops.lt p.2 (centroidDistance ops cfg s.centroids i (Int.toNat (s.map.getD i 0)))
            = true ∧
          ∀ j, j < Int.toNat (p.1.map.getD i 0) →
            ops.lt p.2 (centroidDistance ops cfg s.centroids i j) = true)))
    (populate_scan ops cfg i) cfg.ncentroids
    (fun m p hm hp => by
      obtain ⟨hcen, hlen, hcur, hdist, hmin, htie⟩ := hp
      have hcN : Int.toNat (p.1.map.getD i 0) < cfg.ncentroids := by omega
      unfold populate_scan
      split
      · rename_i hskip
        refine ⟨hcen, hlen, hcur, hdist, ?_, ?_⟩
        · intro j hj
          by_cases hjm : j = m
          · subst hjm
            rw [hdist, ← hskip, Int.toNat_ofNat]
            exact hirr j hm
          · exact hmin j (by omega)
        · rcases htie with h1 | ⟨h1, h2, h3⟩
          · exact Or.inl h1
          · exact Or.inr ⟨by omega, h2, h3⟩
      · simp only
        have htmp : v_distance ops cfg.dimension (p.1.centroids.getD m [])
            (cfg.data.getD i []) = centroidDistance ops cfg s.centroids i m := by
          rw [hcen]; rfl
        rw [htmp]
        split
        · rename_i hlt
          rw [hdist] at hlt
          have hset : (p.1.map.set i (m : Int)).getD i 0 = (m : Int) :=
            getD_set_eq _ _ _ _ (by rw [hlen]; exact hi)
          have hma : ops.lt (centroidDistance ops cfg s.centroids i m)
              (centroidDistance ops cfg s.centroids i (Int.toNat (s.map.getD i 0))) = true := by
            rcases htie with h1 | ⟨_, h2, _⟩
            · rw [← h1]; exact hlt
            · rw [hdist] at h2
              exact htrans _ _ _ hm hcN haN hlt h2
          have hlow : ∀ j, j < m → ops.lt (centroidDistance ops cfg s.centroids i m)
              (centroidDistance ops cfg s.centroids i j) = true := by
            intro j hj
            cases h : ops.lt (centroidDistance ops cfg s.centroids i m)
                (centroidDistance ops cfg s.centroids i j) with
            | true => rfl
            | false =>
              have h1 := hmin j hj
              rw [hdist] at h1
              have h3 := hneg m j _ hm (by omega) hcN h h1
              rw [hlt] at h3
              exact absurd h3 (by decide)
          dsimp only
          rw [hset, Int.toNat_ofNat]
          refine ⟨hcen, by rw [List.length_set]; exact hlen,
            ⟨Int.natCast_nonneg m, by exact_mod_cast hm⟩, rfl, ?_,
            Or.inr ⟨Nat.lt_succ_self m, hma, hlow⟩⟩
          intro j hj
          by_cases hjm : j = m
          · subst hjm; exact hirr j hm
          · exact hasym m j hm (by omega) (hlow j (by omega))
        · rename_i hnlt
          refine ⟨hcen, hlen, hcur, hdist, ?_, ?_⟩
          · intro j hj
            by_cases hjm : j = m
            · subst hjm; simpa using hnlt
            · exact hmin j (by omega)
          · rcases htie with h1 | ⟨h1, h2, h3⟩
            · exact Or.inl h1
            · exact Or.inr ⟨by omega, h2, h3⟩)
    (s, v_distance ops cfg.dimension
      (s.centroids.getD (Int.toNat (s.map.getD i 0)) []) (cfg.data.getD i []))
    ⟨rfl, rfl, ha, rfl, fun j hj => by omega, Or.inl rfl⟩
  unfold NearestBy
  unfold populate_best
  revert hfold
  generalize List.foldl (populate_scan ops cfg i)
    (s, v_distance ops cfg.dimension
      (s.centroids.getD (Int.toNat (s.map.getD i 0)) []) (cfg.data.getD i []))
    (List.range cfg.ncentroids) = p
  intro hfold
  obtain ⟨_, _, hcur, hdist, hmin, htie⟩ := hfold
  refine ⟨hcur, fun j hj => ?_, fun heq => ?_, fun hlt j hj hjeq => ?_⟩
  · rw [← hdist]
    exact hmin j hj
  · rcases htie with h1 | ⟨_, h2, _⟩
    · exact h1
    · rw [hdist, heq] at h2
      exact absurd h2 (by decide)
  · rcases htie with h1 | ⟨_, _, h3⟩
    · rw [h1, hirr _ haN] at hlt
      exact absurd hlt (by decide)
    · by_contra hcon
      have h4 := h3 j (by omega)
      rw [hdist, hjeq] at h4
      exact absurd h4 (by decide)

end KmBase

namespace KmBase

/-- An assignment pass marks a cluster only if some point of the range is strictly
nearer to its centroid than to the centroid of the point's cluster on entry. -/
theorem populate_pass_marks {F : Type} (ops : FloatOps F) (cfg : Config F) (start len : Nat)
    (s : State F) (hlen : ∀ m, m < len → start + m < s.map.length)
    (htrans : ∀ x y z, ops.lt x y = true → ops.lt y z = true → ops.lt x z = true) :
    ∀ c, ((List.range' start len).foldl (populate_point ops cfg)
          { s with too_far := 0 }).dirty.getD c 0 ≠ s.dirty.getD c 0 →
      ∃ k, start ≤ k ∧ k < start + len ∧
        ops.lt (centroidDistance ops cfg s.centroids k c)
          (centroidDistance ops cfg s.centroids k (Int.toNat (s.map.getD k 0))) = true := by
  have hfold := foldl_range'_inv (fun m (t : State F) =>
      PassInv ops cfg start m s t ∧
      ∀ c, t.dirty.getD c 0 ≠ s.dirty.getD c 0 →
        ∃ k, start ≤ k ∧ k < start + m ∧
          ops.lt (centroidDistance ops cfg s.centroids k c)
            (centroidDistance ops cfg s.centroids k (Int.toNat (s.map.getD k 0))) = true)
    (populate_point ops cfg) start len
    (fun m t hm hP => by
      obtain ⟨hinv, hmark⟩ := hP
      have hi := hlen m hm
      have hcur : t.map.getD (start + m) 0 = s.map.getD (start + m) 0 :=
        hinv.2.2.1 _ (by omega)
      refine ⟨populate_point_passInv ops cfg start m s t hi hinv, ?_⟩
      intro c hc
      rw [populate_point_dirty] at hc
      by_cases hstep : (populate_best ops cfg t (start + m)).1.dirty.getD c 0 = t.dirty.getD c 0
      · rw [hstep] at hc
        obtain ⟨k, hk1, hk2, hk3⟩ := hmark c hc
        exact ⟨k, hk1, by omega, hk3⟩
      · have h := populate_best_marks ops cfg t (start + m) htrans c hstep
        rw [hinv.1.1, hcur] at h
        exact ⟨start + m, by omega, by omega, h⟩)
    { s with too_far := 0 }
    ⟨⟨⟨rfl, rfl, rfl⟩, rfl, fun _ _ => rfl, ⟨rfl, fun _ => Or.inl rfl⟩,
      fun k hk1 hk2 => by omega, ⟨Or.inl rfl, ⟨fun _ k hk1 hk2 => by omega, fun _ => rfl⟩⟩⟩,
     fun c hc => absurd rfl hc⟩
  exact hfold.2

/-- The round of the assignment pass for point `i` does not mark the cluster the
point is in on entry. -/
theorem populate_point_keeps_own {F : Type} (ops : FloatOps F) (cfg : Config F) (s : State F)
    (i : Nat) (hirr : ∀ x, ops.lt x x = false)
    (htrans : ∀ x y z, ops.lt x y = true → ops.lt y z = true → ops.lt x z = true) :
    (populate_point ops cfg s i).dirty.getD (Int.toNat (s.map.getD i 0)) 0 =
      s.dirty.getD (Int.toNat (s.map.getD i 0)) 0 := by
  rw [populate_point_dirty]
  by_contra hne
  have h := populate_best_marks ops cfg s i htrans _ hne
  rw [hirr] at h
  exact absurd h (by decide)

/-- An assignment pass ends, for every point of its range, at a nearest centroid
in the order of the code. -/
theorem populate_pass_ordered {F : Type} (ops : FloatOps F) (cfg : Config F)
    (start len : Nat) (s : State F)
    (hlen : ∀ m, m < len → start + m < s.map.length)
    (hvalid : ∀ k, start ≤ k → k < start + len →
      0 ≤ s.map.getD k 0 ∧ s.map.getD k 0 < (cfg.ncentroids : Int))
    (hord : ∀ k, start ≤ k → k < start + len → DistOrdered ops cfg s.centroids k) :
    ∀ k, start ≤ k → k < start + len →
      NearestBy ops cfg s.centroids k (s.map.getD k 0)
        (((List.range' start len).foldl (populate_point ops cfg)
          { s with too_far := 0 }).map.getD k 0) := by
  have hfold := foldl_range'_inv (fun m (t : State F) =>
      PassInv ops cfg start m s t ∧
      ∀ k, start ≤ k → k < start + m →
        NearestBy ops cfg s.centroids k (s.map.getD k 0) (t.map.getD k 0))
    (populate_point ops cfg) start len
    (fun m t hm hP => by
      obtain ⟨hinv, hnear⟩ := hP
      have hi := hlen m hm
      have hit : start + m < t.map.length := by rw [hinv.2.1]; exact hi
      have hcur : t.map.getD (start + m) 0 = s.map.getD (start + m) 0 :=
        hinv.2.2.1 _ (by omega)
      refine ⟨populate_point_passInv ops cfg start m s t hi hinv, ?_⟩
      intro k hk1 hk2
      rw [populate_point_map]
      by_cases hkm : k = start + m
      · subst hkm
        have h := populate_best_ordered ops cfg t (start + m) hit
          (by rw [hcur]; exact hvalid _ (by omega) (by omega))
          (by rw [hinv.1.1]; exact hord _ (by omega) (by omega))
        rw [hinv.1.1, hcur] at h
        exact h
      · rw [(populate_best_generic ops cfg t (start + m) hit).2.1 k hkm]
        exact hnear k hk1 (by omega))
    { s with too_far := 0 }
    ⟨⟨⟨rfl, rfl, rfl⟩, rfl, fun _ _ => rfl, ⟨rfl, fun _ => Or.inl rfl⟩,
      fun k hk1 hk2 => by omega, ⟨Or.inl rfl, ⟨fun _ k hk1 hk2 => by omega, fun _ => rfl⟩⟩⟩,
     fun k hk1 hk2 => by omega⟩
  exact hfold.2

/-- An assignment pass that leaves every cluster clean has found, for every point
of its range, no other centroid strictly nearer than the point's own. -/
theorem populate_pass_quiet {F : Type} (ops : FloatOps F) (cfg : Config F)
    (start len : Nat) (s : State F)
    (hlen : ∀ m, m < len → start + m < s.map.length)
    (hdl : cfg.ncentroids ≤ s.dirty.length)
    (hz : ∀ c, c < cfg.ncentroids →
      ((List.range' start len).foldl (populate_point ops cfg)
        { s with too_far := 0 }).dirty.getD c 0 = 0) :
    ∀ k, start ≤ k → k < start + len → ∀ j, j < cfg.ncentroids →
      (j : Int) ≠ s.map.getD k 0 →
      ops.lt (centroidDistance ops cfg s.centroids k j)
        (centroidDistance ops cfg s.centroids k (Int.toNat (s.map.getD k 0))) = false := by
  have hfold := foldl_range'_inv (fun m (t : State F) =>
      PassInv ops cfg start m s t ∧
      ((∀ c, c < cfg.ncentroids → t.dirty.getD c 0 = 0) →
        ∀ k, start ≤ k → k < start + m → ∀ j, j < cfg.ncentroids →
          (j : Int) ≠ s.map.getD k 0 →
          ops.lt (centroidDistance ops cfg s.centroids k j)
            (centroidDistance ops cfg s.centroids k (Int.toNat (s.map.getD k 0))) = false))
    (populate_point ops cfg) start len
    (fun m t hm hP => by
      obtain ⟨hinv, hquiet⟩ := hP
      have hi := hlen m hm
      have hcur : t.map.getD (start + m) 0 = s.map.getD (start + m) 0 :=
        hinv.2.2.1 _ (by omega)
      have hnext := populate_point_passInv ops cfg start m s t hi hinv
      refine ⟨hnext, ?_⟩
      intro hz1 k hk1 hk2 j hj hne
      rw [populate_point_dirty] at hz1
      have hgen := populate_best_generic ops cfg t (start + m) (by rw [hinv.2.1]; exact hi)
      have hzt : ∀ c, c < cfg.ncentroids → t.dirty.getD c 0 = 0 := by
        intro c hc
        rcases hgen.2.2.2.2.1 c with h | h
        · rw [← h]; exact hz1 c hc
        · rw [hz1 c hc] at h
          exact absurd h (by decide)
      by_cases hkm : k = start + m
      · subst hkm
        have h := populate_best_quiet ops cfg t (start + m)
          (by rw [hinv.2.2.2.1.1]; exact hdl) hz1 j hj (by rw [hcur]; exact hne)
        rw [hinv.1.1, hcur] at h
        exact h
      · exact hquiet hzt k hk1 (by omega) j hj hne)
    { s with too_far := 0 }
    ⟨⟨⟨rfl, rfl, rfl⟩, rfl, fun _ _ => rfl, ⟨rfl, fun _ => Or.inl rfl⟩,
      fun k hk1 hk2 => by omega, ⟨Or.inl rfl, ⟨fun _ k hk1 hk2 => by omega, fun _ => rfl⟩⟩⟩,
     fun _ k hk1 hk2 => by omega⟩
  exact hfold.2 hz

end KmBase

/-! ## Which clusters the assignment pass marks dirty -/

theorem floorSqrt_sq_nat (n : Nat) : floorSqrt ((n : ℚ) * (n : ℚ)) = (n : ℚ) := by
  unfold floorSqrt
  have h : Int.floor ((n : ℚ) * (n : ℚ)) = ((n * n : Nat) : Int) := by
    have h2 : ((n : ℚ) * (n : ℚ)) = (((n * n : Nat) : Int) : ℚ) := by push_cast; ring
    rw [h2, Int.floor_intCast]
  rw [h, Int.toNat_ofNat, Nat.sqrt_eq]

/-- One loop body of the sequential program takes `movedInit` to `movedState`. -/
theorem movedState_reached :
    KmBase.kmeans_step (exactOps ℚ floorSqrt) movedCfg movedInit = movedState := by
  have h0 : floorSqrt 0 = 0 := floorSqrt_zero
  have h1 : floorSqrt 1 = 1 := by have := floorSqrt_sq_nat 1; norm_num at this; exact this
  have h4 : floorSqrt 4 = 2 := by have := floorSqrt_sq_nat 2; norm_num at this; exact this
  have h9 : floorSqrt 9 = 3 := by have := floorSqrt_sq_nat 3; norm_num at this; exact this
  have h64 : floorSqrt 64 = 8 := by have := floorSqrt_sq_nat 8; norm_num at this; exact this
  have h100 : floorSqrt 100 = 10 := by
    have := floorSqrt_sq_nat 10; norm_num at this; exact this
  have hp : KmBase.populate (exactOps ℚ floorSqrt) movedCfg movedInit =
      { map := [0, 1, 1, 1], centroids := [[0], [2]], dirty := [1, 1], too_far := 1,
        has_changed := 0, rng := { randum_w := 1, randum_z := 1 } } := by
    simp [KmBase.populate, KmBase.populate_point, KmBase.populate_best, KmBase.populate_scan,
      KmBase.v_distance, movedCfg, movedInit, exactOps, List.range_succ]
    norm_num [h0, h1, h4, h9, h64, h100]
  unfold KmBase.kmeans_step
  rw [hp]
  simp [KmBase.compute_centroids, KmBase.compute_cluster, KmBase.recompute, KmBase.accumulate,
    movedCfg, movedState, exactOps, List.range_succ]
  norm_num

/-- The assignment pass on `movedState`: point 1 (coordinate 2) is at distance 3
from the centroid `[5]` of its cluster 1 and at distance 2 from the centroid `[0]`,
so it moves to cluster 0; only `dirty[0]` is set. -/
theorem populate_movedState :
    (KmBase.populate (exactOps ℚ floorSqrt) movedCfg movedState).map = [0, 0, 1, 1] ∧
    (KmBase.populate (exactOps ℚ floorSqrt) movedCfg movedState).dirty = [1, 0] := by
  have h0 : floorSqrt 0 = 0 := floorSqrt_zero
  have h4 : floorSqrt 4 = 2 := by have := floorSqrt_sq_nat 2; norm_num at this; exact this
  have h9 : floorSqrt 9 = 3 := by have := floorSqrt_sq_nat 3; norm_num at this; exact this
  have h25 : floorSqrt 25 = 5 := by have := floorSqrt_sq_nat 5; norm_num at this; exact this
  have h100 : floorSqrt 100 = 10 := by
    have := floorSqrt_sq_nat 10; norm_num at this; exact this
  simp [KmBase.populate, KmBase.populate_point, KmBase.populate_best, KmBase.populate_scan,
    KmBase.v_distance, movedCfg, movedState, exactOps, List.range_succ]
  norm_num [h0, h4, h9, h25, h100]

/-- Counterexample to C11 as stated: on `movedState` the pass reassigns point 1
from cluster 1 to cluster 0, and afterwards `dirty[1]`, the entry of the cluster the
point was assigned away from, is 0 (while `dirty[0]` is 1). -/
theorem old_cluster_not_marked :
    movedState.map.getD 1 0 = 1 ∧
    (KmBase.populate (exactOps ℚ floorSqrt) movedCfg movedState).map.getD 1 0 = 0 ∧
    (KmBase.populate (exactOps ℚ floorSqrt) movedCfg movedState).dirty.getD 1 0 = 0 ∧
    (KmBase.populate (exactOps ℚ floorSqrt) movedCfg movedState).dirty.getD 0 0 = 1 := by
  rw [populate_movedState.1, populate_movedState.2]
  exact ⟨rfl, rfl, rfl, rfl⟩

/-- C11 (amended): after an assignment pass over a point range, where `<` on
floats is irreflexive and transitive (as the comparison of IEEE floats is):
every point of the range that the pass reassigned to a different cluster `b` has
`dirty[b] = 1`; every entry of `dirty` is as on entry or 1; an entry `dirty[c]`
differs from its value on entry only if some point `i` of the range is strictly
nearer to the centroid of `c` than to the centroid of its cluster `map[i]` on
entry; and the round of the pass for a point `i` leaves `dirty[map[i]]`, the entry
of the cluster the point is in on entry, as it is.  So the pass marks the clusters
that points are assigned to, and no point marks the cluster it is assigned away
from.  Stated for `populate(start, end)` of the parallel form and for `populate()`
of the single-process form. -/
theorem reassigned_marks_new_cluster {F : Type} (ops : FloatOps F) (cfg : Config F)
    (s : State F) (start stop : Nat) (hmap : stop ≤ s.map.length)
    (hnp : cfg.npoints ≤ s.map.length) (hd : cfg.ncentroids ≤ s.dirty.length)
    (hirr : ∀ x, ops.lt x x = false)
    (htrans : ∀ x y z, ops.lt x y = true → ops.lt y z = true → ops.lt x z = true) :
    (∀ i, start ≤ i → i < stop →
      (KmGpt.populate ops cfg start stop s).map.getD i 0 ≠ s.map.getD i 0 →
      (KmGpt.populate ops cfg start stop s).dirty.getD
        (Int.toNat ((KmGpt.populate ops cfg start stop s).map.getD i 0)) 0 = 1) ∧
    (∀ c, (KmGpt.populate ops cfg start stop s).dirty.getD c 0 = s.dirty.getD c 0 ∨
          (KmGpt.populate ops cfg start stop s).dirty.getD c 0 = 1) ∧
    (∀ c, (KmGpt.populate ops cfg start stop s).dirty.getD c 0 ≠ s.dirty.getD c 0 →
      ∃ i, start ≤ i ∧ i < stop ∧
        ops.lt (centroidDistance ops cfg s.centroids i c)
          (centroidDistance ops cfg s.centroids i (Int.toNat (s.map.getD i 0))) = true) ∧
    (∀ i, (KmGpt.populate_point ops cfg s i).dirty.getD (Int.toNat (s.map.getD i 0)) 0 =
      s.dirty.getD (Int.toNat (s.map.getD i 0)) 0) ∧
    (∀ i, i < cfg.npoints →
      (KmBase.populate ops cfg s).map.getD i 0 ≠ s.map.getD i 0 →
      (KmBase.populate ops cfg s).dirty.getD
        (Int.toNat ((KmBase.populate ops cfg s).map.getD i 0)) 0 = 1) ∧
    (∀ c, (KmBase.populate ops cfg s).dirty.getD c 0 = s.dirty.getD c 0 ∨
          (KmBase.populate ops cfg s).dirty.getD c 0 = 1) ∧
    (∀ c, (KmBase.populate ops cfg s).dirty.getD c 0 ≠ s.dirty.getD c 0 →
      ∃ i, i < cfg.npoints ∧
        ops.lt (centroidDistance ops cfg s.centroids i c)
          (centroidDistance ops cfg s.centroids i (Int.toNat (s.map.getD i 0))) = true) ∧
    (∀ i, (KmBase.populate_point ops cfg s i).dirty.getD (Int.toNat (s.map.getD i 0)) 0 =
      s.dirty.getD (Int.toNat (s.map.getD i 0)) 0) := by
  have hg := KmGpt.populate_range_passInv ops cfg start stop s hmap
  have hb := KmBase.populate_passInv ops cfg s hnp
  refine ⟨?_, hg.2.2.2.1.2, ?_, fun i => KmBase.populate_point_keeps_own ops cfg s i hirr htrans,
    ?_, hb.2.2.2.1.2, ?_, fun i => KmBase.populate_point_keeps_own ops cfg s i hirr htrans⟩
  · intro i h1 h2 hne
    obtain ⟨j, hj, hj1, hj2⟩ := hg.2.2.2.2.1 i h1 (by omega) hne
    rw [hj1, Int.toNat_ofNat]
    exact hj2 (by omega)
  · intro c hc
    rw [KmGpt.populate_range_eq_fold] at hc
    obtain ⟨k, hk1, hk2, hk3⟩ := KmBase.populate_pass_marks ops cfg start (stop - start) s
      (fun m hm => by omega) htrans c hc
    exact ⟨k, hk1, by omega, hk3⟩
  · intro i h2 hne
    obtain ⟨j, hj, hj1, hj2⟩ := hb.2.2.2.2.1 i (Nat.zero_le i) (by omega) hne
    rw [hj1, Int.toNat_ofNat]
    exact hj2 (by omega)
  · intro c hc
    rw [KmBase.populate_eq_fold] at hc
    obtain ⟨k, _, hk2, hk3⟩ := KmBase.populate_pass_marks ops cfg 0 cfg.npoints s
      (fun m hm => by omega) htrans c hc
    exact ⟨k, by omega, hk3⟩

theorem reassigned_marks_new_cluster_witness :
    (2 ≤ movedState.map.length ∧ movedCfg.npoints ≤ movedState.map.length ∧
      movedCfg.ncentroids ≤ movedState.dirty.length ∧
      (∀ x : ℚ, (exactOps ℚ floorSqrt).lt x x = false) ∧
      (∀ x y z : ℚ, (exactOps ℚ floorSqrt).lt x y = true →
        (exactOps ℚ floorSqrt).lt y z = true → (exactOps ℚ floorSqrt).lt x z = true)) ∧
    (KmBase.populate (exactOps ℚ floorSqrt) movedCfg movedState).dirty.getD
      (Int.toNat ((KmBase.populate (exactOps ℚ floorSqrt) movedCfg movedState).map.getD 1 0))
      0 = 1 ∧
    (KmBase.populate_point (exactOps ℚ floorSqrt) movedCfg movedState 1).dirty.getD
        (Int.toNat (movedState.map.getD 1 0)) 0 =
      movedState.dirty.getD (Int.toNat (movedState.map.getD 1 0)) 0 :=
  ⟨⟨by decide, by decide, by decide, fun x => by simp [exactOps],
      fun x y z hxy hyz => by
        have h1 : x < y := by simpa [exactOps] using hxy
        have h2 : y < z := by simpa [exactOps] using hyz
        simpa [exactOps] using lt_trans h1 h2⟩,
    (reassigned_marks_new_cluster (exactOps ℚ floorSqrt) movedCfg movedState 0 2
      (by decide) (by decide) (by decide) (fun x => by simp [exactOps])
      (fun x y z hxy hyz => by
        have h1 : x < y := by simpa [exactOps] using hxy
        have h2 : y < z := by simpa [exactOps] using hyz
        simpa [exactOps] using lt_trans h1 h2)).2.2.2.2.1 1 (by decide)
      (by rw [populate_movedState.1]; decide),
    (reassigned_marks_new_cluster (exactOps ℚ floorSqrt) movedCfg movedState 0 2
      (by decide) (by decide) (by decide) (fun x => by simp [exactOps])
      (fun x y z hxy hyz => by
        have h1 : x < y := by simpa [exactOps] using hxy
        have h2 : y < z := by simpa [exactOps] using hyz
        simpa [exactOps] using lt_trans h1 h2)).2.2.2.2.2.2.2 1⟩

/-! ## The assignment pass picks a nearest centroid -/

namespace KmBase

/-- The scan for point `i`, in exact arithmetic, ends at a nearest centroid, with
ties resolved in favour of the previous cluster and then of the lowest index. -/
theorem populate_best_nearest {F : Type} [LinearOrderedField F] (sqrt : F → F)
    (cfg : Config F) (s : State F) (i : Nat) (hi : i < s.map.length)
    (ha : 0 ≤ s.map.getD i 0 ∧ s.map.getD i 0 < (cfg.ncentroids : Int)) :
    Nearest sqrt cfg s.centroids i (s.map.getD i 0)
      ((populate_best (exactOps F sqrt) cfg s i).1.map.getD i 0) := by
  obtain ⟨d, hd⟩ : ∃ d : Nat → F, ∀ c, d c =
      v_distance (exactOps F sqrt) cfg.dimension (s.centroids.getD c []) (cfg.data.getD i []) :=
    ⟨fun c => _, fun c => rfl⟩
  have hfold := foldl_range_inv (fun m (p : State F × F) =>
      p.1.centroids = s.centroids ∧ p.1.map.length = s.map.length ∧
      (0 ≤ p.1.map.getD i 0 ∧ p.1.map.getD i 0 < (cfg.ncentroids : Int)) ∧
      p.2 = d (Int.toNat (p.1.map.getD i 0)) ∧
      (∀ j, j < m → p.2 ≤ d j) ∧ p.2 ≤ d (Int.toNat (s.map.getD i 0)) ∧
      (p.1.map.getD i 0 = s.map.getD i 0 ∨
        (Int.toNat (p.1.map.getD i 0) < m ∧ p.2 < d (Int.toNat (s.map.getD i 0)) ∧
          ∀ j, j < Int.toNat (p.1.map.getD i 0) → p.2 < d j)))
    (populate_scan (exactOps F sqrt) cfg i) cfg.ncentroids
    (fun m p hm hp => by
      obtain ⟨hcen, hlen, hcur, hdist, hmin, hle, htie⟩ := hp
      unfold populate_scan
      split
      · rename_i hskip
        refine ⟨hcen, hlen, hcur, hdist, ?_, hle, ?_⟩
        · intro j hj
          by_cases hjm : j = m
          · subst hjm
            rw [hdist, ← hskip, Int.toNat_ofNat]
          · exact hmin j (by omega)
        · rcases htie with h1 | ⟨h1, h2, h3⟩
          · exact Or.inl h1
          · exact Or.inr ⟨by omega, h2, h3⟩
      · simp only
        have htmp : v_distance (exactOps F sqrt) cfg.dimension (p.1.centroids.getD m [])
            (cfg.data.getD i []) = d m := by rw [hcen, hd]
        rw [htmp]
        split
        · rename_i hlt
          have hlt2 : d m < p.2 := by
            simpa [exactOps] using hlt
          have hset : (p.1.map.set i (m : Int)).getD i 0 = (m : Int) :=
            getD_set_eq _ _ _ _ (by rw [hlen]; exact hi)
          dsimp only
          rw [hset, Int.toNat_ofNat]
          refine ⟨hcen, by rw [List.length_set]; exact hlen,
            ⟨Int.natCast_nonneg m, by exact_mod_cast hm⟩, rfl, ?_,
            le_of_lt (lt_of_lt_of_le hlt2 hle), Or.inr ⟨Nat.lt_succ_self m,
              lt_of_lt_of_le hlt2 hle, fun j hj => lt_of_lt_of_le hlt2 (hmin j hj)⟩⟩
          intro j hj
          by_cases hjm : j = m
          · subst hjm; exact le_refl _
          · exact le_of_lt (lt_of_lt_of_le hlt2 (hmin j (by omega)))
        · rename_i hnlt
          have hge : p.2 ≤ d m := by
            have : ¬ d m < p.2 := by simpa [exactOps] using hnlt
            exact not_lt.mp this
          refine ⟨hcen, hlen, hcur, hdist, ?_, hle, ?_⟩
          · intro j hj
            by_cases hjm : j = m
            · subst hjm; exact hge
            · exact hmin j (by omega)
          · rcases htie with h1 | ⟨h1, h2, h3⟩
            · exact Or.inl h1
            · exact Or.inr ⟨by omega, h2, h3⟩)
    (s, v_distance (exactOps F sqrt) cfg.dimension
      (s.centroids.getD (Int.toNat (s.map.getD i 0)) []) (cfg.data.getD i []))
    ⟨rfl, rfl, ha, (hd _).symm, fun j hj => by omega, le_of_eq (hd _).symm, Or.inl rfl⟩
  unfold Nearest
  unfold populate_best
  revert hfold
  generalize List.foldl (populate_scan (exactOps F sqrt) cfg i)
    (s, v_distance (exactOps F sqrt) cfg.dimension
      (s.centroids.getD (Int.toNat (s.map.getD i 0)) []) (cfg.data.getD i []))
    (List.range cfg.ncentroids) = p
  intro hfold
  obtain ⟨_, _, hcur, hdist, hmin, hle, htie⟩ := hfold
  refine ⟨hcur, fun j hj => ?_, fun heq => ?_, fun hne j hj hjeq => ?_⟩
  · rw [← hd, ← hd, ← hdist]
    exact hmin j hj
  · rw [← hd, ← hd, ← hdist] at heq
    rcases htie with h1 | ⟨_, h2, _⟩
    · exact h1
    · exact absurd heq (ne_of_gt h2)
  · rw [← hd, ← hd, ← hdist] at hne
    rw [← hd, ← hd, ← hdist] at hjeq
    rcases htie with h1 | ⟨_, _, h3⟩
    · exfalso
      apply hne
      rw [hdist, h1]
    · by_contra hlt
      exact absurd hjeq (ne_of_gt (h3 j (by omega)))

end KmBase

namespace KmBase

theorem populate_pass_nearest {F : Type} [LinearOrderedField F] (sqrt : F → F)
    (cfg : Config F) (start len : Nat) (s : State F)
    (hlen : ∀ m, m < len → start + m < s.map.length)
    (hvalid : ∀ k, start ≤ k → k < start + len →
      0 ≤ s.map.getD k 0 ∧ s.map.getD k 0 < (cfg.ncentroids : Int)) :
    ∀ k, start ≤ k → k < start + len →
      Nearest sqrt cfg s.centroids k (s.map.getD k 0)
        (((List.range' start len).foldl (populate_point (exactOps F sqrt) cfg)
          { s with too_far := 0 }).map.getD k 0) := by
  have hfold := foldl_range'_inv (fun m (t : State F) =>
      PassInv (exactOps F sqrt) cfg start m s t ∧
      ∀ k, start ≤ k → k < start + m →
        Nearest sqrt cfg s.centroids k (s.map.getD k 0) (t.map.getD k 0))
    (populate_point (exactOps F sqrt) cfg) start len
    (fun m t hm hP => by
      obtain ⟨hinv, hnear⟩ := hP
      have hi := hlen m hm
      have hit : start + m < t.map.length := by rw [hinv.2.1]; exact hi
      have hcur : t.map.getD (start + m) 0 = s.map.getD (start + m) 0 :=
        hinv.2.2.1 _ (by omega)
      refine ⟨populate_point_passInv (exactOps F sqrt) cfg start m s t hi hinv, ?_⟩
      intro k hk1 hk2
      rw [populate_point_map]
      by_cases hkm : k = start + m
      · subst hkm
        have h := populate_best_nearest sqrt cfg t (start + m) hit
          (by rw [hcur]; exact hvalid _ (by omega) (by omega))
        rw [hinv.1.1, hcur] at h
        exact h
      · rw [(populate_best_generic (exactOps F sqrt) cfg t (start + m) hit).2.1 k hkm]
        exact hnear k hk1 (by omega))
    { s with too_far := 0 }
    ⟨⟨⟨rfl, rfl, rfl⟩, rfl, fun _ _ => rfl, ⟨rfl, fun _ => Or.inl rfl⟩,
      fun k hk1 hk2 => by omega, ⟨Or.inl rfl, ⟨fun _ k hk1 hk2 => by omega, fun _ => rfl⟩⟩⟩,
     fun k hk1 hk2 => by omega⟩
  exact hfold.2

end KmBase

/-- C13: after an assignment pass over the points `start .. end-1`
(`populate(start, end)` of the parallel form; `populate()` of the single-process
form is the range `0 .. npoints-1`), for every interpretation of the float
operations in which `<` is a strict weak order on the distances from each point to
the centroids (as it is for IEEE floats that are not NaN): every point `i` of the
range is assigned to a cluster `map'[i]` such that no centroid `j < ncentroids` is
nearer, `distance(map'[i]) <= distance(j)`; if the centroid of the previous cluster
`map[i]` is as near as that, `map'[i] = map[i]`, and otherwise `map'[i]` is the
lowest index among the centroids that are as near.  (`NearestBy` spells this out
with the comparison of the code.) -/
theorem populate_assigns_nearest {F : Type} (ops : FloatOps F) (cfg : Config F)
    (s : State F) (start stop : Nat)
    (hstop : stop ≤ s.map.length) (hnp : cfg.npoints ≤ s.map.length)
    (hvalid : ∀ k, k < s.map.length →
      0 ≤ s.map.getD k 0 ∧ s.map.getD k 0 < (cfg.ncentroids : Int))
    (hord : ∀ k, k < s.map.length → DistOrdered ops cfg s.centroids k) :
    (∀ i, start ≤ i → i < stop →
      NearestBy ops cfg s.centroids i (s.map.getD i 0)
        ((KmGpt.populate ops cfg start stop s).map.getD i 0)) ∧
    (KmGpt.populate ops cfg start stop s).centroids = s.centroids ∧
    (∀ i, i < cfg.npoints →
      NearestBy ops cfg s.centroids i (s.map.getD i 0)
        ((KmBase.populate ops cfg s).map.getD i 0)) ∧
    (KmBase.populate ops cfg s).centroids = s.centroids := by
  refine ⟨?_, (KmGpt.populate_range_passInv _ cfg start stop s hstop).1.1, ?_,
    KmBase.populate_centroids _ cfg s⟩
  · intro i h1 h2
    rw [KmGpt.populate_range_eq_fold]
    exact KmBase.populate_pass_ordered ops cfg start (stop - start) s
      (fun m hm => by omega) (fun k hk1 hk2 => hvalid k (by omega))
      (fun k hk1 hk2 => hord k (by omega)) i h1 (by omega)
  · intro i h2
    rw [KmBase.populate_eq_fold]
    exact KmBase.populate_pass_ordered ops cfg 0 cfg.npoints s
      (fun m hm => by omega) (fun k hk1 hk2 => hvalid k (by omega))
      (fun k hk1 hk2 => hord k (by omega)) i (Nat.zero_le i) (by omega)

theorem populate_assigns_nearest_witness :
    (2 ≤ movedState.map.length ∧ movedCfg.npoints ≤ movedState.map.length ∧
      (∀ k, k < movedState.map.length →
        0 ≤ movedState.map.getD k 0 ∧ movedState.map.getD k 0 < (movedCfg.ncentroids : Int)) ∧
      (∀ k, k < movedState.map.length →
        DistOrdered (exactOps ℚ floorSqrt) movedCfg movedState.centroids k)) ∧
    NearestBy (exactOps ℚ floorSqrt) movedCfg movedState.centroids 1
      (movedState.map.getD 1 0)
      ((KmBase.populate (exactOps ℚ floorSqrt) movedCfg movedState).map.getD 1 0) :=
  ⟨⟨by decide, by decide,
      fun k hk => by
        have hk4 : k < 4 := hk
        interval_cases k <;> decide,
      fun k _ => KmBase.distOrdered_exact floorSqrt movedCfg movedState.centroids k⟩,
    (populate_assigns_nearest (exactOps ℚ floorSqrt) movedCfg movedState 0 2 (by decide)
      (by decide)
      (fun k hk => by
        have hk4 : k < 4 := hk
        interval_cases k <;> decide)
      (fun k _ => KmBase.distOrdered_exact floorSqrt movedCfg movedState.centroids k)).2.2.1 1
      (by decide)⟩

/-! ## The recomputation pass, cluster by cluster -/

namespace KmBase

/-- The accumulation loop over a list of point indices, for every interpretation
of the float operations: the population grows by the number of members and each
coordinate is the left-to-right sum of the members' coordinates. -/
theorem accumulate_list {F : Type} (ops : FloatOps F) (cfg : Config F) (map : List Int)
    (c : Nat) :
    ∀ (l : List Nat) (row : List F) (n : Nat), row.length = cfg.dimension →
      (l.foldl (accumulate ops cfg map c) (row, n)).1.length = cfg.dimension ∧
      (l.foldl (accumulate ops cfg map c) (row, n)).2 =
        n + (l.filter (fun j => decide (map.getD j 0 = (c : Int)))).length ∧
      ∀ k, k < cfg.dimension →
        (l.foldl (accumulate ops cfg map c) (row, n)).1.getD k ops.zero =
          ((l.filter (fun j => decide (map.getD j 0 = (c : Int)))).map
            (fun j => (cfg.data.getD j []).getD k ops.zero)).foldl ops.add
            (row.getD k ops.zero) := by
  intro l
  induction l with
  | nil =>
    intro row n hr
    exact ⟨hr, rfl, fun _ _ => rfl⟩
  | cons x xs ih =>
    intro row n hr
    simp only [List.foldl_cons]
    by_cases hx : map.getD x 0 = (c : Int)
    · have hacc : accumulate ops cfg map c (row, n) x =
          ((List.range cfg.dimension).foldl
            (fun r k => r.set k (ops.add (r.getD k ops.zero)
              ((cfg.data.getD x []).getD k ops.zero))) row, n + 1) := by
        unfold accumulate
        rw [if_neg (not_not.mpr hx)]
      have hupd := row_update (fun k v => ops.add v ((cfg.data.getD x []).getD k ops.zero))
        ops.zero cfg.dimension row hr
      rw [hacc]
      obtain ⟨h1, h2, h3⟩ := ih _ (n + 1) hupd.1
      have hfil : List.filter (fun j => decide (map.getD j 0 = (c : Int))) (x :: xs) =
          x :: List.filter (fun j => decide (map.getD j 0 = (c : Int))) xs := by
        rw [List.filter_cons, if_pos (by simpa using hx)]
      rw [hfil]
      refine ⟨h1, by rw [h2, List.length_cons]; omega, ?_⟩
      intro k hk
      rw [h3 k hk, hupd.2 k hk]
      rfl
    · have hacc : accumulate ops cfg map c (row, n) x = (row, n) := by
        unfold accumulate
        rw [if_pos hx]
      have hfil : List.filter (fun j => decide (map.getD j 0 = (c : Int))) (x :: xs) =
          List.filter (fun j => decide (map.getD j 0 = (c : Int))) xs := by
        rw [List.filter_cons, if_neg (by simpa using hx)]
      rw [hacc, hfil]
      exact ih row n hr

end KmBase

namespace KmGpt

theorem recompute_full {F : Type} (ops : FloatOps F) (cfg : Config F) (map : List Int)
    (c : Nat) : recompute ops cfg 0 cfg.npoints map c = KmBase.recompute ops cfg map c := by
  unfold recompute KmBase.recompute
  rw [Nat.sub_zero, ← List.range_eq_range']
  rfl

/-- The row computed for a dirty cluster `c`, for every interpretation of the
float operations: it has `dimension` entries; each is the left-to-right sum of the
members' coordinates, scaled when the population exceeds 1. -/
theorem recompute_spec {F : Type} (ops : FloatOps F) (cfg : Config F) (start stop : Nat)
    (map : List Int) (c : Nat) :
    (recompute ops cfg start stop map c).length = cfg.dimension ∧
    ∀ k, k < cfg.dimension →
      (recompute ops cfg start stop map c).getD k ops.zero =
        if 1 < population map start stop c then
          ops.scale (((members map start stop c).map
            (fun j => (cfg.data.getD j []).getD k ops.zero)).foldl ops.add ops.zero)
            (population map start stop c)
        else
          ((members map start stop c).map
            (fun j => (cfg.data.getD j []).getD k ops.zero)).foldl ops.add ops.zero := by
  obtain ⟨h1, h2, h3⟩ := KmBase.accumulate_list ops cfg map c
    (List.range' start (stop - start)) (List.replicate cfg.dimension ops.zero) 0
    (List.length_replicate _ _)
  have hpop : ((List.range' start (stop - start)).foldl (accumulate ops cfg map c)
      (List.replicate cfg.dimension ops.zero, 0)).2 = population map start stop c := by
    unfold population members
    rw [← Nat.zero_add (List.length _)]
    exact h2
  have hsum : ∀ k, k < cfg.dimension →
      ((List.range' start (stop - start)).foldl (accumulate ops cfg map c)
        (List.replicate cfg.dimension ops.zero, 0)).1.getD k ops.zero =
      ((members map start stop c).map
        (fun j => (cfg.data.getD j []).getD k ops.zero)).foldl ops.add ops.zero := by
    intro k hk
    have := h3 k hk
    rw [getD_replicate _ _ _ _ hk] at this
    exact this
  have hlen : ((List.range' start (stop - start)).foldl (accumulate ops cfg map c)
      (List.replicate cfg.dimension ops.zero, 0)).1.length = cfg.dimension := h1
  unfold recompute
  simp only
  rw [hpop]
  split
  · rename_i hgt
    have hupd := KmBase.row_update (fun _ v => ops.scale v (population map start stop c))
      ops.zero cfg.dimension _ hlen
    refine ⟨hupd.1, fun k hk => ?_⟩
    exact (hupd.2 k hk).trans (by rw [hsum k hk])
  · refine ⟨hlen, fun k hk => ?_⟩
    exact hsum k hk

/-- The flags and the map after the cluster loop of `compute_centroids`. -/
theorem compute_clusters_flags {F : Type} (ops : FloatOps F) (cfg : Config F)
    (start stop : Nat) (s : State F) (m : Nat) :
    ((List.range m).foldl (compute_cluster ops cfg start stop)
        { s with has_changed := 0 }).map = s.map ∧
    ((List.range m).foldl (compute_cluster ops cfg start stop)
        { s with has_changed := 0 }).dirty = s.dirty ∧
    ((List.range m).foldl (compute_cluster ops cfg start stop)
        { s with has_changed := 0 }).too_far = s.too_far ∧
    ((List.range m).foldl (compute_cluster ops cfg start stop)
        { s with has_changed := 0 }).rng = s.rng ∧
    (((List.range m).foldl (compute_cluster ops cfg start stop)
        { s with has_changed := 0 }).has_changed = 0 ∨
     ((List.range m).foldl (compute_cluster ops cfg start stop)
        { s with has_changed := 0 }).has_changed = 1) ∧
    (((List.range m).foldl (compute_cluster ops cfg start stop)
        { s with has_changed := 0 }).has_changed ≠ 0 ↔
      ∃ c, c < m ∧ s.dirty.getD c 0 ≠ 0) := by
  have hfold := foldl_range_inv (fun k (t : State F) =>
      t.map = s.map ∧ t.dirty = s.dirty ∧ t.too_far = s.too_far ∧ t.rng = s.rng ∧
      (t.has_changed = 0 ∨ t.has_changed = 1) ∧
      (t.has_changed ≠ 0 ↔ ∃ c, c < k ∧ s.dirty.getD c 0 ≠ 0))
    (compute_cluster ops cfg start stop) m
    (fun k t _ hP => by
      obtain ⟨hmap, hdirty, htf, hrng, h01, hiff⟩ := hP
      unfold compute_cluster
      split
      · rename_i hz
        refine ⟨hmap, hdirty, htf, hrng, h01, ?_⟩
        rw [hiff]
        constructor
        · rintro ⟨c, hc, hne⟩
          exact ⟨c, by omega, hne⟩
        · rintro ⟨c, hc, hne⟩
          by_cases hck : c = k
          · subst hck
            rw [hdirty] at hz
            exact absurd hz hne
          · exact ⟨c, by omega, hne⟩
      · rename_i hnz
        refine ⟨hmap, hdirty, htf, hrng, Or.inr rfl, ?_⟩
        simp only
        constructor
        · intro _
          exact ⟨k, Nat.lt_succ_self k, by rw [← hdirty]; exact hnz⟩
        · intro _
          decide)
    { s with has_changed := 0 }
    ⟨rfl, rfl, rfl, rfl, Or.inl rfl, ⟨fun h => absurd rfl h, fun ⟨c, hc, _⟩ => by omega⟩⟩
  exact hfold

/-- The centroids after the cluster loop of `compute_centroids`: a dirty
cluster gets the recomputed row, every other one keeps its centroid. -/
theorem compute_clusters_centroids {F : Type} (ops : FloatOps F) (cfg : Config F)
    (start stop : Nat) (s : State F) (m : Nat) (hm : m ≤ s.centroids.length) :
    ((List.range m).foldl (compute_cluster ops cfg start stop)
        { s with has_changed := 0 }).centroids.length = s.centroids.length ∧
    ∀ c, ((List.range m).foldl (compute_cluster ops cfg start stop)
          { s with has_changed := 0 }).centroids.getD c [] =
        if c < m ∧ s.dirty.getD c 0 ≠ 0 then recompute ops cfg start stop s.map c
        else s.centroids.getD c [] := by
  have hfold := foldl_range_inv (fun k (t : State F) =>
      t.map = s.map ∧ t.dirty = s.dirty ∧ t.centroids.length = s.centroids.length ∧
      ∀ c, t.centroids.getD c [] =
        if c < k ∧ s.dirty.getD c 0 ≠ 0 then recompute ops cfg start stop s.map c
        else s.centroids.getD c [])
    (compute_cluster ops cfg start stop) m
    (fun k t hk hP => by
      obtain ⟨hmap, hdirty, hlen, hcs⟩ := hP
      unfold compute_cluster
      split
      · rename_i hz
        refine ⟨hmap, hdirty, hlen, ?_⟩
        intro c
        rw [hcs c]
        by_cases hck : c = k
        · subst hck
          rw [hdirty] at hz
          rw [if_neg (by omega), if_neg (fun h => h.2 hz)]
        · by_cases hcond : c < k ∧ s.dirty.getD c 0 ≠ 0
          · rw [if_pos hcond, if_pos ⟨by omega, hcond.2⟩]
          · rw [if_neg hcond, if_neg (fun h => hcond ⟨by omega, h.2⟩)]
      · rename_i hnz
        refine ⟨hmap, hdirty, by simp only [List.length_set]; exact hlen, ?_⟩
        intro c
        simp only
        by_cases hck : c = k
        · subst hck
          rw [getD_set_eq _ _ _ _ (by omega), hmap,
            if_pos ⟨Nat.lt_succ_self c, by rw [← hdirty]; exact hnz⟩]
        · rw [getD_set_ne _ _ _ _ _ (fun e => hck e.symm), hcs c]
          by_cases hcond : c < k ∧ s.dirty.getD c 0 ≠ 0
          · rw [if_pos hcond, if_pos ⟨by omega, hcond.2⟩]
          · rw [if_neg hcond, if_neg (fun h => hcond ⟨by omega, h.2⟩)])
    { s with has_changed := 0 }
    ⟨rfl, rfl, rfl, fun c => by rw [if_neg (fun h => by omega)]⟩
  exact ⟨hfold.2.2.1, hfold.2.2.2⟩

theorem compute_centroids_full {F : Type} (ops : FloatOps F) (cfg : Config F) (s : State F) :
    compute_centroids ops cfg 0 cfg.npoints s = KmBase.compute_centroids ops cfg s := by
  have h3 : ∀ (t : State F) (i : Nat),
      compute_cluster ops cfg 0 cfg.npoints t i = KmBase.compute_cluster ops cfg t i := by
    intro t i
    unfold compute_cluster KmBase.compute_cluster
    rw [recompute_full]
  unfold compute_centroids KmBase.compute_centroids
  simp only
  rw [List.foldl_ext _ _ _ (fun t i _ => h3 t i)]

end KmGpt

/-! ## Initialisation -/

namespace KmBase

theorem randnum_iter_succ (n : Nat) (rng : Rng) :
    randnum_iter (n + 1) rng = (randnum (randnum_iter n rng)).2 := by
  unfold randnum_iter
  rw [Function.iterate_succ_apply']

theorem drawn_iff (npoints ncentroids : Nat) (rng : Rng) (p : Nat) :
    drawn npoints ncentroids rng p = true ↔ ∃ i, i < ncentroids ∧ draw npoints rng i = p := by
  unfold drawn
  rw [List.any_eq_true]
  constructor
  · rintro ⟨i, hi, h⟩
    exact ⟨i, List.mem_range.mp hi, by simpa using h⟩
  · rintro ⟨i, hi, h⟩
    exact ⟨i, List.mem_range.mpr hi, by simpa using h⟩

theorem undrawnBefore_succ (npoints ncentroids : Nat) (rng : Rng) (p : Nat) :
    undrawnBefore npoints ncentroids rng (p + 1) =
      undrawnBefore npoints ncentroids rng p +
        (if drawn npoints ncentroids rng p = true then 0 else 1) := by
  unfold undrawnBefore
  rw [List.range_succ, List.filter_append, List.length_append]
  congr 1
  by_cases h : drawn npoints ncentroids rng p = true
  · simp [h]
  · simp [h]

/-- The state after the centroid-drawing loop has run `m` rounds. -/
theorem init_centroids_loop {F : Type} (ops : FloatOps F) (cfg : Config F) (rng : Rng)
    (hn : 1 ≤ cfg.npoints) (m : Nat) (hm : m ≤ cfg.ncentroids) :
    ((List.range m).foldl (init_centroid ops cfg) (kmeans_alloc ops cfg rng)).rng =
      randnum_iter m rng ∧
    ((List.range m).foldl (init_centroid ops cfg) (kmeans_alloc ops cfg rng)).map.length =
      cfg.npoints ∧
    ((List.range m).foldl (init_centroid ops cfg) (kmeans_alloc ops cfg rng)).dirty.length =
      cfg.ncentroids ∧
    (((List.range m).foldl (init_centroid ops cfg) (kmeans_alloc ops cfg rng)).too_far = 0 ∧
     ((List.range m).foldl (init_centroid ops cfg) (kmeans_alloc ops cfg rng)).has_changed
       = 0) ∧
    (∀ i, i < m →
      ((List.range m).foldl (init_centroid ops cfg) (kmeans_alloc ops cfg rng)).dirty.getD i 0
        = 1) ∧
    (∀ p, p < cfg.npoints → (∀ i, i < m → draw cfg.npoints rng i ≠ p) →
      ((List.range m).foldl (init_centroid ops cfg) (kmeans_alloc ops cfg rng)).map.getD p 0
        = -1) ∧
    (∀ p, p < cfg.npoints → (∃ i, i < m ∧ draw cfg.npoints rng i = p) →
      0 ≤ ((List.range m).foldl (init_centroid ops cfg)
            (kmeans_alloc ops cfg rng)).map.getD p 0) ∧
    (∀ p i, p < cfg.npoints → i < m → draw cfg.npoints rng i = p →
      (∀ i2, i2 < m → i < i2 → draw cfg.npoints rng i2 ≠ p) →
      ((List.range m).foldl (init_centroid ops cfg) (kmeans_alloc ops cfg rng)).map.getD p 0
        = (i : Int)) := by
  have hfold := foldl_range_inv (fun k (t : State F) =>
      t.rng = randnum_iter k rng ∧ t.map.length = cfg.npoints ∧
      t.dirty.length = cfg.ncentroids ∧ (t.too_far = 0 ∧ t.has_changed = 0) ∧
      (∀ i, i < k → t.dirty.getD i 0 = 1) ∧
      (∀ p, p < cfg.npoints → (∀ i, i < k → draw cfg.npoints rng i ≠ p) →
        t.map.getD p 0 = -1) ∧
      (∀ p, p < cfg.npoints → (∃ i, i < k ∧ draw cfg.npoints rng i = p) →
        0 ≤ t.map.getD p 0) ∧
      (∀ p i, p < cfg.npoints → i < k → draw cfg.npoints rng i = p →
        (∀ i2, i2 < k → i < i2 → draw cfg.npoints rng i2 ≠ p) → t.map.getD p 0 = (i : Int)))
    (init_centroid ops cfg) m
    (fun k t hk hP => by
      obtain ⟨hrng, hlen, hdl, hflags, hdirty, hundrawn, hnonneg, hlast⟩ := hP
      have hj : (randnum t.rng).1 % cfg.npoints = draw cfg.npoints rng k := by
        unfold draw output
        rw [hrng]
      have hjlt : draw cfg.npoints rng k < cfg.npoints := by
        unfold draw
        exact Nat.mod_lt _ hn
      unfold init_centroid
      simp only
      rw [hj]
      refine ⟨by rw [hrng, randnum_iter_succ], by rw [List.length_set]; exact hlen,
        by rw [List.length_set]; exact hdl, hflags, ?_, ?_, ?_, ?_⟩
      · intro i hi
        rw [getD_set]
        split
        · rfl
        · rename_i hne
          have : i ≠ k := fun e => hne ⟨e.symm, by omega⟩
          exact hdirty i (by omega)
      · intro p hp hnot
        rw [getD_set_ne _ _ _ _ _ (hnot k (Nat.lt_succ_self k))]
        exact hundrawn p hp (fun i hi => hnot i (by omega))
      · intro p hp hex
        rw [getD_set]
        split
        · exact Int.natCast_nonneg k
        · rename_i hne
          have hpk : draw cfg.npoints rng k ≠ p := fun e => hne ⟨e, by rw [hlen]; exact hjlt⟩
          obtain ⟨i, hi, hdi⟩ := hex
          have hik : i ≠ k := fun e => hpk (by rw [← e]; exact hdi)
          exact hnonneg p hp ⟨i, by omega, hdi⟩
      · intro p i hp hi hdi hlater
        by_cases hik : i = k
        · subst hik
          rw [hdi, getD_set_eq _ _ _ _ (by rw [hlen]; exact hp)]
        · have hpk : draw cfg.npoints rng k ≠ p := hlater k (Nat.lt_succ_self k) (by omega)
          rw [getD_set_ne _ _ _ _ _ hpk]
          exact hlast p i hp (by omega) hdi (fun i2 h1 h2 => hlater i2 (by omega) h2))
    (kmeans_alloc ops cfg rng)
    ⟨rfl, by unfold kmeans_alloc; simp, by unfold kmeans_alloc; simp, ⟨rfl, rfl⟩,
      fun i hi => by omega,
      fun p hp _ => by
        unfold kmeans_alloc
        simp only
        rw [getD_replicate _ _ _ _ hp],
      fun p _ ⟨i, hi, _⟩ => by omega,
      fun p i _ hi => by omega⟩
  exact hfold

end KmBase

namespace KmBase

/-- The state after the loop over the unmapped points has run `m` rounds,
started from a state `s1` in which exactly the undrawn points are unmapped. -/
theorem init_unmapped_loop {F : Type} (cfg : Config F) (rng : Rng) (s1 : State F)
    (hrng1 : s1.rng = randnum_iter cfg.ncentroids rng)
    (hlen1 : s1.map.length = cfg.npoints)
    (hundrawn : ∀ p, p < cfg.npoints → drawn cfg.npoints cfg.ncentroids rng p = false →
      s1.map.getD p 0 = -1)
    (hdrawn : ∀ p, p < cfg.npoints → drawn cfg.npoints cfg.ncentroids rng p = true →
      0 ≤ s1.map.getD p 0)
    (m : Nat) (hm : m ≤ cfg.npoints) :
    ((List.range m).foldl (init_unmapped cfg) s1).rng =
      randnum_iter (cfg.ncentroids + undrawnBefore cfg.npoints cfg.ncentroids rng m) rng ∧
    ((List.range m).foldl (init_unmapped cfg) s1).map.length = cfg.npoints ∧
    (((List.range m).foldl (init_unmapped cfg) s1).centroids = s1.centroids ∧
     ((List.range m).foldl (init_unmapped cfg) s1).dirty = s1.dirty ∧
     ((List.range m).foldl (init_unmapped cfg) s1).too_far = s1.too_far ∧
     ((List.range m).foldl (init_unmapped cfg) s1).has_changed = s1.has_changed) ∧
    (∀ p, m ≤ p → ((List.range m).foldl (init_unmapped cfg) s1).map.getD p 0 =
      s1.map.getD p 0) ∧
    (∀ p, p < m → drawn cfg.npoints cfg.ncentroids rng p = true →
      ((List.range m).foldl (init_unmapped cfg) s1).map.getD p 0 = s1.map.getD p 0) ∧
    (∀ p, p < m → drawn cfg.npoints cfg.ncentroids rng p = false →
      ((List.range m).foldl (init_unmapped cfg) s1).map.getD p 0 =
        ((output rng (cfg.ncentroids + undrawnBefore cfg.npoints cfg.ncentroids rng p)
            % cfg.ncentroids : Nat) : Int)) := by
  have hfold := foldl_range_inv (fun k (t : State F) =>
      t.rng = randnum_iter (cfg.ncentroids + undrawnBefore cfg.npoints cfg.ncentroids rng k)
        rng ∧
      t.map.length = cfg.npoints ∧
      (t.centroids = s1.centroids ∧ t.dirty = s1.dirty ∧ t.too_far = s1.too_far ∧
        t.has_changed = s1.has_changed) ∧
      (∀ p, k ≤ p → t.map.getD p 0 = s1.map.getD p 0) ∧
      (∀ p, p < k → drawn cfg.npoints cfg.ncentroids rng p = true →
        t.map.getD p 0 = s1.map.getD p 0) ∧
      (∀ p, p < k → drawn cfg.npoints cfg.ncentroids rng p = false →
        t.map.getD p 0 =
          ((output rng (cfg.ncentroids + undrawnBefore cfg.npoints cfg.ncentroids rng p)
              % cfg.ncentroids : Nat) : Int)))
    (init_unmapped cfg) m
    (fun k t hk hP => by
      obtain ⟨hrng, hlen, hframe, hrest, hd, hu⟩ := hP
      have hkn : k < cfg.npoints := by omega
      have hcur : t.map.getD k 0 = s1.map.getD k 0 := hrest k (le_refl k)
      unfold init_unmapped
      by_cases hdk : drawn cfg.npoints cfg.ncentroids rng k = true
      · have hnn : ¬ t.map.getD k 0 < 0 := by
          rw [hcur]
          exact not_lt.mpr (hdrawn k hkn hdk)
        rw [if_neg hnn]
        refine ⟨by rw [hrng, undrawnBefore_succ, if_pos hdk, Nat.add_zero], hlen, hframe,
          fun p hp => hrest p (by omega), ?_, ?_⟩
        · intro p hp hdp
          by_cases hpk : p = k
          · subst hpk; exact hcur
          · exact hd p (by omega) hdp
        · intro p hp hdp
          by_cases hpk : p = k
          · subst hpk
            rw [hdk] at hdp
            exact absurd hdp (by decide)
          · exact hu p (by omega) hdp
      · have hdk2 : drawn cfg.npoints cfg.ncentroids rng k = false := by
          simpa using hdk
        have hneg : t.map.getD k 0 < 0 := by
          rw [hcur, hundrawn k hkn hdk2]
          decide
        rw [if_pos hneg]
        simp only
        refine ⟨by rw [hrng, undrawnBefore_succ, if_neg hdk, ← Nat.add_assoc,
            randnum_iter_succ], by rw [List.length_set]; exact hlen, hframe, ?_, ?_, ?_⟩
        · intro p hp
          rw [getD_set_ne _ _ _ _ _ (by omega)]
          exact hrest p (by omega)
        · intro p hp hdp
          have hpk : p ≠ k := fun e => by
            rw [e, hdk2] at hdp
            exact absurd hdp (by decide)
          rw [getD_set_ne _ _ _ _ _ (fun e => hpk e.symm)]
          exact hd p (by omega) hdp
        · intro p hp hdp
          by_cases hpk : p = k
          · subst hpk
            rw [getD_set_eq _ _ _ _ (by rw [hlen]; exact hkn), hrng]
            rfl
          · rw [getD_set_ne _ _ _ _ _ (fun e => hpk e.symm)]
            exact hu p (by omega) hdp)
    s1
    ⟨by
      have h0 : undrawnBefore cfg.npoints cfg.ncentroids rng 0 = 0 := rfl
      rw [h0, Nat.add_zero]
      exact hrng1,
     hlen1, ⟨rfl, rfl, rfl, rfl⟩, fun _ _ => rfl, fun p hp => by omega, fun p hp => by omega⟩
  exact hfold

end KmBase

namespace KmBase

/-- The centroid rows after the centroid-drawing loop has run `m` rounds. -/
theorem init_centroids_rows {F : Type} (ops : FloatOps F) (cfg : Config F) (rng : Rng)
    (m : Nat) (hm : m ≤ cfg.ncentroids) :
    ((List.range m).foldl (init_centroid ops cfg) (kmeans_alloc ops cfg rng)).centroids.length
      = cfg.ncentroids ∧
    (∀ c, c < cfg.ncentroids →
      (((List.range m).foldl (init_centroid ops cfg)
        (kmeans_alloc ops cfg rng)).centroids.getD c []).length = cfg.dimension) ∧
    (∀ c, c < m → ∀ k, k < cfg.dimension →
      (((List.range m).foldl (init_centroid ops cfg)
        (kmeans_alloc ops cfg rng)).centroids.getD c []).getD k ops.zero =
      (cfg.data.getD (draw cfg.npoints rng c) []).getD k ops.zero) := by
  have hfold := foldl_range_inv (fun n (t : State F) =>
      t.rng = randnum_iter n rng ∧ t.centroids.length = cfg.ncentroids ∧
      (∀ c, c < cfg.ncentroids → (t.centroids.getD c []).length = cfg.dimension) ∧
      (∀ c, c < n → ∀ k, k < cfg.dimension →
        (t.centroids.getD c []).getD k ops.zero =
          (cfg.data.getD (draw cfg.npoints rng c) []).getD k ops.zero))
    (init_centroid ops cfg) m
    (fun n t hn hP => by
      obtain ⟨hrng, hl, hrow, hdata⟩ := hP
      have hj : (randnum t.rng).1 % cfg.npoints = draw cfg.npoints rng n := by
        unfold draw output
        rw [hrng]
      have hfill := row_fill
        (fun k => (cfg.data.getD (draw cfg.npoints rng n) []).getD k ops.zero)
        ops.zero cfg.dimension (t.centroids.getD n []) (hrow n (by omega))
      unfold init_centroid
      simp only
      rw [hj]
      refine ⟨by rw [hrng, randnum_iter_succ], by rw [List.length_set]; exact hl, ?_, ?_⟩
      · intro c hc
        rw [getD_set]
        split
        · exact hfill.1
        · exact hrow c hc
      · intro c hc k hk
        by_cases hcn : c = n
        · subst hcn
          rw [getD_set_eq _ _ _ _ (by omega)]
          exact hfill.2 k hk
        · rw [getD_set_ne _ _ _ _ _ (fun e => hcn e.symm)]
          exact hdata c (by omega) k hk)
    (kmeans_alloc ops cfg rng)
    ⟨rfl, by unfold kmeans_alloc; simp,
     fun c hc => by
      unfold kmeans_alloc
      simp only
      rw [getD_replicate _ _ _ _ hc, List.length_replicate],
     fun c hc => by omega⟩
  exact ⟨hfold.2.1, hfold.2.2.1, hfold.2.2.2⟩

/-- The state produced by the initialisation of `kmeans`. -/
theorem kmeans_init_spec {F : Type} (ops : FloatOps F) (cfg : Config F) (rng : Rng)
    (hn : 1 ≤ cfg.npoints) :
    (∀ i, i < cfg.ncentroids →
      draw cfg.npoints rng i < cfg.npoints ∧
      ((kmeans_init ops cfg rng).centroids.getD i []).length = cfg.dimension ∧
      (∀ k, k < cfg.dimension →
        ((kmeans_init ops cfg rng).centroids.getD i []).getD k ops.zero =
          (cfg.data.getD (draw cfg.npoints rng i) []).getD k ops.zero) ∧
      (kmeans_init ops cfg rng).dirty.getD i 0 = 1) ∧
    (∀ p i, p < cfg.npoints → i < cfg.ncentroids → draw cfg.npoints rng i = p →
      (∀ i2, i2 < cfg.ncentroids → i < i2 → draw cfg.npoints rng i2 ≠ p) →
      (kmeans_init ops cfg rng).map.getD p 0 = (i : Int)) ∧
    (∀ p, p < cfg.npoints → (∀ i, i < cfg.ncentroids → draw cfg.npoints rng i ≠ p) →
      (kmeans_init ops cfg rng).map.getD p 0 =
        ((output rng (cfg.ncentroids + undrawnBefore cfg.npoints cfg.ncentroids rng p)
            % cfg.ncentroids : Nat) : Int)) ∧
    (kmeans_init ops cfg rng).rng =
      randnum_iter
        (cfg.ncentroids + undrawnBefore cfg.npoints cfg.ncentroids rng cfg.npoints) rng ∧
    ((kmeans_init ops cfg rng).map.length = cfg.npoints ∧
     (kmeans_init ops cfg rng).centroids.length = cfg.ncentroids ∧
     (kmeans_init ops cfg rng).dirty.length = cfg.ncentroids ∧
     (kmeans_init ops cfg rng).too_far = 0 ∧ (kmeans_init ops cfg rng).has_changed = 0) := by
  obtain ⟨a1, a2, a3, a4, a5, a6, a7, a8⟩ :=
    init_centroids_loop ops cfg rng hn cfg.ncentroids (le_refl _)
  obtain ⟨r1, r2, r3⟩ := init_centroids_rows ops cfg rng cfg.ncentroids (le_refl _)
  have hnot : ∀ p, drawn cfg.npoints cfg.ncentroids rng p = false →
      ∀ i, i < cfg.ncentroids → draw cfg.npoints rng i ≠ p := by
    intro p hp i hi hdi
    have := (drawn_iff cfg.npoints cfg.ncentroids rng p).mpr ⟨i, hi, hdi⟩
    rw [hp] at this
    exact absurd this (by decide)
  obtain ⟨b1, b2, ⟨b3, b4, b5, b6⟩, b7, b8, b9⟩ := init_unmapped_loop cfg rng
    ((List.range cfg.ncentroids).foldl (init_centroid ops cfg) (kmeans_alloc ops cfg rng))
    a1 a2 (fun p hp hd => a6 p hp (hnot p hd))
    (fun p hp hd => a7 p hp ((drawn_iff _ _ _ _).mp hd)) cfg.npoints (le_refl _)
  unfold kmeans_init
  refine ⟨?_, ?_, ?_, b1, ⟨b2, by rw [b3]; exact r1, by rw [b4]; exact a3,
    by rw [b5]; exact a4.1, by rw [b6]; exact a4.2⟩⟩
  · intro i hi
    refine ⟨Nat.mod_lt _ hn, by rw [b3]; exact r2 i hi, ?_, by rw [b4]; exact a5 i hi⟩
    intro k hk
    rw [b3]
    exact r3 i hi k hk
  · intro p i hp hi hdi hlater
    rw [b8 p hp ((drawn_iff _ _ _ _).mpr ⟨i, hi, hdi⟩)]
    exact a8 p i hp hi hdi hlater
  · intro p hp hnone
    have hd : drawn cfg.npoints cfg.ncentroids rng p = false := by
      by_contra h
      have h2 : drawn cfg.npoints cfg.ncentroids rng p = true := by simpa using h
      obtain ⟨i, hi, hdi⟩ := (drawn_iff _ _ _ _).mp h2
      exact hnone i hi hdi
    exact b9 p hp hd

end KmBase

/-- C16: for `npoints >= 1` and `ncentroids >= 1`, the initialisation of `kmeans`
consumes the generator outputs `r_0, r_1, ...` (`output rng n`) in order and
produces this state: for each cluster `i < ncentroids`, with `j_i = r_i mod npoints`
(`draw`), `centroids[i]` has `dimension` entries equal to those of `data[j_i]` and
`dirty[i]` is 1; a point `p` drawn by some cluster has `map[p]` equal to the largest
`i` with `j_i = p`; a point `p` drawn by no cluster has
`map[p] = r_(ncentroids + u) mod ncentroids`, where `u` is the number of undrawn
points below `p`; the generator has then been called `ncentroids` plus the number
of undrawn points times.  The parallel form runs the same initialisation. -/
theorem kmeans_init_state {F : Type} (ops : FloatOps F) (cfg : Config F) (rng : Rng)
    (hn : 1 ≤ cfg.npoints) (_hc : 1 ≤ cfg.ncentroids) :
    (∀ i, i < cfg.ncentroids →
      KmBase.draw cfg.npoints rng i < cfg.npoints ∧
      ((KmBase.kmeans_init ops cfg rng).centroids.getD i []).length = cfg.dimension ∧
      (∀ k, k < cfg.dimension →
        ((KmBase.kmeans_init ops cfg rng).centroids.getD i []).getD k ops.zero =
          (cfg.data.getD (KmBase.draw cfg.npoints rng i) []).getD k ops.zero) ∧
      (KmBase.kmeans_init ops cfg rng).dirty.getD i 0 = 1) ∧
    (∀ p i, p < cfg.npoints → i < cfg.ncentroids → KmBase.draw cfg.npoints rng i = p →
      (∀ i2, i2 < cfg.ncentroids → i < i2 → KmBase.draw cfg.npoints rng i2 ≠ p) →
      (KmBase.kmeans_init ops cfg rng).map.getD p 0 = (i : Int)) ∧
    (∀ p, p < cfg.npoints → (∀ i, i < cfg.ncentroids → KmBase.draw cfg.npoints rng i ≠ p) →
      (KmBase.kmeans_init ops cfg rng).map.getD p 0 =
        ((KmBase.output rng
            (cfg.ncentroids + KmBase.undrawnBefore cfg.npoints cfg.ncentroids rng p)
            % cfg.ncentroids : Nat) : Int)) ∧
    (KmBase.kmeans_init ops cfg rng).rng =
      KmBase.randnum_iter
        (cfg.ncentroids + KmBase.undrawnBefore cfg.npoints cfg.ncentroids rng cfg.npoints)
        rng ∧
    KmGpt.kmeans_init ops cfg rng = KmBase.kmeans_init ops cfg rng := by
  obtain ⟨h1, h2, h3, h4, _⟩ := KmBase.kmeans_init_spec ops cfg rng hn
  exact ⟨h1, h2, h3, h4, rfl⟩

theorem kmeans_init_state_witness :
    (1 ≤ sampleCfg.npoints ∧ 1 ≤ sampleCfg.ncentroids) ∧
    (KmBase.kmeans_init (exactOps ℚ floorSqrt) sampleCfg (KmBase.srandnum 1)).rng =
      KmBase.randnum_iter
        (sampleCfg.ncentroids +
          KmBase.undrawnBefore sampleCfg.npoints sampleCfg.ncentroids (KmBase.srandnum 1)
            sampleCfg.npoints)
        (KmBase.srandnum 1) :=
  ⟨⟨by decide, by decide⟩,
    (kmeans_init_state (exactOps ℚ floorSqrt) sampleCfg (KmBase.srandnum 1)
      (by decide) (by decide)).2.2.2.1⟩

/-! ## What the recomputation pass leaves behind -/

namespace KmGpt

/-- The state after `compute_centroids(start, end)`. -/
theorem compute_centroids_spec {F : Type} (ops : FloatOps F) (cfg : Config F)
    (start stop : Nat) (s : State F) :
    (compute_centroids ops cfg start stop s).map = s.map ∧
    (compute_centroids ops cfg start stop s).too_far = s.too_far ∧
    (compute_centroids ops cfg start stop s).rng = s.rng ∧
    (compute_centroids ops cfg start stop s).dirty = List.replicate cfg.ncentroids 0 ∧
    ((compute_centroids ops cfg start stop s).has_changed = 0 ∨
      (compute_centroids ops cfg start stop s).has_changed = 1) ∧
    ((compute_centroids ops cfg start stop s).has_changed ≠ 0 ↔
      ∃ c, c < cfg.ncentroids ∧ s.dirty.getD c 0 ≠ 0) ∧
    (cfg.ncentroids ≤ s.centroids.length →
      (compute_centroids ops cfg start stop s).centroids.length = s.centroids.length ∧
      ∀ c, (compute_centroids ops cfg start stop s).centroids.getD c [] =
        if c < cfg.ncentroids ∧ s.dirty.getD c 0 ≠ 0 then recompute ops cfg start stop s.map c
        else s.centroids.getD c []) := by
  obtain ⟨h1, _, h3, h4, h5, h6⟩ := compute_clusters_flags ops cfg start stop s cfg.ncentroids
  unfold compute_centroids
  exact ⟨h1, h3, h4, rfl, h5, h6,
    fun hcl => compute_clusters_centroids ops cfg start stop s cfg.ncentroids hcl⟩

end KmGpt

/-- Counterexample to C12 as stated, on the program input `npoints = 1`,
`dimension = 1`, `ncentroids = 1`, `mindistance = 0`, `seed = 1`: after the first
`populate` pass the only cluster is dirty and has population 1, and the first
`compute_centroids` pass sets `has_changed`, although no dirty cluster has a
population greater than 1. -/
theorem has_changed_with_singleton :
    ¬ ((KmBase.compute_centroids (exactOps ℚ floorSqrt)
          (KmBase.main_config (exactOps ℚ floorSqrt) 1 1 1 0 1)
          (KmBase.populate (exactOps ℚ floorSqrt)
            (KmBase.main_config (exactOps ℚ floorSqrt) 1 1 1 0 1)
            (KmBase.kmeans_init (exactOps ℚ floorSqrt)
              (KmBase.main_config (exactOps ℚ floorSqrt) 1 1 1 0 1)
              (KmBase.main_rng (exactOps ℚ floorSqrt) 1 1 1)))).has_changed ≠ 0 ↔
      ∃ c, c < (KmBase.main_config (exactOps ℚ floorSqrt) 1 1 1 0 1).ncentroids ∧
        (KmBase.populate (exactOps ℚ floorSqrt)
            (KmBase.main_config (exactOps ℚ floorSqrt) 1 1 1 0 1)
            (KmBase.kmeans_init (exactOps ℚ floorSqrt)
              (KmBase.main_config (exactOps ℚ floorSqrt) 1 1 1 0 1)
              (KmBase.main_rng (exactOps ℚ floorSqrt) 1 1 1))).dirty.getD c 0 ≠ 0 ∧
        1 < population
          (KmBase.populate (exactOps ℚ floorSqrt)
            (KmBase.main_config (exactOps ℚ floorSqrt) 1 1 1 0 1)
            (KmBase.kmeans_init (exactOps ℚ floorSqrt)
              (KmBase.main_config (exactOps ℚ floorSqrt) 1 1 1 0 1)
              (KmBase.main_rng (exactOps ℚ floorSqrt) 1 1 1))).map
          0 (KmBase.main_config (exactOps ℚ floorSqrt) 1 1 1 0 1).npoints c) := by
  intro hiff
  have hinit := KmBase.kmeans_init_spec (exactOps ℚ floorSqrt)
    (KmBase.main_config (exactOps ℚ floorSqrt) 1 1 1 0 1)
    (KmBase.main_rng (exactOps ℚ floorSqrt) 1 1 1) (le_refl 1)
  have hpass := KmBase.populate_passInv (exactOps ℚ floorSqrt)
    (KmBase.main_config (exactOps ℚ floorSqrt) 1 1 1 0 1)
    (KmBase.kmeans_init (exactOps ℚ floorSqrt)
      (KmBase.main_config (exactOps ℚ floorSqrt) 1 1 1 0 1)
      (KmBase.main_rng (exactOps ℚ floorSqrt) 1 1 1)) (le_of_eq hinit.2.2.2.2.1.symm)
  have hd0 : (KmBase.populate (exactOps ℚ floorSqrt)
      (KmBase.main_config (exactOps ℚ floorSqrt) 1 1 1 0 1)
      (KmBase.kmeans_init (exactOps ℚ floorSqrt)
        (KmBase.main_config (exactOps ℚ floorSqrt) 1 1 1 0 1)
        (KmBase.main_rng (exactOps ℚ floorSqrt) 1 1 1))).dirty.getD 0 0 = 1 := by
    rcases hpass.2.2.2.1.2 0 with h | h
    · rw [h]; exact (hinit.1 0 (by decide)).2.2.2
    · exact h
  have hspec := KmGpt.compute_centroids_spec (exactOps ℚ floorSqrt)
    (KmBase.main_config (exactOps ℚ floorSqrt) 1 1 1 0 1) 0
    (KmBase.main_config (exactOps ℚ floorSqrt) 1 1 1 0 1).npoints
    (KmBase.populate (exactOps ℚ floorSqrt)
      (KmBase.main_config (exactOps ℚ floorSqrt) 1 1 1 0 1)
      (KmBase.kmeans_init (exactOps ℚ floorSqrt)
        (KmBase.main_config (exactOps ℚ floorSqrt) 1 1 1 0 1)
        (KmBase.main_rng (exactOps ℚ floorSqrt) 1 1 1)))
  rw [KmGpt.compute_centroids_full] at hspec
  have hchanged := hspec.2.2.2.2.2.1.mpr ⟨0, by decide, by rw [hd0]; decide⟩
  obtain ⟨c, _, _, hpop⟩ := hiff.mp hchanged
  have hle : population
      (KmBase.populate (exactOps ℚ floorSqrt)
        (KmBase.main_config (exactOps ℚ floorSqrt) 1 1 1 0 1)
        (KmBase.kmeans_init (exactOps ℚ floorSqrt)
          (KmBase.main_config (exactOps ℚ floorSqrt) 1 1 1 0 1)
          (KmBase.main_rng (exactOps ℚ floorSqrt) 1 1 1))).map
      0 (KmBase.main_config (exactOps ℚ floorSqrt) 1 1 1 0 1).npoints c ≤ 1 := by
    unfold population members
    exact le_trans (List.length_filter_le _ _) (by simp [KmBase.main_config])
  omega

/-- C12 (amended): after a recomputation pass, `has_changed` is 0 or 1, and it is
true if and only if at least one cluster `c < ncentroids` was dirty on entry to the
pass, whatever its population among the points of the range.  Stated for
`compute_centroids(start, end)` of the parallel form and for `compute_centroids()`
of the single-process form. -/
theorem has_changed_iff_some_dirty {F : Type} (ops : FloatOps F) (cfg : Config F)
    (s : State F) (start stop : Nat) :
    ((KmGpt.compute_centroids ops cfg start stop s).has_changed = 0 ∨
      (KmGpt.compute_centroids ops cfg start stop s).has_changed = 1) ∧
    ((KmGpt.compute_centroids ops cfg start stop s).has_changed ≠ 0 ↔
      ∃ c, c < cfg.ncentroids ∧ s.dirty.getD c 0 ≠ 0) ∧
    ((KmBase.compute_centroids ops cfg s).has_changed = 0 ∨
      (KmBase.compute_centroids ops cfg s).has_changed = 1) ∧
    ((KmBase.compute_centroids ops cfg s).has_changed ≠ 0 ↔
      ∃ c, c < cfg.ncentroids ∧ s.dirty.getD c 0 ≠ 0) := by
  have hg := KmGpt.compute_centroids_spec ops cfg start stop s
  have hb := KmGpt.compute_centroids_spec ops cfg 0 cfg.npoints s
  rw [KmGpt.compute_centroids_full] at hb
  exact ⟨hg.2.2.2.2.1, hg.2.2.2.2.2.1, hb.2.2.2.2.1, hb.2.2.2.2.2.1⟩

namespace KmGpt

/-- The centroid of a cluster that was dirty on entry, after
`compute_centroids(start, end)`. -/
theorem dirty_centroid_spec {F : Type} (ops : FloatOps F) (cfg : Config F)
    (hadd : ∀ x, ops.add ops.zero x = x)
    (start stop : Nat) (s : State F) (hcl : cfg.ncentroids ≤ s.centroids.length)
    (c : Nat) (hc : c < cfg.ncentroids) (hd : s.dirty.getD c 0 ≠ 0) :
    ((compute_centroids ops cfg start stop s).centroids.getD c []).length = cfg.dimension ∧
    ∀ k, k < cfg.dimension →
      (1 < population s.map start stop c →
        ((compute_centroids ops cfg start stop s).centroids.getD c []).getD k ops.zero =
          ops.scale (((members s.map start stop c).map
            (fun j => (cfg.data.getD j []).getD k ops.zero)).foldl ops.add ops.zero)
            (population s.map start stop c)) ∧
      (population s.map start stop c = 1 → ∀ j, j ∈ members s.map start stop c →
        ((compute_centroids ops cfg start stop s).centroids.getD c []).getD k ops.zero =
          (cfg.data.getD j []).getD k ops.zero) ∧
      (population s.map start stop c = 0 →
        ((compute_centroids ops cfg start stop s).centroids.getD c []).getD k ops.zero =
          ops.zero) := by
  have hspec := (compute_centroids_spec ops cfg start stop s).2.2.2.2.2.2 hcl
  have hrow := hspec.2 c
  rw [if_pos ⟨hc, hd⟩] at hrow
  rw [hrow]
  obtain ⟨hlen, hval⟩ := recompute_spec ops cfg start stop s.map c
  refine ⟨hlen, fun k hk => ⟨?_, ?_, ?_⟩⟩
  · intro hgt
    rw [hval k hk, if_pos hgt]
  · intro h1 j hj
    rw [hval k hk, if_neg (by omega)]
    unfold population at h1
    obtain ⟨x, hx⟩ := List.length_eq_one.mp h1
    rw [hx] at hj ⊢
    have hjx : j = x := by simpa using hj
    subst hjx
    simp only [List.map_cons, List.map_nil, List.foldl_cons, List.foldl_nil]
    exact hadd _
  · intro h0
    rw [hval k hk, if_neg (by omega)]
    unfold population at h0
    rw [List.length_eq_zero.mp h0]
    rfl

end KmGpt

/-- C14: after a recomputation pass over the points `start .. end-1`, for every
cluster `c < ncentroids` that was dirty on entry, with population `p` in the range:
`centroids[c]` has `dimension` entries; if `p > 1`, `centroids[c][k]` is the sum of
`data[i][k]` over the members (added in index order, starting from 0) scaled by
`1/p`; if `p = 1`, `centroids[c][k]` is the coordinate of the single member; if
`p = 0`, it is 0.  A cluster that was not dirty keeps its centroid, and the pass
changes no entry of `map`.  Holds for every interpretation of the float operations
in which `0 + x = x`; stated for `compute_centroids(start, end)` of the parallel
form and, with the range `0 .. npoints-1`, for the single-process form. -/
theorem compute_centroids_result {F : Type} (ops : FloatOps F) (cfg : Config F)
    (hadd : ∀ x, ops.add ops.zero x = x)
    (s : State F) (start stop : Nat) (hcl : cfg.ncentroids ≤ s.centroids.length) :
    (∀ c, c < cfg.ncentroids → s.dirty.getD c 0 ≠ 0 →
      ((KmGpt.compute_centroids ops cfg start stop s).centroids.getD c []).length
        = cfg.dimension ∧
      ∀ k, k < cfg.dimension →
        (1 < population s.map start stop c →
          ((KmGpt.compute_centroids ops cfg start stop s).centroids.getD c []).getD k ops.zero
            = ops.scale (((members s.map start stop c).map
                (fun j => (cfg.data.getD j []).getD k ops.zero)).foldl ops.add ops.zero)
                (population s.map start stop c)) ∧
        (population s.map start stop c = 1 → ∀ j, j ∈ members s.map start stop c →
          ((KmGpt.compute_centroids ops cfg start stop s).centroids.getD c []).getD k ops.zero
            = (cfg.data.getD j []).getD k ops.zero) ∧
        (population s.map start stop c = 0 →
          ((KmGpt.compute_centroids ops cfg start stop s).centroids.getD c []).getD k ops.zero
            = ops.zero)) ∧
    (∀ c, s.dirty.getD c 0 = 0 →
      (KmGpt.compute_centroids ops cfg start stop s).centroids.getD c [] =
        s.centroids.getD c []) ∧
    (KmGpt.compute_centroids ops cfg start stop s).map = s.map ∧
    (∀ c, c < cfg.ncentroids → s.dirty.getD c 0 ≠ 0 →
      ((KmBase.compute_centroids ops cfg s).centroids.getD c []).length = cfg.dimension ∧
      ∀ k, k < cfg.dimension →
        (1 < population s.map 0 cfg.npoints c →
          ((KmBase.compute_centroids ops cfg s).centroids.getD c []).getD k ops.zero
            = ops.scale (((members s.map 0 cfg.npoints c).map
                (fun j => (cfg.data.getD j []).getD k ops.zero)).foldl ops.add ops.zero)
                (population s.map 0 cfg.npoints c)) ∧
        (population s.map 0 cfg.npoints c = 1 → ∀ j, j ∈ members s.map 0 cfg.npoints c →
          ((KmBase.compute_centroids ops cfg s).centroids.getD c []).getD k ops.zero
            = (cfg.data.getD j []).getD k ops.zero) ∧
        (population s.map 0 cfg.npoints c = 0 →
          ((KmBase.compute_centroids ops cfg s).centroids.getD c []).getD k ops.zero
            = ops.zero)) ∧
    (∀ c, s.dirty.getD c 0 = 0 →
      (KmBase.compute_centroids ops cfg s).centroids.getD c [] = s.centroids.getD c []) ∧
    (KmBase.compute_centroids ops cfg s).map = s.map := by
  have hclean : ∀ a b (c : Nat), s.dirty.getD c 0 = 0 →
      (KmGpt.compute_centroids ops cfg a b s).centroids.getD c [] = s.centroids.getD c [] := by
    intro a b c hz
    rw [((KmGpt.compute_centroids_spec ops cfg a b s).2.2.2.2.2.2 hcl).2 c,
      if_neg (fun h => h.2 hz)]
  refine ⟨fun c hc hd => KmGpt.dirty_centroid_spec ops cfg hadd start stop s hcl c hc hd,
    hclean start stop, (KmGpt.compute_centroids_spec ops cfg start stop s).1, ?_, ?_, ?_⟩
  · intro c hc hd
    have h := KmGpt.dirty_centroid_spec ops cfg hadd 0 cfg.npoints s hcl c hc hd
    rw [KmGpt.compute_centroids_full] at h
    exact h
  · intro c hz
    have h := hclean 0 cfg.npoints c hz
    rw [KmGpt.compute_centroids_full] at h
    exact h
  · exact KmBase.compute_centroids_map ops cfg s

theorem compute_centroids_result_witness :
    ((∀ x : ℚ, (exactOps ℚ floorSqrt).add (exactOps ℚ floorSqrt).zero x = x) ∧
      meanCfg.ncentroids ≤ meanState.centroids.length) ∧
    ((KmBase.compute_centroids (exactOps ℚ floorSqrt) meanCfg meanState).centroids.getD 1
      []).getD 0 0 = 5 ∧
    ((KmBase.compute_centroids (exactOps ℚ floorSqrt) meanCfg meanState).centroids.getD 0
      []).getD 0 0 = 4 ∧
    ((KmBase.compute_centroids (exactOps ℚ floorSqrt) meanCfg meanState).centroids.getD 2
      []).getD 0 0 = 0 ∧
    (KmBase.compute_centroids (exactOps ℚ floorSqrt) meanCfg meanState).centroids.getD 3 []
      = [7] ∧
    (KmBase.compute_centroids (exactOps ℚ floorSqrt) meanCfg meanState).map = [0, 1, 1, 1] ∧
    ((KmGpt.compute_centroids (exactOps ℚ floorSqrt) meanCfg 1 3 meanState).centroids.getD 1
      []).getD 0 0 = 5 / 2 :=
  ⟨⟨fun x => zero_add x, by decide⟩,
    ((((compute_centroids_result (exactOps ℚ floorSqrt) meanCfg (fun x => zero_add x)
      meanState 0 4 (by decide)).2.2.2.1 1 (by decide) (by decide)).2 0 (by decide)).1
        (by decide)).trans
      (by norm_num [members, population, exactOps, meanCfg, meanState, List.range']),
    ((((compute_centroids_result (exactOps ℚ floorSqrt) meanCfg (fun x => zero_add x)
      meanState 0 4 (by decide)).2.2.2.1 0 (by decide) (by decide)).2 0 (by decide)).2.1
        (by decide) 0 (by decide)),
    ((((compute_centroids_result (exactOps ℚ floorSqrt) meanCfg (fun x => zero_add x)
      meanState 0 4 (by decide)).2.2.2.1 2 (by decide) (by decide)).2 0 (by decide)).2.2
        (by decide)),
    (compute_centroids_result (exactOps ℚ floorSqrt) meanCfg (fun x => zero_add x)
      meanState 0 4 (by decide)).2.2.2.2.1 3 (by decide),
    (compute_centroids_result (exactOps ℚ floorSqrt) meanCfg (fun x => zero_add x)
      meanState 0 4 (by decide)).2.2.2.2.2,
    ((((compute_centroids_result (exactOps ℚ floorSqrt) meanCfg (fun x => zero_add x)
      meanState 1 3 (by decide)).1 1 (by decide) (by decide)).2 0 (by decide)).1
        (by decide)).trans
      (by norm_num [members, population, exactOps, meanCfg, meanState, List.range'])⟩

/-- C15: whatever the state on entry, after `compute_centroids` returns `dirty[c]`
is 0 for every `c < ncentroids`; hence the dirty set is all 0 at the start of every
assignment pass except the first (after `n >= 1` loop bodies), while after
initialisation `dirty[c]` is 1 for every `c < ncentroids`. -/
theorem dirty_cleared_each_pass {F : Type} (ops : FloatOps F) (cfg : Config F) (rng : Rng)
    (hn : 1 ≤ cfg.npoints) :
    (∀ (s : State F) c, c < cfg.ncentroids →
      (KmBase.compute_centroids ops cfg s).dirty.getD c 0 = 0) ∧
    (∀ n c, 1 ≤ n → c < cfg.ncentroids →
      (KmBase.steps ops cfg n (KmBase.kmeans_init ops cfg rng)).dirty.getD c 0 = 0) ∧
    (∀ c, c < cfg.ncentroids → (KmBase.kmeans_init ops cfg rng).dirty.getD c 0 = 1) := by
  have h1 : ∀ (s : State F) c, c < cfg.ncentroids →
      (KmBase.compute_centroids ops cfg s).dirty.getD c 0 = 0 := by
    intro s c hc
    rw [KmBase.compute_centroids_dirty, getD_replicate _ _ _ _ hc]
  refine ⟨h1, ?_, fun c hc => ((KmBase.kmeans_init_spec ops cfg rng hn).1 c hc).2.2.2⟩
  intro n c hn1 hc
  obtain ⟨m, rfl⟩ : ∃ m, n = m + 1 := ⟨n - 1, by omega⟩
  rw [KmBase.steps_succ]
  exact h1 _ c hc

theorem dirty_cleared_each_pass_witness :
    1 ≤ sampleCfg.npoints ∧
    (KmBase.kmeans_init (exactOps ℚ floorSqrt) sampleCfg (KmBase.srandnum 1)).dirty.getD 1 0
      = 1 :=
  ⟨by decide,
    (dirty_cleared_each_pass (exactOps ℚ floorSqrt) sampleCfg (KmBase.srandnum 1)
      (by decide)).2.2 1 (by decide)⟩

/-! ## The parallel form: what a worker writes and what the reductions return -/

namespace KmBase

theorem populate_best_map_frame {F : Type} (ops : FloatOps F) (cfg : Config F) (s : State F)
    (i k : Nat) (hk : k ≠ i) :
    (populate_best ops cfg s i).1.map.getD k 0 = s.map.getD k 0 := by
  unfold populate_best
  refine foldl_inv (fun p : State F × F => p.1.map.getD k 0 = s.map.getD k 0)
    (fun _ => True) (populate_scan ops cfg i) ?_ (List.range cfg.ncentroids) _ rfl
    (fun _ _ => trivial)
  intro p j hp _
  unfold populate_scan
  split
  · exact hp
  · simp only
    split
    · rw [getD_set_ne _ _ _ _ _ (fun e => hk e.symm)]
      exact hp
    · exact hp

end KmBase

namespace KmGpt

/-- `populate(start, end)` writes `map` only at indices of the range. -/
theorem populate_map_frame {F : Type} (ops : FloatOps F) (cfg : Config F) (start stop : Nat)
    (s : State F) (k : Nat) (hk : ¬ (start ≤ k ∧ k < stop)) :
    (populate ops cfg start stop s).map.getD k 0 = s.map.getD k 0 := by
  rw [populate_range_eq_fold]
  refine foldl_inv (fun t : State F => t.map.getD k 0 = s.map.getD k 0)
    (fun i => start ≤ i ∧ i < stop) (KmBase.populate_point ops cfg) ?_
    (List.range' start (stop - start)) { s with too_far := 0 } rfl ?_
  · intro t i ht hi
    rw [KmBase.populate_point_map,
      KmBase.populate_best_map_frame ops cfg t i k (fun e => hk (by rw [e]; exact hi))]
    exact ht
  · intro i hi
    obtain ⟨j, hj, rfl⟩ := List.mem_range'.mp hi
    omega

theorem local_step_map_frame {F : Type} (ops : FloatOps F) (cfg : Config F)
    (numprocs rank : Nat) (s : State F) (k : Nat)
    (hk : ¬ (range_start cfg.npoints rank numprocs ≤ k ∧
      k < range_stop cfg.npoints rank numprocs)) :
    (local_step ops cfg numprocs rank s).map.getD k 0 = s.map.getD k 0 := by
  unfold local_step
  rw [(compute_centroids_spec ops cfg _ _ _).1]
  exact populate_map_frame ops cfg _ _ s k hk

/-- The reductions leave every worker's `map` as it is. -/
theorem reduce_getElem {F : Type} (ops : FloatOps F) (ws : List (State F)) (r : Nat)
    (w : State F) (h : (reduce ops ws)[r]? = some w) :
    ∃ v, ws[r]? = some v ∧ w.map = v.map ∧ w.rng = v.rng := by
  unfold reduce at h
  simp only [List.getElem?_map] at h
  cases hv : ws[r]? with
  | none => rw [hv] at h; simp at h
  | some v =>
    rw [hv] at h
    simp only [Option.map_some', Option.some.injEq] at h
    exact ⟨v, rfl, by rw [← h], by rw [← h]⟩

theorem reduce_length {F : Type} (ops : FloatOps F) (ws : List (State F)) :
    (reduce ops ws).length = ws.length := by
  unfold reduce
  simp only [List.length_map]

theorem kmeans_step_length {F : Type} (ops : FloatOps F) (cfg : Config F) (numprocs : Nat)
    (ws : List (State F)) (h : ws.length = numprocs) :
    (kmeans_step ops cfg numprocs ws).length = numprocs := by
  unfold kmeans_step
  rw [reduce_length, List.length_zipWith, List.length_range, h, min_self]

theorem kmeans_step_getElem {F : Type} (ops : FloatOps F) (cfg : Config F) (numprocs : Nat)
    (ws : List (State F)) (r : Nat) (w : State F)
    (h : (kmeans_step ops cfg numprocs ws)[r]? = some w) :
    r < numprocs ∧ ∃ v, ws[r]? = some v ∧ w.map = (local_step ops cfg numprocs r v).map := by
  unfold kmeans_step at h
  obtain ⟨x, hx, hmap, _⟩ := reduce_getElem ops _ r w h
  rw [List.getElem?_zipWith] at hx
  cases hr : (List.range numprocs)[r]? with
  | none => rw [hr] at hx; simp at hx
  | some r2 =>
    cases hv : ws[r]? with
    | none => rw [hr, hv] at hx; simp at hx
    | some v =>
      rw [hr, hv] at hx
      simp only [Option.some.injEq] at hx
      have hlt : r < (List.range numprocs).length := by
        by_contra hge
        rw [List.getElem?_eq_none (by omega)] at hr
        exact absurd hr (by simp)
      rw [List.length_range] at hlt
      rw [List.getElem?_range hlt] at hr
      simp only [Option.some.injEq] at hr
      subst hr
      exact ⟨hlt, v, rfl, by rw [hmap, ← hx]⟩

theorem steps_succ_par {F : Type} (ops : FloatOps F) (cfg : Config F) (numprocs n : Nat)
    (ws : List (State F)) :
    steps ops cfg numprocs (n + 1) ws = kmeans_step ops cfg numprocs (steps ops cfg numprocs n ws)
    := by
  unfold steps
  rw [Function.iterate_succ_apply']

theorem steps_length {F : Type} (ops : FloatOps F) (cfg : Config F) (numprocs n : Nat)
    (ws : List (State F)) (h : ws.length = numprocs) :
    (steps ops cfg numprocs n ws).length = numprocs := by
  induction n with
  | zero => exact h
  | succ n ih => rw [steps_succ_par]; exact kmeans_step_length ops cfg numprocs _ ih

/-- After any number of loop bodies, a worker's `map` differs from the initial
one only inside the worker's partition. -/
theorem steps_map_frame {F : Type} (ops : FloatOps F) (cfg : Config F) (numprocs : Nat)
    (s0 : State F) (rank k : Nat)
    (hk : ¬ (range_start cfg.npoints rank numprocs ≤ k ∧
      k < range_stop cfg.npoints rank numprocs)) :
    ∀ n w, (steps ops cfg numprocs n (List.replicate numprocs s0))[rank]? = some w →
      w.map.getD k 0 = s0.map.getD k 0 := by
  intro n
  induction n with
  | zero =>
    intro w hw
    have hw2 : (List.replicate numprocs s0)[rank]? = some w := hw
    rw [List.getElem?_replicate] at hw2
    split at hw2
    · simp only [Option.some.injEq] at hw2
      rw [← hw2]
    · simp at hw2
  | succ n ih =>
    intro w hw
    rw [steps_succ_par] at hw
    obtain ⟨_, v, hv, hmap⟩ := kmeans_step_getElem ops cfg numprocs _ rank w hw
    rw [hmap, local_step_map_frame ops cfg numprocs rank v k hk]
    exact ih v hv

/-- The loop returns the workers reached after some number of loop bodies. -/
theorem kmeans_loop_steps_par {F : Type} (ops : FloatOps F) (cfg : Config F)
    (numprocs : Nat) :
    ∀ (fuel : Nat) (ws ws1 : List (State F)), kmeans_loop ops cfg numprocs fuel ws = some ws1 →
      ∃ n, 1 ≤ n ∧ n ≤ fuel ∧ ws1 = steps ops cfg numprocs n ws := by
  intro fuel
  induction fuel with
  | zero => intro ws ws1 h; simp [kmeans_loop] at h
  | succ fuel ih =>
    intro ws ws1 h
    rw [kmeans_loop] at h
    split at h
    · obtain ⟨n, h1, h2, h3⟩ := ih _ _ h
      refine ⟨n + 1, by omega, by omega, ?_⟩
      rw [h3]
      unfold steps
      rw [Function.iterate_succ_apply]
    · refine ⟨1, le_refl 1, by omega, ?_⟩
      simp only [Option.some.injEq] at h
      rw [← h]
      rfl

end KmGpt

/-- C17: in the parallel form, `populate(start, end)` changes `map` only at
indices of `[start, end)` and `compute_centroids(start, end)` changes no entry of
`map`; so for every worker `rank < numprocs` and every point index `i` outside the
worker's partition, the worker's `map[i]` after any number `n` of loop bodies, and
in the map returned by `kmeans`, is the value that initialisation gave it. -/
theorem worker_writes_own_partition {F : Type} (ops : FloatOps F) (cfg : Config F)
    (rng : Rng) (numprocs rank i : Nat) (hr : rank < numprocs)
    (hout : ¬ (KmGpt.range_start cfg.npoints rank numprocs ≤ i ∧
      i < KmGpt.range_stop cfg.npoints rank numprocs)) :
    (∀ s, (KmGpt.populate ops cfg (KmGpt.range_start cfg.npoints rank numprocs)
        (KmGpt.range_stop cfg.npoints rank numprocs) s).map.getD i 0 = s.map.getD i 0) ∧
    (∀ s, (KmGpt.compute_centroids ops cfg (KmGpt.range_start cfg.npoints rank numprocs)
        (KmGpt.range_stop cfg.npoints rank numprocs) s).map = s.map) ∧
    (∀ n, ∃ w,
      (KmGpt.steps ops cfg numprocs n
        (List.replicate numprocs (KmGpt.kmeans_init ops cfg rng)))[rank]? = some w ∧
      w.map.getD i 0 = (KmGpt.kmeans_init ops cfg rng).map.getD i 0) ∧
    (∀ fuel maps, KmGpt.kmeans ops cfg numprocs fuel rng = some maps →
      ∃ m, maps[rank]? = some m ∧
        m.getD i 0 = (KmGpt.kmeans_init ops cfg rng).map.getD i 0) := by
  have hsteps : ∀ n, ∃ w,
      (KmGpt.steps ops cfg numprocs n
        (List.replicate numprocs (KmGpt.kmeans_init ops cfg rng)))[rank]? = some w ∧
      w.map.getD i 0 = (KmGpt.kmeans_init ops cfg rng).map.getD i 0 := by
    intro n
    have hlen := KmGpt.steps_length ops cfg numprocs n
      (List.replicate numprocs (KmGpt.kmeans_init ops cfg rng)) (List.length_replicate _ _)
    have hget := List.getElem?_eq_getElem (l := KmGpt.steps ops cfg numprocs n
      (List.replicate numprocs (KmGpt.kmeans_init ops cfg rng))) (n := rank)
      (by rw [hlen]; exact hr)
    exact ⟨_, hget, KmGpt.steps_map_frame ops cfg numprocs _ rank i hout n _ hget⟩
  refine ⟨fun s => KmGpt.populate_map_frame ops cfg _ _ s i hout,
    fun s => (KmGpt.compute_centroids_spec ops cfg _ _ s).1, hsteps, ?_⟩
  intro fuel maps hk
  unfold KmGpt.kmeans at hk
  cases hl : KmGpt.kmeans_loop ops cfg numprocs fuel
      (List.replicate numprocs (KmGpt.kmeans_init ops cfg rng)) with
  | none => rw [hl] at hk; simp at hk
  | some ws1 =>
    rw [hl] at hk
    simp only [Option.map_some', Option.some.injEq] at hk
    obtain ⟨n, _, _, hn⟩ := KmGpt.kmeans_loop_steps_par ops cfg numprocs fuel _ _ hl
    obtain ⟨w, hw, hwi⟩ := hsteps n
    rw [← hn] at hw
    refine ⟨w.map, ?_, hwi⟩
    rw [← hk, List.getElem?_map, hw]
    rfl

namespace KmGpt

/-- A reduction whose contributions are all the same value `x`, with
`op x x = x`, returns `x`. -/
theorem allreduce_const {α : Type} (op : α → α → α) (dflt x : α) (hop : op x x = x) :
    ∀ (xs : List α), xs ≠ [] → (∀ y, y ∈ xs → y = x) → allreduce op dflt xs = x := by
  intro xs hne hall
  cases xs with
  | nil => exact absurd rfl hne
  | cons y ys =>
    unfold allreduce
    have hy : y = x := hall y (List.mem_cons_self _ _)
    subst hy
    have hys : ∀ z, z ∈ ys → z = y := fun z hz => hall z (List.mem_cons_of_mem _ hz)
    clear hall hne
    induction ys with
    | nil => rfl
    | cons z zs ih =>
      simp only [List.foldl_cons]
      rw [hys z (List.mem_cons_self _ _), hop]
      exact ih (fun w hw => hys w (List.mem_cons_of_mem _ hw))

theorem mem_zipWith_elim {α β γ : Type} (f : α → β → γ) :
    ∀ (l1 : List α) (l2 : List β) (z : γ), z ∈ List.zipWith f l1 l2 → ∃ a b, z = f a b := by
  intro l1
  induction l1 with
  | nil => intro l2 z hz; simp at hz
  | cons a as ih =>
    intro l2 z hz
    cases l2 with
    | nil => simp at hz
    | cons b bs =>
      rw [List.zipWith_cons_cons, List.mem_cons] at hz
      rcases hz with h | h
      · exact ⟨a, b, h⟩
      · exact ih bs z h

theorem local_step_dirty {F : Type} (ops : FloatOps F) (cfg : Config F) (numprocs rank : Nat)
    (s : State F) :
    (local_step ops cfg numprocs rank s).dirty = List.replicate cfg.ncentroids 0 := rfl

/-- After a loop body (local passes and reductions) every worker's dirty set is
all 0: `compute_centroids` has cleared it before the reduction combines it. -/
theorem kmeans_step_dirty {F : Type} (ops : FloatOps F) (cfg : Config F) (numprocs : Nat)
    (ws : List (State F)) (w : State F) (hw : w ∈ kmeans_step ops cfg numprocs ws) :
    w.dirty = List.replicate cfg.ncentroids 0 := by
  unfold kmeans_step reduce at hw
  simp only [List.mem_map] at hw
  obtain ⟨v, hv, hvw⟩ := hw
  rw [← hvw]
  simp only
  apply allreduce_const
  · rw [List.zipWith_replicate]
    simp
  · intro hnil
    rw [List.map_eq_nil_iff] at hnil
    rw [hnil] at hv
    exact absurd hv (List.not_mem_nil _)
  · intro y hy
    rw [List.mem_map] at hy
    obtain ⟨u, hu, huy⟩ := hy
    obtain ⟨r, x, hux⟩ := mem_zipWith_elim _ _ _ u hu
    rw [← huy, hux]
    rfl

end KmGpt

/-! ## The run `3 1 2 0 0` on two workers -/

namespace KmGpt

theorem srandnum_zero : srandnum 0 = { randum_w := 521288629, randum_z := 362436069 } := by
  decide

theorem randnum_call1 : randnum { randum_w := 521288629, randum_z := 362436069 } =
    (820856226, { randum_w := 275137954, randum_z := 812916871 }) := by decide

theorem randnum_call2 : randnum { randum_w := 275137954, randum_z := 812916871 } =
    (2331188998, { randum_w := 320872198, randum_z := 307853267 }) := by decide

theorem randnum_call3 : randnum { randum_w := 320872198, randum_z := 307853267 } =
    (4033440000, { randum_w := 142960896, randum_z := 1134028772 }) := by decide

theorem randnum_call4 : randnum { randum_w := 142960896, randum_z := 1134028772 } =
    (3169966213, { randum_w := 483842181, randum_z := 2194645019 }) := by decide

theorem randnum_call5 : randnum { randum_w := 483842181, randum_z := 2194645019 } =
    (2572821606, { randum_w := 997729382, randum_z := 1515281890 }) := by decide

theorem randnum_call6 : randnum { randum_w := 997729382, randum_z := 1515281890 } =
    (100826968, { randum_w := 167739224, randum_z := 888536067 }) := by decide

theorem gen_data_seed_zero :
    gen_data (exactOps ℚ floorSqrt) 3 1 (srandnum 0) =
      ([[17826], [7942], [26880]], { randum_w := 142960896, randum_z := 1134028772 }) := by
  have a1 : 820856226 &&& 65535 = 17826 := by decide
  have a2 : 2331188998 &&& 65535 = 7942 := by decide
  have a3 : 4033440000 &&& 65535 = 26880 := by decide
  simp [gen_data, gen_row, List.range_succ, exactOps, srandnum_zero, randnum_call1,
    randnum_call2, randnum_call3, a1, a2, a3]

theorem main_config_seed_zero :
    main_config (exactOps ℚ floorSqrt) 3 1 2 0 0 = seedZeroCfg := by
  unfold main_config
  rw [gen_data_seed_zero]
  rfl

theorem kmeans_init_seed_zero :
    kmeans_init (exactOps ℚ floorSqrt) (main_config (exactOps ℚ floorSqrt) 3 1 2 0 0)
      (main_rng (exactOps ℚ floorSqrt) 3 1 0) = seedZeroInit := by
  rw [main_config_seed_zero]
  unfold kmeans_init kmeans_alloc main_rng
  rw [gen_data_seed_zero]
  simp [init_centroid, init_unmapped, List.range_succ, exactOps, randnum_call4,
    randnum_call5, randnum_call6, seedZeroCfg, seedZeroInit]

theorem distance_seed_zero :
    KmBase.v_distance (exactOps ℚ floorSqrt) 1 [7942] [26880] = 18938 ∧
    KmBase.v_distance (exactOps ℚ floorSqrt) 1 [17826] [26880] = 9054 := by
  have h2 : floorSqrt 358647844 = 18938 := by
    have := floorSqrt_sq_nat 18938; norm_num at this; exact this
  have h3 : floorSqrt 81974916 = 9054 := by
    have := floorSqrt_sq_nat 9054; norm_num at this; exact this
  constructor
  · simp [KmBase.v_distance, exactOps, List.range_succ]
    norm_num [h2]
  · simp [KmBase.v_distance, exactOps, List.range_succ]
    norm_num [h3]

end KmGpt

/-- C18 (where the code departs from the claim): on the run `3 1 2 0 0` with two
workers, worker 1 (points 1 and 2) moves point 2 from cluster 0 to cluster 1 in the
first assignment pass and `dirty[1]` is 1 after that pass; but after the loop body,
that is after `compute_centroids` and the reductions, `dirty[1]` is 0 on every
worker.  The last fact holds for every input (`KmGpt.kmeans_step_dirty`):
`compute_centroids` clears the dirty set before the max-reduction combines it. -/
theorem dirty_reduced_after_clearing :
    (KmGpt.kmeans_init (exactOps ℚ floorSqrt)
        (KmGpt.main_config (exactOps ℚ floorSqrt) 3 1 2 0 0)
        (KmGpt.main_rng (exactOps ℚ floorSqrt) 3 1 0)).map.getD 2 0 = 0 ∧
    (KmGpt.populate (exactOps ℚ floorSqrt)
        (KmGpt.main_config (exactOps ℚ floorSqrt) 3 1 2 0 0)
        (KmGpt.range_start 3 1 2) (KmGpt.range_stop 3 1 2)
        (KmGpt.kmeans_init (exactOps ℚ floorSqrt)
          (KmGpt.main_config (exactOps ℚ floorSqrt) 3 1 2 0 0)
          (KmGpt.main_rng (exactOps ℚ floorSqrt) 3 1 0))).map.getD 2 0 = 1 ∧
    (KmGpt.populate (exactOps ℚ floorSqrt)
        (KmGpt.main_config (exactOps ℚ floorSqrt) 3 1 2 0 0)
        (KmGpt.range_start 3 1 2) (KmGpt.range_stop 3 1 2)
        (KmGpt.kmeans_init (exactOps ℚ floorSqrt)
          (KmGpt.main_config (exactOps ℚ floorSqrt) 3 1 2 0 0)
          (KmGpt.main_rng (exactOps ℚ floorSqrt) 3 1 0))).dirty.getD 1 0 = 1 ∧
    (∀ w, w ∈ KmGpt.kmeans_step (exactOps ℚ floorSqrt)
        (KmGpt.main_config (exactOps ℚ floorSqrt) 3 1 2 0 0) 2
        (List.replicate 2 (KmGpt.kmeans_init (exactOps ℚ floorSqrt)
          (KmGpt.main_config (exactOps ℚ floorSqrt) 3 1 2 0 0)
          (KmGpt.main_rng (exactOps ℚ floorSqrt) 3 1 0))) →
      w.dirty.getD 1 0 = 0) := by
  have hstart : KmGpt.range_start 3 1 2 = 1 := by decide
  have hstop : KmGpt.range_stop 3 1 2 = 3 := by decide
  rw [KmGpt.kmeans_init_seed_zero, KmGpt.main_config_seed_zero, hstart, hstop]
  have hpass := KmGpt.populate_range_passInv (exactOps ℚ floorSqrt) seedZeroCfg 1 3
    seedZeroInit (by decide)
  have hnear := KmBase.populate_pass_nearest floorSqrt seedZeroCfg 1 2 seedZeroInit
    (fun m hm => by
      have h3 : seedZeroInit.map.length = 3 := rfl
      omega)
    (fun k hk1 hk2 => by
      have hk : k = 1 ∨ k = 2 := by omega
      rcases hk with rfl | rfl <;> decide)
    2 (by decide) (by decide)
  rw [← KmGpt.populate_range_eq_fold (exactOps ℚ floorSqrt) seedZeroCfg 1 3 seedZeroInit]
    at hnear
  refine ⟨rfl, ?_, ?_, ?_⟩
  · obtain ⟨⟨hb0, hb1⟩, hmin, _, _⟩ := hnear
    have hcases : (KmGpt.populate (exactOps ℚ floorSqrt) seedZeroCfg 1 3
        seedZeroInit).map.getD 2 0 = 0 ∨
        (KmGpt.populate (exactOps ℚ floorSqrt) seedZeroCfg 1 3
        seedZeroInit).map.getD 2 0 = 1 := by
      have hb2 : (KmGpt.populate (exactOps ℚ floorSqrt) seedZeroCfg 1 3
        seedZeroInit).map.getD 2 0 < 2 := hb1
      omega
    rcases hcases with h | h
    · exfalso
      have hle := hmin 1 (by decide)
      rw [h] at hle
      have hd := KmGpt.distance_seed_zero
      have hle2 : KmBase.v_distance (exactOps ℚ floorSqrt) 1 [7942] [26880] ≤
          KmBase.v_distance (exactOps ℚ floorSqrt) 1 [17826] [26880] := hle
      rw [hd.1, hd.2] at hle2
      norm_num at hle2
    · exact h
  · rcases hpass.2.2.2.1.2 1 with h | h
    · rw [h]; rfl
    · exact h
  · intro w hw
    rw [KmGpt.kmeans_step_dirty (exactOps ℚ floorSqrt) seedZeroCfg 2 _ w hw]
    rfl

/-! ## The sum reduction of the centroids -/

namespace KmGpt

end KmGpt

namespace KmGpt

end KmGpt

/-! ## The sum reduction of a centroid that no worker recomputed -/

namespace KmGpt

end KmGpt

/-! ## Binary32 addition -/

theorem list_ext_getD {α : Type} (d : α) (l1 l2 : List α) (hlen : l1.length = l2.length)
    (h : ∀ k, k < l1.length → l1.getD k d = l2.getD k d) : l1 = l2 := by
  apply List.ext_getElem hlen
  intro k h1 h2
  have hk := h k h1
  rw [List.getD_eq_getElem?_getD, List.getD_eq_getElem?_getD, List.getElem?_eq_getElem h1,
    List.getElem?_eq_getElem h2] at hk
  simpa using hk

namespace KmBase

/-- The loop returns the state after a loop body at whose end the loop
condition is false. -/
theorem kmeans_loop_exit {F : Type} (ops : FloatOps F) (cfg : Config F) :
    ∀ (fuel : Nat) (s t : State F), kmeans_loop ops cfg fuel s = some t →
      ∃ n, n < fuel ∧ t = kmeans_step ops cfg (steps ops cfg n s) ∧
        ¬ (t.too_far ≠ 0 ∧ t.has_changed ≠ 0) := by
  intro fuel
  induction fuel with
  | zero => intro s t h; simp [kmeans_loop] at h
  | succ fuel ih =>
    intro s t h
    rw [kmeans_loop] at h
    by_cases hcond : (kmeans_step ops cfg s).too_far ≠ 0 ∧ (kmeans_step ops cfg s).has_changed ≠ 0
    · rw [if_pos hcond] at h
      obtain ⟨n, h1, h2, h3⟩ := ih _ _ h
      refine ⟨n + 1, by omega, ?_, h3⟩
      rw [h2]
      unfold steps
      rw [Function.iterate_succ_apply]
    · rw [if_neg hcond] at h
      simp only [Option.some.injEq] at h
      refine ⟨0, by omega, h.symm, ?_⟩
      rw [← h]
      exact hcond

/-- With no dirty cluster, `compute_centroids` leaves the centroids as they are. -/
theorem compute_centroids_no_dirty {F : Type} (ops : FloatOps F) (cfg : Config F)
    (s : State F) (hz : ∀ c, c < cfg.ncentroids → s.dirty.getD c 0 = 0) :
    (compute_centroids ops cfg s).centroids = s.centroids := by
  unfold compute_centroids
  simp only
  refine (foldl_inv (fun t : State F => t.dirty = s.dirty ∧ t.centroids = s.centroids)
    (fun c => c < cfg.ncentroids) (compute_cluster ops cfg) ?_ (List.range cfg.ncentroids)
    { s with has_changed := 0 } ⟨rfl, rfl⟩ (fun c hc => List.mem_range.mp hc)).2
  intro t c ht hc
  unfold compute_cluster
  rw [if_pos (by rw [ht.1]; exact hz c hc)]
  exact ht

/-- The first loop body sets `has_changed`. -/
theorem first_step_has_changed {F : Type} (ops : FloatOps F) (cfg : Config F) (rng : Rng)
    (hn : 1 ≤ cfg.npoints) (hc : 1 ≤ cfg.ncentroids) :
    (kmeans_step ops cfg (kmeans_init ops cfg rng)).has_changed = 1 := by
  have hinit := kmeans_init_spec ops cfg rng hn
  have hpass := populate_passInv ops cfg (kmeans_init ops cfg rng)
    (le_of_eq hinit.2.2.2.2.1.symm)
  have hd0 : (populate ops cfg (kmeans_init ops cfg rng)).dirty.getD 0 0 = 1 := by
    rcases hpass.2.2.2.1.2 0 with h | h
    · rw [h]; exact (hinit.1 0 (by omega)).2.2.2
    · exact h
  have hspec := KmGpt.compute_centroids_spec ops cfg 0 cfg.npoints
    (populate ops cfg (kmeans_init ops cfg rng))
  rw [KmGpt.compute_centroids_full] at hspec
  have hne := hspec.2.2.2.2.2.1.mpr ⟨0, by omega, by rw [hd0]; decide⟩
  unfold kmeans_step
  rcases hspec.2.2.2.2.1 with h | h
  · exact absurd h hne
  · exact h

end KmBase

namespace KmBase

theorem steps_dirty_length {F : Type} (ops : FloatOps F) (cfg : Config F) (rng : Rng)
    (hn : 1 ≤ cfg.npoints) (n : Nat) :
    (steps ops cfg n (kmeans_init ops cfg rng)).dirty.length = cfg.ncentroids := by
  cases n with
  | zero => exact (kmeans_init_spec ops cfg rng hn).2.2.2.2.2.2.1
  | succ n =>
    rw [steps_succ]
    unfold kmeans_step
    rw [compute_centroids_dirty, List.length_replicate]

end KmBase

namespace KmBase

/-- The two ways a loop body can end the loop, for every interpretation of the
float operations, for a state `s` with a valid map. -/
theorem exit_cases_by {F : Type} (ops : FloatOps F) (cfg : Config F)
    (s : State F) (hv : ValidMap cfg.npoints cfg.ncentroids s.map)
    (hdl : s.dirty.length = cfg.ncentroids)
    (hexit : ¬ ((kmeans_step ops cfg s).too_far ≠ 0 ∧ (kmeans_step ops cfg s).has_changed ≠ 0)) :
    ((populate ops cfg s).too_far = 0 ∧ (kmeans_step ops cfg s).too_far = 0 ∧
      ∀ i, i < cfg.npoints →
        ops.lt cfg.mindistance
          (centroidDistance ops cfg (populate ops cfg s).centroids i
            (Int.toNat ((populate ops cfg s).map.getD i 0))) = false) ∨
    ((∀ c, c < cfg.ncentroids → (populate ops cfg s).dirty.getD c 0 = 0) ∧
      (kmeans_step ops cfg s).has_changed = 0 ∧
      (kmeans_step ops cfg s).centroids = s.centroids ∧
      ((∀ c, c < cfg.ncentroids → s.dirty.getD c 0 = 0) →
        (populate ops cfg s).map = s.map ∧
        ∀ i j, i < cfg.npoints → j < cfg.ncentroids →
          (j : Int) ≠ (kmeans_step ops cfg s).map.getD i 0 →
          ops.lt (centroidDistance ops cfg (kmeans_step ops cfg s).centroids i j)
            (centroidDistance ops cfg (kmeans_step ops cfg s).centroids i
              (Int.toNat ((kmeans_step ops cfg s).map.getD i 0))) = false)) := by
  have hpass := populate_passInv ops cfg s (le_of_eq hv.1.symm)
  have hspec := KmGpt.compute_centroids_spec ops cfg 0 cfg.npoints (populate ops cfg s)
  rw [KmGpt.compute_centroids_full] at hspec
  have hstep : kmeans_step ops cfg s = compute_centroids ops cfg (populate ops cfg s) := rfl
  by_cases htf : (kmeans_step ops cfg s).too_far = 0
  · left
    have htf2 := htf
    rw [hstep, hspec.2.1] at htf2
    refine ⟨htf2, htf, fun i hi => ?_⟩
    have h := hpass.2.2.2.2.2.2.mp htf2 i (Nat.zero_le i) (by omega)
    rw [hpass.1.1]
    exact h
  · right
    have hhc : (kmeans_step ops cfg s).has_changed = 0 := by
      by_contra hne
      exact hexit ⟨htf, hne⟩
    have hclean : ∀ c, c < cfg.ncentroids → (populate ops cfg s).dirty.getD c 0 = 0 := by
      intro c hc
      by_contra hne
      have := hspec.2.2.2.2.2.1.mpr ⟨c, hc, hne⟩
      rw [hstep] at hhc
      exact this hhc
    have hcen : (kmeans_step ops cfg s).centroids = s.centroids := by
      rw [hstep, compute_centroids_no_dirty _ cfg _ hclean]
      exact hpass.1.1
    refine ⟨hclean, hhc, hcen, ?_⟩
    intro _
    have hmapeq : (populate ops cfg s).map = s.map := by
      apply list_ext_getD 0 _ _ hpass.2.1
      intro k hk
      by_contra hne
      have hkn : k < cfg.npoints := by rw [hpass.2.1, hv.1] at hk; exact hk
      obtain ⟨j, hj, _, hj2⟩ := hpass.2.2.2.2.1 k (Nat.zero_le k) (by omega) hne
      have h1 := hj2 (by rw [hdl]; exact hj)
      rw [hclean j hj] at h1
      exact absurd h1 (by decide)
    refine ⟨hmapeq, ?_⟩
    intro i j hi hj hne
    rw [hstep, compute_centroids_map, hmapeq] at hne ⊢
    rw [← hstep, hcen]
    have hclean2 := hclean
    rw [populate_eq_fold] at hclean2
    exact populate_pass_quiet ops cfg 0 cfg.npoints s (fun m hm => by rw [hv.1]; omega)
      (le_of_eq hdl.symm) hclean2 i (Nat.zero_le i) (by omega) j hj hne

end KmBase

namespace KmBase

/-- With a NaN as threshold the first loop body ends the loop: every test
`distance > mindistance` is false; the first body sets `has_changed`, cluster 0 is
dirty after its assignment pass, and no distance is `<=` the threshold. -/
theorem nan_threshold_exit (cfg : Config (Option ℚ)) (rng : Rng) (hn : 1 ≤ cfg.npoints)
    (hc : 1 ≤ cfg.ncentroids) (hm : cfg.mindistance = none) :
    (∀ fuel, kmeans_loop (nanOps floorSqrt) cfg (fuel + 1)
        (kmeans_init (nanOps floorSqrt) cfg rng) =
      some (kmeans_step (nanOps floorSqrt) cfg (kmeans_init (nanOps floorSqrt) cfg rng))) ∧
    (populate (nanOps floorSqrt) cfg (kmeans_init (nanOps floorSqrt) cfg rng)).too_far = 0 ∧
    (populate (nanOps floorSqrt) cfg
      (kmeans_init (nanOps floorSqrt) cfg rng)).dirty.getD 0 0 = 1 ∧
    (kmeans_step (nanOps floorSqrt) cfg
      (kmeans_init (nanOps floorSqrt) cfg rng)).has_changed = 1 ∧
    (∀ i, nanLe
      (centroidDistance (nanOps floorSqrt) cfg
        (populate (nanOps floorSqrt) cfg (kmeans_init (nanOps floorSqrt) cfg rng)).centroids i
        (Int.toNat ((populate (nanOps floorSqrt) cfg
          (kmeans_init (nanOps floorSqrt) cfg rng)).map.getD i 0)))
      cfg.mindistance = false) := by
  have hone := one_step_of_far (nanOps floorSqrt) cfg rng hn hc
    (fun p q _ _ => by rw [hm]; rfl)
  have hinit := kmeans_init_spec (nanOps floorSqrt) cfg rng hn
  have hpass := populate_passInv (nanOps floorSqrt) cfg
    (kmeans_init (nanOps floorSqrt) cfg rng) (le_of_eq hinit.2.2.2.2.1.symm)
  refine ⟨fun fuel => hone.2.1 (fuel + 1) (by omega), hone.1, ?_,
    first_step_has_changed (nanOps floorSqrt) cfg rng hn hc, ?_⟩
  · rcases hpass.2.2.2.1.2 0 with h | h
    · rw [h]; exact (hinit.1 0 (by omega)).2.2.2
    · exact h
  · intro i
    rw [hm]
    unfold nanLe
    split
    · rfl
    · rfl

end KmBase

/-- Counterexample to C19 as stated, on the program input `npoints = 3`,
`dimension = 1`, `ncentroids = 2`, `mindistance = nan`, `seed = 0`, with floats that
have a NaN: the loop returns after its first body with `too_far = 0` and
`has_changed = 1`; cluster 0 is dirty after the final assignment pass, so (b) does
not hold; and no point's distance to its centroid is `<= mindistance`, because every
comparison with a NaN is false, so (a) as stated does not hold either. -/
theorem exit_with_nan_threshold :
    (∀ fuel, KmBase.kmeans_loop (nanOps floorSqrt)
        (KmBase.main_config (nanOps floorSqrt) 3 1 2 none 0) (fuel + 1)
        (KmBase.kmeans_init (nanOps floorSqrt)
          (KmBase.main_config (nanOps floorSqrt) 3 1 2 none 0)
          (KmBase.main_rng (nanOps floorSqrt) 3 1 0)) =
      some (KmBase.kmeans_step (nanOps floorSqrt)
        (KmBase.main_config (nanOps floorSqrt) 3 1 2 none 0)
        (KmBase.kmeans_init (nanOps floorSqrt)
          (KmBase.main_config (nanOps floorSqrt) 3 1 2 none 0)
          (KmBase.main_rng (nanOps floorSqrt) 3 1 0)))) ∧
    (KmBase.populate (nanOps floorSqrt)
        (KmBase.main_config (nanOps floorSqrt) 3 1 2 none 0)
        (KmBase.kmeans_init (nanOps floorSqrt)
          (KmBase.main_config (nanOps floorSqrt) 3 1 2 none 0)
          (KmBase.main_rng (nanOps floorSqrt) 3 1 0))).too_far = 0 ∧
    (KmBase.populate (nanOps floorSqrt)
        (KmBase.main_config (nanOps floorSqrt) 3 1 2 none 0)
        (KmBase.kmeans_init (nanOps floorSqrt)
          (KmBase.main_config (nanOps floorSqrt) 3 1 2 none 0)
          (KmBase.main_rng (nanOps floorSqrt) 3 1 0))).dirty.getD 0 0 = 1 ∧
    (KmBase.kmeans_step (nanOps floorSqrt)
        (KmBase.main_config (nanOps floorSqrt) 3 1 2 none 0)
        (KmBase.kmeans_init (nanOps floorSqrt)
          (KmBase.main_config (nanOps floorSqrt) 3 1 2 none 0)
          (KmBase.main_rng (nanOps floorSqrt) 3 1 0))).has_changed = 1 ∧
    (∀ i, nanLe
      (centroidDistance (nanOps floorSqrt)
        (KmBase.main_config (nanOps floorSqrt) 3 1 2 none 0)
        (KmBase.populate (nanOps floorSqrt)
          (KmBase.main_config (nanOps floorSqrt) 3 1 2 none 0)
          (KmBase.kmeans_init (nanOps floorSqrt)
            (KmBase.main_config (nanOps floorSqrt) 3 1 2 none 0)
            (KmBase.main_rng (nanOps floorSqrt) 3 1 0))).centroids i
        (Int.toNat ((KmBase.populate (nanOps floorSqrt)
          (KmBase.main_config (nanOps floorSqrt) 3 1 2 none 0)
          (KmBase.kmeans_init (nanOps floorSqrt)
            (KmBase.main_config (nanOps floorSqrt) 3 1 2 none 0)
            (KmBase.main_rng (nanOps floorSqrt) 3 1 0))).map.getD i 0)))
      (KmBase.main_config (nanOps floorSqrt) 3 1 2 none 0).mindistance = false) :=
  KmBase.nan_threshold_exit (KmBase.main_config (nanOps floorSqrt) 3 1 2 none 0)
    (KmBase.main_rng (nanOps floorSqrt) 3 1 0) (Nat.le_add_left 1 2) (Nat.le_add_left 1 1) rfl

/-- C19 (amended): in the single-process form with `npoints >= 1` and
`ncentroids >= 1`, for every interpretation of the float operations, the first loop
body always sets `has_changed`; and whenever the loop of `kmeans` returns a state
`t`, it is the state after loop body `n + 1` for some `n`, and for that final loop
body, run from the state `s` reached after `n` bodies: (a) `too_far` is 0: the test
`distance > mindistance` was false for every point's distance to its assigned
centroid in the final assignment pass; or (b) `n >= 1`, the assignment pass changed
no entry of `map` and left no cluster dirty, `has_changed` is 0, the recomputation
pass changed no centroid, and for every point no other centroid is strictly nearer
than the centroid it is assigned to (the test `d(j) < d(map[i])` is false for every
other cluster `j`). -/
theorem loop_exit_reason {F : Type} (ops : FloatOps F) (cfg : Config F)
    (rng : Rng) (hn : 1 ≤ cfg.npoints) (hc : 1 ≤ cfg.ncentroids) :
    (KmBase.kmeans_step ops cfg (KmBase.kmeans_init ops cfg rng)).has_changed = 1 ∧
    ∀ fuel t, KmBase.kmeans_loop ops cfg fuel (KmBase.kmeans_init ops cfg rng) = some t →
      ∃ n, n < fuel ∧
        t = KmBase.kmeans_step ops cfg (KmBase.steps ops cfg n (KmBase.kmeans_init ops cfg rng)) ∧
        (((KmBase.populate ops cfg
            (KmBase.steps ops cfg n (KmBase.kmeans_init ops cfg rng))).too_far = 0 ∧
          t.too_far = 0 ∧
          ∀ i, i < cfg.npoints →
            ops.lt cfg.mindistance
              (centroidDistance ops cfg
                (KmBase.populate ops cfg
                  (KmBase.steps ops cfg n (KmBase.kmeans_init ops cfg rng))).centroids i
                (Int.toNat ((KmBase.populate ops cfg
                  (KmBase.steps ops cfg n (KmBase.kmeans_init ops cfg rng))).map.getD i 0)))
              = false) ∨
         (1 ≤ n ∧
          (KmBase.populate ops cfg
            (KmBase.steps ops cfg n (KmBase.kmeans_init ops cfg rng))).map =
            (KmBase.steps ops cfg n (KmBase.kmeans_init ops cfg rng)).map ∧
          (∀ c, c < cfg.ncentroids →
            (KmBase.populate ops cfg
              (KmBase.steps ops cfg n (KmBase.kmeans_init ops cfg rng))).dirty.getD c 0 = 0) ∧
          t.has_changed = 0 ∧
          t.centroids = (KmBase.steps ops cfg n (KmBase.kmeans_init ops cfg rng)).centroids ∧
          ∀ i j, i < cfg.npoints → j < cfg.ncentroids → (j : Int) ≠ t.map.getD i 0 →
            ops.lt (centroidDistance ops cfg t.centroids i j)
              (centroidDistance ops cfg t.centroids i (Int.toNat (t.map.getD i 0)))
              = false)) := by
  have hfirst := KmBase.first_step_has_changed ops cfg rng hn hc
  refine ⟨hfirst, ?_⟩
  intro fuel t hloop
  obtain ⟨n, hnf, ht, hexit⟩ := KmBase.kmeans_loop_exit ops cfg fuel _ t hloop
  refine ⟨n, hnf, ht, ?_⟩
  have hv := KmBase.steps_validMap ops cfg n _ (KmBase.kmeans_init_validMap ops cfg rng hc)
  have hdl := KmBase.steps_dirty_length ops cfg rng hn n
  rw [ht] at hexit
  rcases KmBase.exit_cases_by ops cfg _ hv hdl hexit with ha | ⟨hb1, hb2, hb3, hb4⟩
  · left
    rw [ht]
    exact ha
  · right
    have hn1 : 1 ≤ n := by
      by_contra h0
      have hn0 : n = 0 := by omega
      rw [hn0] at hb2
      have : KmBase.steps ops cfg 0 (KmBase.kmeans_init ops cfg rng) =
          KmBase.kmeans_init ops cfg rng := rfl
      rw [this, hfirst] at hb2
      exact absurd hb2 (by decide)
    have hzero : ∀ c, c < cfg.ncentroids →
        (KmBase.steps ops cfg n (KmBase.kmeans_init ops cfg rng)).dirty.getD c 0 = 0 := by
      intro c hcc
      obtain ⟨m, rfl⟩ : ∃ m, n = m + 1 := ⟨n - 1, by omega⟩
      rw [KmBase.steps_succ]
      unfold KmBase.kmeans_step
      rw [KmBase.compute_centroids_dirty, getD_replicate _ _ _ _ hcc]
    rw [ht]
    exact ⟨hn1, (hb4 hzero).1, hb1, hb2, hb3, (hb4 hzero).2⟩

theorem loop_exit_reason_witness :
    (1 ≤ farCfg.npoints ∧ 1 ≤ farCfg.ncentroids) ∧
    (KmBase.kmeans_step (exactOps ℚ floorSqrt) farCfg
      (KmBase.kmeans_init (exactOps ℚ floorSqrt) farCfg (KmBase.srandnum 1))).has_changed
      = 1 ∧
    ∃ n, n < 1 ∧
      KmBase.kmeans_step (exactOps ℚ floorSqrt) farCfg
        (KmBase.kmeans_init (exactOps ℚ floorSqrt) farCfg (KmBase.srandnum 1)) =
      KmBase.kmeans_step (exactOps ℚ floorSqrt) farCfg
        (KmBase.steps (exactOps ℚ floorSqrt) farCfg n
          (KmBase.kmeans_init (exactOps ℚ floorSqrt) farCfg (KmBase.srandnum 1))) ∧
      (((KmBase.populate (exactOps ℚ floorSqrt) farCfg
          (KmBase.steps (exactOps ℚ floorSqrt) farCfg n
            (KmBase.kmeans_init (exactOps ℚ floorSqrt) farCfg (KmBase.srandnum 1)))).too_far = 0 ∧
        (KmBase.kmeans_step (exactOps ℚ floorSqrt) farCfg
          (KmBase.kmeans_init (exactOps ℚ floorSqrt) farCfg (KmBase.srandnum 1))).too_far = 0 ∧
        ∀ i, i < farCfg.npoints →
          (exactOps ℚ floorSqrt).lt farCfg.mindistance
            (centroidDistance (exactOps ℚ floorSqrt) farCfg
              (KmBase.populate (exactOps ℚ floorSqrt) farCfg
                (KmBase.steps (exactOps ℚ floorSqrt) farCfg n
                  (KmBase.kmeans_init (exactOps ℚ floorSqrt) farCfg (KmBase.srandnum 1)))).centroids i
              (Int.toNat ((KmBase.populate (exactOps ℚ floorSqrt) farCfg
                (KmBase.steps (exactOps ℚ floorSqrt) farCfg n
                  (KmBase.kmeans_init (exactOps ℚ floorSqrt) farCfg (KmBase.srandnum 1)))).map.getD i 0)))
            = false) ∨
       (1 ≤ n ∧
        (KmBase.populate (exactOps ℚ floorSqrt) farCfg
          (KmBase.steps (exactOps ℚ floorSqrt) farCfg n
            (KmBase.kmeans_init (exactOps ℚ floorSqrt) farCfg (KmBase.srandnum 1)))).map =
          (KmBase.steps (exactOps ℚ floorSqrt) farCfg n
            (KmBase.kmeans_init (exactOps ℚ floorSqrt) farCfg (KmBase.srandnum 1))).map ∧
        (∀ c, c < farCfg.ncentroids →
          (KmBase.populate (exactOps ℚ floorSqrt) farCfg
            (KmBase.steps (exactOps ℚ floorSqrt) farCfg n
              (KmBase.kmeans_init (exactOps ℚ floorSqrt) farCfg (KmBase.srandnum 1)))).dirty.getD c 0 = 0) ∧
        (KmBase.kmeans_step (exactOps ℚ floorSqrt) farCfg
          (KmBase.kmeans_init (exactOps ℚ floorSqrt) farCfg (KmBase.srandnum 1))).has_changed = 0 ∧
        (KmBase.kmeans_step (exactOps ℚ floorSqrt) farCfg
          (KmBase.kmeans_init (exactOps ℚ floorSqrt) farCfg (KmBase.srandnum 1))).centroids =
          (KmBase.steps (exactOps ℚ floorSqrt) farCfg n
            (KmBase.kmeans_init (exactOps ℚ floorSqrt) farCfg (KmBase.srandnum 1))).centroids ∧
        ∀ i j, i < farCfg.npoints → j < farCfg.ncentroids →
          (j : Int) ≠ (KmBase.kmeans_step (exactOps ℚ floorSqrt) farCfg
            (KmBase.kmeans_init (exactOps ℚ floorSqrt) farCfg (KmBase.srandnum 1))).map.getD i 0 →
          (exactOps ℚ floorSqrt).lt
            (centroidDistance (exactOps ℚ floorSqrt) farCfg
              (KmBase.kmeans_step (exactOps ℚ floorSqrt) farCfg
                (KmBase.kmeans_init (exactOps ℚ floorSqrt) farCfg (KmBase.srandnum 1))).centroids i j)
            (centroidDistance (exactOps ℚ floorSqrt) farCfg
              (KmBase.kmeans_step (exactOps ℚ floorSqrt) farCfg
                (KmBase.kmeans_init (exactOps ℚ floorSqrt) farCfg (KmBase.srandnum 1))).centroids i
              (Int.toNat ((KmBase.kmeans_step (exactOps ℚ floorSqrt) farCfg
                (KmBase.kmeans_init (exactOps ℚ floorSqrt) farCfg (KmBase.srandnum 1))).map.getD i 0)))
            = false)) :=
  ⟨⟨by decide, by decide⟩,
    (loop_exit_reason (exactOps ℚ floorSqrt) farCfg (KmBase.srandnum 1) (by decide)
      (by decide)).1,
    (loop_exit_reason (exactOps ℚ floorSqrt) farCfg (KmBase.srandnum 1) (by decide)
      (by decide)).2 1 _
      ((one_step_of_far (exactOps ℚ floorSqrt) farCfg (KmBase.srandnum 1)
        (by decide) (by decide) farCfg_far).2.1 1 (le_refl 1))⟩

theorem worker_writes_own_partition_witness :
    (0 < 2 ∧ ¬ (KmGpt.range_start sampleCfg.npoints 0 2 ≤ 2 ∧
      2 < KmGpt.range_stop sampleCfg.npoints 0 2)) ∧
    (KmGpt.populate (exactOps ℚ floorSqrt) sampleCfg
        (KmGpt.range_start sampleCfg.npoints 0 2) (KmGpt.range_stop sampleCfg.npoints 0 2)
        (KmGpt.kmeans_init (exactOps ℚ floorSqrt) sampleCfg (KmBase.srandnum 1))).map.getD 2 0
      = (KmGpt.kmeans_init (exactOps ℚ floorSqrt) sampleCfg (KmBase.srandnum 1)).map.getD 2 0 :=
  ⟨⟨by decide, by decide⟩,
    (worker_writes_own_partition (exactOps ℚ floorSqrt) sampleCfg (KmBase.srandnum 1) 2 0 2
      (by decide) (by decide)).1 _⟩

